import Mathlib

/-! aidentd: an Ident (RFC 1413) responder with NAT forwarding.

A shallow embedding of the query parser (`aidentd.c`), the local resolver's
message check (`netlink.c`), the connection-tracking scraper (`conntrack.c`),
the forward client (`forwarding.c`) and the orchestrating `main`.

Conventions of the embedding:

* a C `char` is a `Nat` (its value as an unsigned byte), a C string is the
  `List Nat` of its bytes before the terminating NUL;
* a `char *` into a scratch buffer that the code also writes to is an offset
  into a `List Nat` holding the buffer's bytes (see `cstr`);
* a pointer that may be `NULL` is an `Option`;
* the process-wide variables of `aidentd.c` and `forwarding.c` are the fields
  of `Globals`, passed explicitly;
* everything the process reads from outside (standard input, the kernel, the
  conntrack tool, the downstream ident server) is a field of `Env`.
-/

namespace Aidentd

/-! ## Bytes, C strings and the libc functions the sources call -/

/-- The bytes of a string literal. -/
def str (s : String) : List Nat := s.toList.map Char.toNat

/-- `isdigit` in the C locale. -/
def isdigit (c : Nat) : Bool := decide (48 ≤ c) && decide (c ≤ 57)

/-- `isspace` in the C locale: space, `\t`, `\n`, `\v`, `\f`, `\r`. -/
def isspace (c : Nat) : Bool := c == 32 || (decide (9 ≤ c) && decide (c ≤ 13))

/-- `iscntrl` in the C locale: bytes below 0x20, and DEL. -/
def iscntrl (c : Nat) : Bool := decide (c < 32) || c == 127

/-- Value of a run of decimal digits. -/
def dec_val (ds : List Nat) : Nat := ds.foldl (fun a c => 10 * a + (c - 48)) 0

/-- `LONG_MAX` of the LP64 targets the daemon is built for. -/
def LONG_MAX : Nat := 9223372036854775807

/-- `strtol(s, &end, 10)`: skips white space, takes an optional sign and the
longest run of digits; the value saturates at `LONG_MAX` / `LONG_MIN`.  The
second component is the number of bytes consumed (`end - s`), `0` when there
is no digit to convert. -/
def strtol (s : List Nat) : Int × Nat :=
  let ws := s.takeWhile isspace
  let s1 := s.drop ws.length
  let neg := s1.head? == some 45
  let signlen := if s1.head? == some 45 || s1.head? == some 43 then 1 else 0
  let ds := (s1.drop signlen).takeWhile isdigit
  if ds.isEmpty then (0, 0)
  else
    let v := dec_val ds
    (if neg then -((min v (LONG_MAX + 1) : Nat) : Int) else ((min v LONG_MAX : Nat) : Int),
     ws.length + signlen + ds.length)

/-- The conversion `(unsigned) x` of a `long`: reduction modulo `2^32`. -/
def to_unsigned (x : Int) : Nat := (x % 4294967296).toNat

/-- Decimal digits of `n`, most significant first (`fuel` bounds the number of
digits). -/
def fmt_digits : Nat → Nat → List Nat → List Nat
  | 0, _, acc => acc
  | fuel + 1, n, acc =>
    if n < 10 then (48 + n) :: acc
    else fmt_digits fuel (n / 10) ((48 + n % 10) :: acc)

/-- What `printf("%u", n)` writes. -/
def fmt_u (n : Nat) : List Nat := fmt_digits (n + 1) n []

/-- Offset of the first occurrence of `needle` in the string `hay`. -/
def find_sub (needle : List Nat) : List Nat → Option Nat
  | [] => if needle.isEmpty then some 0 else none
  | c :: cs =>
    if needle.isPrefixOf (c :: cs) then some 0
    else (find_sub needle cs).map (· + 1)

/-- The C string that starts at offset `i` of the buffer `b`: the bytes from
`i` up to the first NUL (or the end of what is stored in the buffer). -/
def cstr (b : List Nat) (i : Nat) : List Nat := (b.drop i).takeWhile (· != 0)

/-- `strstr(b + i, needle)` as an offset into `b`. -/
def strstr (b : List Nat) (i : Nat) (needle : List Nat) : Option Nat :=
  (find_sub needle (cstr b i)).map (· + i)

/-- `strchr(b + i, c)` (for `c` other than NUL) as an offset into `b`. -/
def strchr (b : List Nat) (i : Nat) (c : Nat) : Option Nat :=
  strstr b i [c]

/-- `*(b + i) = '\0'`. -/
def poke0 (b : List Nat) (i : Nat) : List Nat := b.set i 0

/-- `AF_INET` on Linux. -/
def AF_INET : Nat := 2

/-- `AF_INET6` on Linux. -/
def AF_INET6 : Nat := 10

/-- The libc lookups whose results depend on the host: `inet_pton(af, text)`
gives the address bytes or fails, `inet_ntop(af, bytes)` the printable form or
fails, `getpwuid(uid)` the user name when the user database has one. -/
structure Libc where
  inet_pton : Nat → List Nat → Option (List Nat)
  inet_ntop : Nat → List Nat → Option (List Nat)
  getpwuid : Nat → Option (List Nat)

/-! ## aidentd.h -/

/-- The arguments of the ident query (`struct ident_query`). -/
structure ident_query where
  local_port : Nat
  remote_port : Nat
  ip_address : Option (List Nat)
  socket_address : Option (List Nat)
  address_family : Nat
  ip_in_query_extension : Bool
deriving DecidableEq, Repr

/-! ## aidentd.c: the query parser -/

/-- Source function `read_port`.  `p` is the C string to read from.  The
first component is the port (`0` on failure), the second what `strtol` stored
into `*endptr` (the rest of the string after the digits), `none` when
`strtol` was not reached. -/
def read_port (p : List Nat) : Nat × Option (List Nat) :=
  let p1 := p.dropWhile (fun c => !isdigit c)
  if p1.isEmpty then (0, none)
  else
    let r := strtol p1
    if r.1 < 1 ∨ r.1 > 65535 then (0, some (p1.drop r.2))
    else (r.1.toNat, some (p1.drop r.2))

/-- The address token of the query extension: `p` is the string after the
colon.  White space is skipped, the next byte is taken unconditionally
(`address_from_query = p++`), and the token runs on until white space, a
control byte or the end of the string. -/
def address_token (p : List Nat) : List Nat :=
  match p.dropWhile isspace with
  | [] => []
  | c :: t => c :: t.takeWhile (fun x => !(isspace x || iscntrl x))

/-- Result of `read_query`: the returned flag, the query as left behind, and
`*got_address`. -/
structure read_result where
  ok : Bool
  query : ident_query
  got_address : Bool
deriving DecidableEq

/-- Source function `read_query`.  `input` is what `fgets` delivered: `none`
when it returned `NULL`, otherwise the bytes stored in `buf` (at most 1003,
ending with the newline if one was read). -/
def read_query (libc : Libc) (input : Option (List Nat)) (query : ident_query) :
    read_result :=
  match input with
  | none =>
    -- `return query;`: a non-null pointer converted to `bool`
    { ok := true, query := query, got_address := false }
  | some line =>
    let buf := cstr line 0
    let lp := read_port buf
    if lp.1 = 0 then
      { ok := false, query := { query with local_port := 0 }, got_address := false }
    else
      let p := lp.2.getD buf
      match find_sub [44] p with
      | none =>
        { ok := false, query := { query with local_port := 0 }, got_address := false }
      | some k =>
        let p := p.drop (k + 1)
        let rp := read_port p
        if rp.1 = 0 then
          { ok := false, query := { query with local_port := 0, remote_port := 0 },
            got_address := false }
        else
          let query := { query with local_port := lp.1, remote_port := rp.1 }
          match (if query.ip_in_query_extension then find_sub [58] p else none) with
          | none => { ok := true, query := query, got_address := false }
          | some j =>
            let address_from_query := address_token (p.drop (j + 1))
            match libc.inet_pton AF_INET address_from_query with
            | some addr =>
              match libc.inet_ntop AF_INET addr with
              | none => { ok := true, query := query, got_address := false }
              | some text =>
                { ok := true,
                  query := { query with address_family := AF_INET,
                                        socket_address := some addr,
                                        ip_address := some text },
                  got_address := true }
            | none =>
              match libc.inet_pton AF_INET6 address_from_query with
              | none => { ok := true, query := query, got_address := false }
              | some addr =>
                match libc.inet_ntop AF_INET6 addr with
                | none => { ok := true, query := query, got_address := false }
                | some text =>
                  { ok := true,
                    query := { query with address_family := AF_INET6,
                                          socket_address := some addr,
                                          ip_address := some text },
                    got_address := true }

/-! ## Process-wide state and the outcome of a guarded sub-step -/

/-- The process-wide variables: `query_fd` and `query_pipe` (aidentd.c),
`forward_address`, `forwarding_attempted` and `additional_info`
(forwarding.c).  `query_pipe` and `forward_address` record whether the
pointer is non-null.  `additional_info_freed` records that the storage
`additional_info` points to has been passed to `free` (the pointer itself
keeps its value). -/
structure Globals where
  query_fd : Int
  query_pipe : Bool
  forward_address : Bool
  forwarding_attempted : Bool
  additional_info : Option (List Nat)
  additional_info_freed : Bool
deriving DecidableEq, Repr

/-- The variables as the program starts. -/
def Globals.init : Globals :=
  { query_fd := -1, query_pipe := false, forward_address := false,
    forwarding_attempted := false, additional_info := none,
    additional_info_freed := false }

/-- How a sub-step that runs under the deadline ends: it returns a value, or
it blocks on input that does not arrive until the alarm goes off and
`handle_alarm` runs (`expired`), or it calls `error` and the process exits with
`EXIT_FAILURE` (`fatal`). -/
inductive Step (α : Type) where
  | done (a : α)
  | expired
  | fatal
deriving DecidableEq, Repr

/-! ## netlink.c: the local resolver -/

/-- The fields of `struct inet_diag_msg` read by `check_response`; the two
ports are the values `ntohs` yields, `idiag_dst` the 16 bytes of the
destination address field. -/
structure inet_diag_msg where
  idiag_family : Nat
  idiag_sport : Nat
  idiag_dport : Nat
  idiag_dst : List Nat
  idiag_uid : Nat
deriving DecidableEq, Repr

/-- The byte count `address_size` chosen by the `switch` in `check_response`. -/
def address_size (family : Nat) : Nat :=
  if family = AF_INET then 4 else if family = AF_INET6 then 16 else 0

/-- Whether `memcmp(a, b, n)` is non-zero. -/
def memcmp_differs (a b : List Nat) (n : Nat) : Bool := a.take n != b.take n

/-- The flag `match` of `check_response` as it stands when it is tested. -/
def check_match (msg : inet_diag_msg) (q : ident_query) : Bool :=
  let m := msg.idiag_sport == q.local_port && msg.idiag_dport == q.remote_port
  match q.socket_address with
  | some addr =>
    if m && q.address_family == msg.idiag_family then
      if address_size q.address_family != 0 &&
          memcmp_differs addr msg.idiag_dst (address_size q.address_family) then false
      else m
    else m
  | none => m

/-- Source function `check_response`: the user name for a matching message
(from the user database, else the decimal uid), `none` when the message does
not match. -/
def check_response (libc : Libc) (msg : inet_diag_msg) (q : ident_query) :
    Option (List Nat) :=
  if check_match msg q then
    match libc.getpwuid msg.idiag_uid with
    | some name => some name
    | none => some ((fmt_u msg.idiag_uid).take 15)
  else none

/-- One netlink message of a datagram, by `nlmsg_type`. -/
inductive nl_message where
  | done
  | error
  | diag (msg : inet_diag_msg)
deriving DecidableEq, Repr

/-- What one `recv` on the netlink socket yields: a failure, or a datagram
whose first header carries `seq` and which holds `msgs`. -/
inductive nl_recv where
  | failed
  | datagram (seq : Nat) (msgs : List nl_message)
deriving DecidableEq, Repr

/-- The inner `while (NLMSG_OK ...)` loop of `read_responses`: `some r` when
the function returns `r` from inside the loop, `none` when the datagram is
used up. -/
def scan_datagram (libc : Libc) (q : ident_query) :
    List nl_message → Option (Option (List Nat))
  | [] => none
  | nl_message.done :: _ => some none
  | nl_message.error :: _ => some none
  | nl_message.diag msg :: rest =>
    match check_response libc msg q with
    | some name => some (some name)
    | none => scan_datagram libc q rest

/-- Source function `read_responses`, over the datagrams that arrive before
the deadline; when they are used up `recv` blocks. -/
def read_responses (libc : Libc) (seq : Nat) (q : ident_query) :
    List nl_recv → Step (Option (List Nat))
  | [] => Step.expired
  | nl_recv.failed :: _ => Step.done none
  | nl_recv.datagram s msgs :: rest =>
    if s ≠ seq then read_responses libc seq q rest
    else
      match scan_datagram libc q msgs with
      | some r => Step.done r
      | none => read_responses libc seq q rest

/-- What the kernel does during `netlink`: the descriptor `socket` returns
(`none` on failure), whether `sendmsg` succeeds, and the datagrams received. -/
structure netlink_env where
  socket : Option Nat
  sendmsg_ok : Bool
  recvs : List nl_recv
deriving DecidableEq, Repr

/-- Source function `netlink` (the request is the first of the process, so
its sequence number is `1`). -/
def netlink (libc : Libc) (nl : netlink_env) (g : Globals) (query : ident_query) :
    Globals × Step (Option (List Nat)) :=
  match nl.socket with
  | none => ({ g with query_fd := -1 }, Step.done none)
  | some fd =>
    let g := { g with query_fd := (fd : Int) }
    let r := if nl.sendmsg_ok then read_responses libc 1 query nl.recvs else Step.done none
    match r with
    | Step.done res => ({ g with query_fd := -1 }, Step.done res)
    | Step.expired => (g, Step.expired)
    | Step.fatal => (g, Step.fatal)

/-! ## forwarding.c: the forward client -/

/-- Source function `close_query_fd`. -/
def close_query_fd (g : Globals) : Globals :=
  if g.query_fd ≥ 0 then { g with query_fd := -1 } else g

/-- Source function `clean_up_forwarding`: the address list is freed and its
pointer reset; `additional_info`, when set, is freed and the pointer is left
as it is. -/
def clean_up_forwarding (g : Globals) : Globals :=
  { g with forward_address := false,
           additional_info_freed := g.additional_info_freed || g.additional_info.isSome }

/-- What one `send` on the forward socket does: it takes `n` bytes, fails
with `EAGAIN` or `EINTR`, or fails otherwise. -/
inductive send_result where
  | sent (n : Nat)
  | again
  | failed
deriving DecidableEq, Repr

/-- What one `recv` of a single byte on the forward socket yields: the byte,
a failure with `EAGAIN` or `EINTR`, or another failure (including the end of
the stream). -/
inductive recv_event where
  | byte (c : Nat)
  | again
  | failed
deriving DecidableEq, Repr

/-- A connected socket to the downstream server: its descriptor, the results
of the successive `send` calls and of the successive `recv` calls that
complete before the deadline. -/
structure connection where
  fd : Nat
  sends : List send_result
  reply : List recv_event
deriving DecidableEq, Repr

/-- What happens with one resolved candidate address: `socket` fails,
`connect` fails, `connect` does not return before the deadline, or the
connection is established. -/
inductive candidate where
  | socket_failed
  | connect_failed (fd : Nat)
  | connect_blocked (fd : Nat)
  | connected (c : connection)
deriving DecidableEq, Repr

/-- The fields of the ident response (`enum fields`). -/
def FIELD_PORTS : Nat := 0

/-- Second field of the response. -/
def FIELD_REPLY_TYPE : Nat := 1

/-- Third field of the response. -/
def FIELD_INFO : Nat := 2

/-- Fourth field of the response. -/
def FIELD_USERID : Nat := 3

/-- Past the last field. -/
def FIELD_EOL : Nat := 4

/-- The `for` loop over the candidates in `forward_query`.  The state is the
value of `query_fd` and the connection it refers to; `none` as a result means
that a `connect` blocked until the deadline, with `query_fd` as given. -/
def connect_loop : Int × Option connection → List candidate →
    Int × Option (Option connection)
  | st, [] => (st.1, some st.2)
  | _, candidate.socket_failed :: rest => connect_loop (-1, none) rest
  | _, candidate.connect_failed _ :: rest => connect_loop (-1, none) rest
  | _, candidate.connect_blocked fd :: _ => ((fd : Int), none)
  | _, candidate.connected c :: rest => connect_loop ((c.fd : Int), some c) rest

/-- The request `snprintf` composes in `forward_query`. -/
def forward_request (query : ident_query) : List Nat :=
  let with_ip := query.ip_in_query_extension && query.ip_address.isSome
  fmt_u query.local_port ++ str "," ++ fmt_u query.remote_port ++
    (if with_ip then str " : " else []) ++
    (if with_ip then query.ip_address.getD [] else []) ++ str "\r\n"

/-- The `do ... while (bytes_sent > to_send)` loop that writes the request:
the final `bytes_sent`, or `none` when a `send` blocks until the deadline.
A `continue` jumps to the loop condition; a `send` takes at most the bytes it
is offered. -/
def send_loop (to_send : Nat) : Nat → List send_result → Option Nat
  | _, [] => none
  | bytes_sent, send_result.sent n :: rest =>
    if n = 0 then some bytes_sent
    else
      let bytes_sent := bytes_sent + min n (to_send - bytes_sent)
      if bytes_sent > to_send then send_loop to_send bytes_sent rest else some bytes_sent
  | bytes_sent, send_result.again :: rest =>
    if bytes_sent > to_send then send_loop to_send bytes_sent rest else some bytes_sent
  | bytes_sent, send_result.failed :: _ => some bytes_sent

/-- The variables of the reply loop: the current `field`, the bytes stored in
`buf` before `p`, `is_error`, `response` (the string it points to), and in
`info` the string the loop has assigned to the global `additional_info`
(`none` while it has assigned nothing). -/
structure reply_state where
  field : Nat
  p : List Nat
  is_error : Bool
  response : Option (List Nat)
  info : Option (List Nat)
deriving DecidableEq, Repr

/-- How the reply loop is left. -/
inductive reply_exit where
  | finished
  | jumped
  | blocked
deriving DecidableEq, Repr

/-- Whether a byte outside the user id is skipped: `c == ' ' || c == '\t' ||
c < ' ' || c >= 127` (for a signed `char` the bytes from 0x80 are negative,
for an unsigned one they are at least 127). -/
def skipped (c : Nat) : Bool := c == 32 || c == 9 || decide (c < 32) || decide (c ≥ 127)

/-- The `do ... while (!(response || p == end_of_buffer))` loop that reads the
reply byte by byte.  `finished`: left by `break` or by the loop condition;
`jumped`: left by `goto clean_up`; `blocked`: `recv` blocks until the deadline. -/
def reply_loop : reply_state → List recv_event → reply_state × reply_exit
  | st, [] => (st, reply_exit.blocked)
  | st, recv_event.failed :: _ => (st, reply_exit.finished)
  | st, recv_event.again :: rest => reply_loop st rest
  | st, recv_event.byte c :: rest =>
    if c = 0 then (st, reply_exit.finished)
    else if (st.field ≠ FIELD_USERID ∧ c = 58) ∨ c = 13 ∨ c = 10 then
      -- `*p = '\0'`: `buf` now holds the string `st.p`
      let st1 : reply_state :=
        if st.field = FIELD_REPLY_TYPE then { st with is_error := st.p != str "USERID" }
        else if st.field = FIELD_INFO then
          (if st.p.isEmpty then st else { st with info := some st.p })
        else if st.field = FIELD_USERID then { st with response := some st.p }
        else st
      if st.field = FIELD_INFO ∧ st1.is_error then
        ({ st1 with field := st.field + 1 }, reply_exit.jumped)
      else
        let st2 := { st1 with field := st.field + 1, p := [] }
        if st2.response.isNone ∧ (c = 13 ∨ c = 10) then (st2, reply_exit.finished)
        else if st2.response.isSome then (st2, reply_exit.finished)
        else reply_loop st2 rest
    else if st.field = FIELD_USERID ∨ !skipped c then
      let st1 := { st with p := st.p ++ [c] }
      if st1.p.length = 511 then (st1, reply_exit.finished) else reply_loop st1 rest
    else reply_loop st rest

/-- The test after the reply loop that accepts a user id cut short. -/
def accept_truncated (st : reply_state) : reply_state :=
  if !(st.response.isSome || st.is_error) ∧ st.field = FIELD_USERID ∧ st.p ≠ [] then
    { st with response := some st.p }
  else st

/-- What `forward_query` leaves behind: the process-wide variables, the bytes
of `buf` handed to the first `send` (when that point is reached), the count
`bytes_sent` after the send loop, and the returned user name. -/
structure forward_result where
  globals : Globals
  request : Option (List Nat)
  bytes_sent : Nat
  result : Step (Option (List Nat))
deriving DecidableEq, Repr

/-- Source function `forward_query`.  `addresses` is what `getaddrinfo` gives
for the destination: `none` on an error, else what happens with each
candidate in turn. -/
def forward_query (addresses : Option (List candidate)) (g : Globals)
    (query : ident_query) : forward_result :=
  match addresses with
  | none => { globals := g, request := none, bytes_sent := 0, result := Step.fatal }
  | some cands =>
    let g := { g with forward_address := true }
    let g := close_query_fd g
    match connect_loop (g.query_fd, none) cands with
    | (fd, none) =>
      { globals := { g with query_fd := fd }, request := none, bytes_sent := 0,
        result := Step.expired }
    | (fd, some conn) =>
      let g := { g with query_fd := fd }
      let g := clean_up_forwarding g
      let g := { g with forwarding_attempted := true }
      match conn with
      | none => { globals := g, request := none, bytes_sent := 0, result := Step.done none }
      | some c =>
        if g.query_fd < 0 then
          { globals := g, request := none, bytes_sent := 0, result := Step.done none }
        else
        let buf := forward_request query
        let to_send := buf.length
        if to_send ≥ 513 then
          { globals := g, request := none, bytes_sent := 0, result := Step.fatal }
        else
          match send_loop to_send 0 c.sends with
          | none =>
            { globals := g, request := some buf, bytes_sent := 0, result := Step.expired }
          | some bytes_sent =>
            if bytes_sent < to_send then
              -- `goto clean_up` with `response == NULL`
              { globals := close_query_fd g, request := some buf, bytes_sent := bytes_sent,
                result := Step.done none }
            else
              let st0 : reply_state :=
                { field := FIELD_PORTS, p := [], is_error := false, response := none,
                  info := none }
              let set_info (g : Globals) (st : reply_state) : Globals :=
                match st.info with
                | some i => { g with additional_info := some i, additional_info_freed := false }
                | none => g
              match reply_loop st0 c.reply with
              | (st, reply_exit.blocked) =>
                { globals := set_info g st, request := some buf, bytes_sent := bytes_sent,
                  result := Step.expired }
              | (st, reply_exit.jumped) =>
                { globals := close_query_fd (set_info g st), request := some buf,
                  bytes_sent := bytes_sent, result := Step.done st.response }
              | (st, reply_exit.finished) =>
                { globals := close_query_fd (set_info g st), request := some buf,
                  bytes_sent := bytes_sent, result := Step.done (accept_truncated st).response }

/-! ## conntrack.c: the NAT resolver -/

/-- What the scan of one line leaves in the variables `client`, `server`,
`source` (the strings they point to, read once all terminators are written),
`client_port`, `server_port` and `router_port`. -/
structure ct_row where
  client : Option (List Nat)
  server : Option (List Nat)
  source : Option (List Nat)
  client_port : Nat
  server_port : Nat
  router_port : Nat
deriving DecidableEq, Repr

/-- The pattern `p = strstr(side, key); p ? (unsigned) strtol(p + 6, NULL, 10) : 0`. -/
def ct_port (buf : List Nat) (side : Nat) (key : List Nat) : Nat :=
  match strstr buf side key with
  | some p => to_unsigned (strtol (cstr buf (p + 6))).1
  | none => 0

/-- The body of the `while` loop of `conntrack` up to the computation of
`match`, for the line `fgets` stored in `buf`: `none` when the line is skipped
for lack of two `src=`.  (When the line starts with `src=` the byte written
through `lan_side - 1` lies before `buf` and is not part of any string read.) -/
def conntrack_row (line : List Nat) : Option ct_row :=
  let buf := line
  match strstr buf 0 (str "src=") with
  | none => none
  | some lan_side =>
    let buf := if lan_side = 0 then buf else poke0 buf (lan_side - 1)
    match strstr buf (lan_side + 4) (str "src=") with
    | none => none
    | some nat_side =>
      let buf := poke0 buf (nat_side - 1)
      let client_port := ct_port buf lan_side (str "sport=")
      let server_port := ct_port buf nat_side (str "sport=")
      let router_port := ct_port buf nat_side (str "dport=")
      let pc := strchr buf (lan_side + 4) 32
      let buf := match pc with
        | some p => poke0 buf p
        | none => buf
      let source := (strstr buf nat_side (str "dst=")).map (· + 4)
      let buf := match source with
        | some s =>
          (match strchr buf s 32 with
           | some p => poke0 buf p
           | none => buf)
        | none => buf
      let ps := strchr buf (nat_side + 4) 32
      let buf := match ps with
        | some p => poke0 buf p
        | none => buf
      some { client := pc.map (fun _ => cstr buf (lan_side + 4)),
             server := ps.map (fun _ => cstr buf (nat_side + 4)),
             source := source.map (cstr buf),
             client_port := client_port,
             server_port := server_port,
             router_port := router_port }

/-- The value of `match` at the end of the loop body. -/
def row_match (q : ident_query) (row : ct_row) : Bool :=
  let m := row.client.isSome && row.source.isSome &&
    q.remote_port == row.server_port && q.local_port == row.router_port
  if m && row.client == row.source then false else m

/-- Whether the loop body sets `match` for this line. -/
def row_accepted (q : ident_query) (line : List Nat) : Bool :=
  match conntrack_row line with
  | some row => row_match q row
  | none => false

/-- The loop `while (!match && fgets(buf, bufsize, query_pipe))` over the
lines the tool prints: the variables of the line that set `match`, if any. -/
def conntrack_scan (q : ident_query) : List (List Nat) → Option ct_row
  | [] => none
  | line :: rest =>
    match conntrack_row line with
    | some row => if row_match q row then some row else conntrack_scan q rest
    | none => conntrack_scan q rest

/-- The `forwarded_query` that `conntrack` builds for a matched row. -/
def forwarded_query (q : ident_query) (row : ct_row) : ident_query :=
  let ext := q.ip_in_query_extension && (row.server.isSome || q.ip_address.isSome)
  { local_port := row.client_port,
    remote_port := q.remote_port,
    ip_address := if ext then (if row.server.isSome then row.server else q.ip_address) else none,
    socket_address := none,
    address_family := 0,
    ip_in_query_extension := ext }

/-- The shell command `conntrack` composes, or `none` when it does not fit into
the 512-byte buffer (`error("CT command buffer")`). -/
def conntrack_command (conntrack_path : Option (List Nat)) (q : ident_query) :
    Option (List Nat) :=
  let cmd := conntrack_path.getD (str "conntrack") ++ str " -L -p tcp --reply-port-src=" ++
    fmt_u q.remote_port ++ str " --reply-port-dst=" ++ fmt_u q.local_port ++
    str " 2>/dev/null"
  if cmd.length ≥ 512 then none
  else
    match q.ip_address with
    | some ip =>
      if ip.isEmpty then some cmd
      else
        let opt := str " --reply-src=" ++ ip
        if opt.length ≥ 512 - cmd.length then none else some (cmd ++ opt)
    | none => some cmd

/-- The conntrack tool as the process sees it: whether `popen` succeeds, the
lines `fgets` reads from the pipe (each at most 511 bytes), and whether the
pipe then reaches its end (`eof`) or `fgets` blocks until the deadline. -/
structure pipe_env where
  popen_ok : Bool
  lines : List (List Nat)
  eof : Bool
deriving DecidableEq, Repr

/-- A call of `forward_query` made by `conntrack`: the destination host and
the query passed. -/
structure forward_call where
  destination : List Nat
  query : ident_query
deriving DecidableEq, Repr

/-- The call of `forward_query` that `conntrack` makes for the lines read, if
it makes one. -/
def conntrack_forward (q : ident_query) (lines : List (List Nat)) : Option forward_call :=
  match conntrack_scan q lines with
  | some row => some { destination := row.client.getD [], query := forwarded_query q row }
  | none => none

/-- Source function `conntrack`.  `addresses` says what `getaddrinfo` yields
for a destination. -/
def conntrack (conntrack_path : Option (List Nat)) (pipe : pipe_env)
    (addresses : List Nat → Option (List candidate)) (g : Globals) (q : ident_query) :
    Globals × Step (Option (List Nat)) :=
  let g := { g with forwarding_attempted := false }
  match conntrack_command conntrack_path q with
  | none => (g, Step.fatal)
  | some _ =>
    if !pipe.popen_ok then ({ g with query_pipe := false }, Step.done none)
    else
      let g := { g with query_pipe := true }
      match conntrack_forward q pipe.lines with
      | none =>
        if pipe.eof then ({ g with query_pipe := false }, Step.done none)
        else (g, Step.expired)
      | some call =>
        let g := { g with query_pipe := false }
        let r := forward_query (addresses call.destination) g call.query
        (r.globals, r.result)

/-! ## aidentd.c: the orchestrator -/

/-- The settings `main` takes from the command line: `-f`, `-l` (negated),
`-i`, `-A`, `-a` and `-c`. -/
structure Config where
  fixed_local_result : Option (List Nat)
  forwarding_enabled : Bool
  validate_ip : Bool
  forward_original_ip : Bool
  accept_ip : Bool
  conntrack_path : Option (List Nat)
deriving DecidableEq, Repr

/-- What `getpeername` on standard input yields: a failure, or the family and
the address bytes of the peer. -/
inductive peer_name where
  | failed
  | named (family : Nat) (addr : List Nat)
deriving DecidableEq, Repr

/-- What reading the query line does: `fgets` blocks until the deadline, or
it returns (`none` for `NULL`, else the bytes stored). -/
inductive stdin_event where
  | blocked
  | read (line : Option (List Nat))
deriving DecidableEq, Repr

/-- Everything outside the process that one run depends on. -/
structure Env where
  libc : Libc
  peer : peer_name
  stdin : stdin_event
  nl : netlink_env
  pipe : pipe_env
  addresses : List Nat → Option (List candidate)
  write_blocked : Bool

/-- How one run of `main` ends: a response line is written and the process
exits with success; nothing is written and it exits with success (`-f !`);
`error` ends it with `EXIT_FAILURE` before a response is written; the port
pair is written and the rest of the line is printed through an
`additional_info` that has been freed; or the alarm of a deadline goes off and
what the process does from there on is undefined (see `handle_alarm`). -/
inductive Outcome where
  | response (line : List Nat)
  | no_response
  | failure
  | freed_info (header : List Nat)
  | undefined
deriving DecidableEq, Repr

/-- Source function `handle_alarm`, the handler of `SIGALRM`:
`siglongjmp(timeout_jump, sig)`.  The buffer `timeout_jump` is filled by the
`sigsetjmp` in the function `timeout`, which starts the alarm and returns 0 to
`main` at once; when the alarm goes off, the frame the buffer refers to is
gone, and the jump into it has undefined behaviour.  The branches
`if (timeout(timeout_seconds))` of `main` are entered on no defined run. -/
def handle_alarm : Outcome := Outcome.undefined

/-- The block "Obtain peer IP" of `main`. -/
def obtain_peer (cfg : Config) (libc : Libc) (peer : peer_name) (query : ident_query) :
    ident_query :=
  match peer with
  | peer_name.failed => { query with ip_in_query_extension := false }
  | peer_name.named family addr =>
    if family = AF_INET ∨ family = AF_INET6 then
      let query := { query with address_family := family }
      match libc.inet_ntop family addr with
      | some text =>
        if cfg.validate_ip then
          { query with socket_address := some addr, address_family := family,
                       ip_address := some text }
        else query
      | none => query
    else { query with ip_in_query_extension := false }

/-- The variables of `main` that the response depends on, as they stand at the
label `send_response`. -/
structure answer where
  query : ident_query
  found_result : Option (List Nat)
  error_result : List Nat
  globals : Globals
deriving DecidableEq, Repr

/-- The local lookup in `main`: `netlink`, unless a fixed local result is
configured. -/
def local_lookup (cfg : Config) (env : Env) (g : Globals) (query : ident_query) :
    Globals × Step (Option (List Nat)) :=
  if cfg.fixed_local_result.isNone then netlink env.libc env.nl g query
  else (g, Step.done none)

/-- The two lookups that `main` runs under the deadline: the local one, and
`conntrack` when that found nothing and forwarding is enabled. -/
def lookup (cfg : Config) (env : Env) (query : ident_query) :
    Globals × Step (Option (List Nat)) :=
  match local_lookup cfg env Globals.init query with
  | (g1, Step.done found) =>
    if found.isNone && cfg.forwarding_enabled then
      conntrack cfg.conntrack_path env.pipe env.addresses g1 query
    else (g1, Step.done found)
  | other => other

/-- The block "Clean up resources that may have been left due to timeout" of
`main`: the two slots are closed and reset. -/
def close_slots (g : Globals) : Globals := { g with query_fd := -1, query_pipe := false }

/-- The block "Try to resolve the query" of `main` with the clean-up that
follows it: the state at the label `send_response`, `fatal` when the process
exits through `error`, `expired` when the alarm goes off during the lookups
(`timeout` has returned 0, so the lookups are what runs). -/
def resolve (cfg : Config) (env : Env) (query : ident_query) : Step answer :=
  let query := { query with ip_in_query_extension := cfg.forward_original_ip }
  match lookup cfg env query with
  | (_, Step.fatal) => Step.fatal
  | (_, Step.expired) => Step.expired
  | (g, Step.done found) =>
    Step.done { query := query, found_result := found, error_result := str "NO-USER",
                globals := close_slots g }

/-- The query as `main` initialises it: the ports are `0`, the extension flag
is set by `-a`. -/
def initial_query (cfg : Config) : ident_query :=
  { local_port := 0, remote_port := 0, ip_address := none, socket_address := none,
    address_family := 0, ip_in_query_extension := cfg.accept_ip }

/-- The call of `read_query` in `main`, on the query the peer discovery left. -/
def parse_query (cfg : Config) (env : Env) (input : Option (List Nat)) : read_result :=
  read_query env.libc input (obtain_peer cfg env.libc env.peer (initial_query cfg))

/-- The part of `main` before the label `send_response`: the state there,
`fatal` when the process exits through `error`, `expired` when the alarm goes
off while the query line is read or during the lookups. -/
def before_response (cfg : Config) (env : Env) : Step answer :=
  match env.stdin with
  | stdin_event.blocked => Step.expired
  | stdin_event.read input =>
    let r := parse_query cfg env input
    if !r.ok then
      Step.done { query := r.query, found_result := none,
                  error_result := str "INVALID-PORT", globals := Globals.init }
    else resolve cfg env r.query

/-- The `switch` on the fixed local result after `send_response`; `none` for
`goto clean_up`. -/
def apply_fixed (fixed_local_result : Option (List Nat)) (a : answer) : Option answer :=
  match fixed_local_result with
  | some fixed =>
    if !(a.found_result.isSome || a.globals.forwarding_attempted) then
      match fixed.head? with
      | none => some a
      | some c =>
        if c = 42 then some a
        else if c = 33 then none
        else if c = 63 then some { a with error_result := str "HIDDEN-USER" }
        else some { a with found_result := some fixed }
    else some a
  | none => some a

/-- The first `printf` of the response: `"%u,%u:"`. -/
def response_header (query : ident_query) : List Nat :=
  fmt_u query.local_port ++ str "," ++ fmt_u query.remote_port ++ str ":"

/-- The second `printf` of the response, `"USERID:%s:%s\r\n"` or
`"ERROR:%s\r\n"`. -/
def response_body (found_result additional_info : Option (List Nat))
    (error_result : List Nat) : List Nat :=
  match found_result with
  | some userid =>
    str "USERID:" ++ additional_info.getD (str "UNIX") ++ str ":" ++ userid ++ str "\r\n"
  | none => str "ERROR:" ++ additional_info.getD error_result ++ str "\r\n"

/-- The bytes the two `printf` calls of `main` write. -/
def response_line (a : answer) : List Nat :=
  response_header a.query ++
    response_body a.found_result a.globals.additional_info a.error_result

/-- The block that writes the response (`timeout` has returned 0, so the two
`printf` calls are what runs); when they block, the alarm goes off. -/
def write_response (write_blocked : Bool) (a : answer) : Outcome :=
  if write_blocked then handle_alarm
  else if a.globals.additional_info.isSome && a.globals.additional_info_freed then
    Outcome.freed_info (response_header a.query)
  else Outcome.response (response_line a)

/-- Source function `main`, from the point where the options are parsed and
the privileges reduced.  Each of its three stages (reading the query, the
lookups, writing the response) starts with `timeout(timeout_seconds)`, which
sets the alarm and returns 0, so the stage itself is what runs; an alarm that
goes off while the stage blocks runs `handle_alarm`. -/
def main (cfg : Config) (env : Env) : Outcome :=
  match before_response cfg env with
  | Step.fatal => Outcome.failure
  | Step.expired => handle_alarm
  | Step.done a =>
    match apply_fixed cfg.fixed_local_result a with
    | none => Outcome.no_response
    | some a => write_response env.write_blocked a

/-! ## privileges.c: the privilege reducer -/

/-- `CAP_NET_ADMIN` of `linux/capability.h`. -/
def CAP_NET_ADMIN : Nat := 12

/-- `CAP_SETPCAP` of `linux/capability.h`. -/
def CAP_SETPCAP : Nat := 8

/-- `CAP_SETGID` of `linux/capability.h`. -/
def CAP_SETGID : Nat := 6

/-- `CAP_SETUID` of `linux/capability.h`. -/
def CAP_SETUID : Nat := 7

/-- The library and system calls of `privileges.c` whose failure the code
tests, one constructor per call site: those of `set_file_capabilites`
(`file_`, with `file_needed_` for the process capabilities it raises), of
`retain_capabilities`, the two identity calls, the `cap_get_flag` on the
current process set, and those of `inheritable_capabilities` and
`discard_capabilities`. -/
inductive priv_call where
  | file_open
  | file_cap_get_fd
  | file_cap_init
  | file_cap_get_flag
  | file_needed_set_flag
  | file_needed_set_proc
  | file_set_flag_inheritable
  | file_set_flag_effective
  | file_cap_set_fd
  | retain_cap_clear
  | retain_set_flag_effective
  | retain_set_flag_permitted
  | retain_set_proc
  | retain_prctl
  | setregid
  | setreuid
  | current_cap_get_flag
  | inherit_set_flag_effective
  | inherit_set_flag_inheritable
  | inherit_set_proc
  | discard_set_flag_effective
  | discard_set_flag_permitted
  | discard_set_proc
  | discard_prctl
deriving DecidableEq, Repr

/-- What the privilege reducer finds outside itself: which calls fail, the
effective uid and gid, and which capabilities the tool's file capability set
and the process set (as read after the user change) hold as inheritable and
effective. -/
structure priv_env where
  fails : priv_call → Bool
  euid : Nat
  egid : Nat
  file_has : Nat → Bool
  current_has : Nat → Bool

/-- Source function `already_have_capabilities` on the first `num_caps`
entries of `caps`, given whether `cap_get_flag` fails and what the set
holds; `none` when it ends the process through `error`. -/
def already_have_capabilities (get_flag_fails : Bool) (has : Nat → Bool) :
    List Nat → Option Bool
  | [] => some true
  | cap :: caps =>
    if get_flag_fails then none
    else if !has cap then some false
    else already_have_capabilities get_flag_fails has caps

/-- Source function `set_file_capabilites` for the list `caps` (the first
`num_caps` entries passed).  The first component says whether the function
returns (`false`: the process ends through `error`), the second whether
`cap_set_fd` has written the file's capabilities. -/
def set_file_capabilites (env : priv_env) (caps : List Nat) : Bool × Bool :=
  if caps.length < 1 then (true, false)
  else if env.fails priv_call.file_open then (false, false)
  else
    let capabilities : Option (Nat → Bool) :=
      if env.fails priv_call.file_cap_get_fd then
        -- a warning, then `cap_init`
        (if env.fails priv_call.file_cap_init then none else some (fun _ => false))
      else some env.file_has
    match capabilities with
    | none => (false, false)
    | some has =>
      match already_have_capabilities (env.fails priv_call.file_cap_get_flag) has caps with
      | none => (false, false)
      | some true => (true, false)
      | some false =>
        if env.fails priv_call.file_needed_set_flag then (false, false)
        else if env.fails priv_call.file_needed_set_proc then (false, false)
        else if env.fails priv_call.file_set_flag_inheritable then (false, false)
        else if env.fails priv_call.file_set_flag_effective then (false, false)
        else if env.fails priv_call.file_cap_set_fd then (true, false) -- `warning(file)`
        else (true, true)

/-- Source function `retain_capabilities`: whether it returns. -/
def retain_capabilities (env : priv_env) (caps : List Nat) : Bool :=
  if caps.length < 1 then true
  else if env.fails priv_call.retain_cap_clear then false
  else if env.fails priv_call.retain_set_flag_effective then false
  else if env.fails priv_call.retain_set_flag_permitted then false
  else if env.fails priv_call.retain_set_proc then false
  else if env.fails priv_call.retain_prctl then false
  else true

/-- Source function `inheritable_capabilities`: whether it returns. -/
def inheritable_capabilities (env : priv_env) (caps : List Nat) : Bool :=
  if caps.length < 1 then true
  else if env.fails priv_call.inherit_set_flag_effective then false
  else if env.fails priv_call.inherit_set_flag_inheritable then false
  else if env.fails priv_call.inherit_set_proc then false
  else true

/-- Source function `discard_capabilities`: whether it returns.  Each of its
four tests of a failure (`cap_set_flag` twice, `cap_set_proc`, `prctl`) leads
to `warning`, never to `error`. -/
def discard_capabilities (env : priv_env) (caps : List Nat) : Bool :=
  if caps.length < 1 then true
  else if env.fails priv_call.discard_set_flag_effective ||
      env.fails priv_call.discard_set_flag_permitted ||
      env.fails priv_call.discard_set_proc ||
      env.fails priv_call.discard_prctl then true
  else true

/-- What one call of `minimal_privileges_as` does: the capability lists it
hands to `set_file_capabilites`, to `retain_capabilities`, to
`inheritable_capabilities` and to `discard_capabilities` (`none` for a step
that is not reached or not called), whether the file capabilities were
written, and whether the function returns to its caller (`false`: the process
ends through `error`). -/
structure priv_trace where
  file_list : List Nat
  file_written : Bool
  retain_list : Option (List Nat)
  inherit_list : Option (List Nat)
  discard_list : Option (List Nat)
  returned : Bool
deriving DecidableEq, Repr

/-- Whether `minimal_privileges_as` leaves the user as it is:
`(uid == 0 && gid == 0) || (uid == geteuid() && gid == getegid())`. -/
def no_user_change (env : priv_env) (uid gid : Nat) : Bool :=
  (uid == 0 && gid == 0) || (uid == env.euid && gid == env.egid)

/-- The block `if (change_user) { ... }` of `minimal_privileges_as`: whether
the process gets past it. -/
def change_identity (env : priv_env) (change_user : Bool) (kept : List Nat) : Bool :=
  if change_user then
    retain_capabilities env kept &&
      !env.fails priv_call.setregid && !env.fails priv_call.setreuid
  else true

/-- The block `if (!already_have_capabilities(...)) { ... }` on the current
process set: whether the process gets past it. -/
def make_inheritable (env : priv_env) (have_them : Bool) (needed : List Nat) : Bool :=
  if have_them then true else inheritable_capabilities env needed

/-- The steps of `minimal_privileges_as` once its counts are settled: `needed`
is the list `(needed_caps, all_caps)`, `kept` the list `(num_caps, all_caps)`
and `dropped` the list `(num_caps - needed_caps, all_caps + needed_caps)`. -/
def privilege_steps (env : priv_env) (change_user : Bool)
    (needed kept dropped : List Nat) : priv_trace :=
  let file_step := set_file_capabilites env needed
  let retain_list := if change_user then some kept else none
  if !file_step.1 then
    { file_list := needed, file_written := false, retain_list := none,
      inherit_list := none, discard_list := none, returned := false }
  else if !change_identity env change_user kept then
    { file_list := needed, file_written := file_step.2, retain_list := retain_list,
      inherit_list := none, discard_list := none, returned := false }
  else
    match already_have_capabilities (env.fails priv_call.current_cap_get_flag)
        env.current_has needed with
    | none =>
      { file_list := needed, file_written := file_step.2, retain_list := retain_list,
        inherit_list := none, discard_list := none, returned := false }
    | some have_them =>
      let inherit_list := if have_them then none else some needed
      if !make_inheritable env have_them needed then
        { file_list := needed, file_written := file_step.2, retain_list := retain_list,
          inherit_list := inherit_list, discard_list := none, returned := false }
      else
        { file_list := needed, file_written := file_step.2, retain_list := retain_list,
          inherit_list := inherit_list, discard_list := some dropped,
          returned := discard_capabilities env dropped }

/-- Source function `minimal_privileges_as`. -/
def minimal_privileges_as (env : priv_env) (uid gid : Nat) (need_admin : Bool) :
    priv_trace :=
  let cap_list := [CAP_NET_ADMIN, CAP_SETPCAP, CAP_SETGID, CAP_SETUID]
  let all_caps := if need_admin then cap_list else cap_list.drop 1
  let needed_caps : Nat := if need_admin then 1 else 0
  let num_caps : Nat := if need_admin then 4 else 3
  let num_caps := if no_user_change env uid gid then num_caps - 2 else num_caps
  let change_user := !no_user_change env uid gid
  privilege_steps env change_user (all_caps.take needed_caps) (all_caps.take num_caps)
    ((all_caps.drop needed_caps).take (num_caps - needed_caps))

/-! ## Specification-level notions for the query line -/

/-- The first run of decimal digits of a string. -/
def first_digits (s : List Nat) : List Nat :=
  (s.dropWhile (fun c => !isdigit c)).takeWhile isdigit

/-- What follows the first run of decimal digits of a string. -/
def after_digits (s : List Nat) : List Nat :=
  (s.dropWhile (fun c => !isdigit c)).dropWhile isdigit

/-- A port read leniently: the value of the first run of digits when there is
one and it lies in 1..65535, and `0` otherwise. -/
def port_value (s : List Nat) : Nat :=
  if first_digits s = [] ∨ dec_val (first_digits s) < 1 ∨ 65535 < dec_val (first_digits s)
  then 0 else dec_val (first_digits s)

/-- What follows the first comma of a string, when it has one. -/
def after_comma (s : List Nat) : Option (List Nat) :=
  (find_sub [44] s).map (fun k => s.drop (k + 1))

/-- The port read leniently after the first comma that follows the first run
of digits; `0` when there is no such comma. -/
def remote_value (s : List Nat) : Nat :=
  ((after_comma (after_digits s)).map port_value).getD 0

/-- A query line has no usable port pair: no local port can be read, or no
comma follows it, or no remote port can be read after the comma. -/
def bad_ports (s : List Nat) : Prop := port_value s = 0 ∨ remote_value s = 0

/-- The token after the colon of a query line: after the first comma that
follows the local port, what stands behind the first colon, read as
`address_token`; `none` when there is no such colon. -/
def extension_token (s : List Nat) : Option (List Nat) :=
  match after_comma (after_digits s) with
  | none => none
  | some rest => (find_sub [58] rest).map (fun j => address_token (rest.drop (j + 1)))

/-- The peer address fields of two queries are the same. -/
def same_peer (a b : ident_query) : Prop :=
  a.address_family = b.address_family ∧ a.socket_address = b.socket_address ∧
    a.ip_address = b.ip_address

/-! ## Specification-level notions for the response -/

/-- The variables the response is composed from when `main` reaches the block
that writes it: `none` when the process has exited with a failure before, or
leaves without a response. -/
def final_answer (cfg : Config) (env : Env) : Option answer :=
  match before_response cfg env with
  | Step.done a => apply_fixed cfg.fixed_local_result a
  | _ => none

/-- The response format of the specification: on success
`<lport>,<rport>:USERID:<info>:<userid>\r\n` with `<info>` the forwarded
system type when present and `UNIX` otherwise, on failure
`<lport>,<rport>:ERROR:<token>\r\n` with `<token>` the forwarded info when
present and the error token otherwise. -/
def reference_response (lport rport : Nat) (userid info : Option (List Nat))
    (token : List Nat) : List Nat :=
  match userid, info with
  | some u, some i =>
    fmt_u lport ++ str "," ++ fmt_u rport ++ str ":USERID:" ++ i ++ str ":" ++ u ++ str "\r\n"
  | some u, none =>
    fmt_u lport ++ str "," ++ fmt_u rport ++ str ":USERID:UNIX:" ++ u ++ str "\r\n"
  | none, some i => fmt_u lport ++ str "," ++ fmt_u rport ++ str ":ERROR:" ++ i ++ str "\r\n"
  | none, none => fmt_u lport ++ str "," ++ fmt_u rport ++ str ":ERROR:" ++ token ++ str "\r\n"

/-- The four error tokens of the specification. -/
def error_tokens : List (List Nat) :=
  [str "INVALID-PORT", str "UNKNOWN-ERROR", str "NO-USER", str "HIDDEN-USER"]

/-! ## Specification-level notions for the forward client -/

/-- The walk over the candidate addresses leaves `query_fd` on the connection
`c`. -/
abbrev connects (g : Globals) (cands : List candidate) (c : connection) : Prop :=
  connect_loop ((close_query_fd g).query_fd, none) cands = ((c.fd : Int), some (some c))

/-- The send loop ends with the whole request written. -/
abbrev sends_all (query : ident_query) (c : connection) : Prop :=
  send_loop (forward_request query).length 0 c.sends = some (forward_request query).length

/-- The request of the specification: `<lport>,<rport>\r\n`, or
`<lport>,<rport> : <peer_addr_text>\r\n` when the extension is in effect and a
peer address text is known. -/
def request_text (query : ident_query) : List Nat :=
  match query.ip_in_query_extension, query.ip_address with
  | true, some text =>
    fmt_u query.local_port ++ str "," ++ fmt_u query.remote_port ++ str " : " ++ text ++
      str "\r\n"
  | _, _ => fmt_u query.local_port ++ str "," ++ fmt_u query.remote_port ++ str "\r\n"

/-- A field of the reply with every space, tab, control byte and byte from
0x7F on removed. -/
def kept (s : List Nat) : List Nat := s.filter (fun c => !skipped c)

/-- The bytes of one of the first three fields of a reply: no colon, no CR, no
LF, no NUL. -/
abbrev field_bytes (s : List Nat) : Prop := ∀ c ∈ s, c ≠ 58 ∧ c ≠ 13 ∧ c ≠ 10 ∧ c ≠ 0

/-- The bytes of a user id: no CR, no LF, no NUL. -/
abbrev userid_bytes (s : List Nat) : Prop := ∀ c ∈ s, c ≠ 13 ∧ c ≠ 10 ∧ c ≠ 0

/-- A user id free of line ends: at most 511 bytes, none of them CR, LF or
NUL. -/
def clean_userid (u : List Nat) : Prop :=
  u.length ≤ 511 ∧ ∀ c ∈ u, c ≠ 13 ∧ c ≠ 10 ∧ c ≠ 0

/-- An info field fit for a response: not empty, at most 510 bytes, no colon,
no space, no tab, no control byte and no byte from 0x7F on. -/
def clean_info (i : List Nat) : Prop :=
  i ≠ [] ∧ i.length ≤ 510 ∧ ∀ c ∈ i, c ≠ 58 ∧ c ≠ 32 ∧ c ≠ 9 ∧ 32 ≤ c ∧ c < 127

/-- The reply loop is about to read a byte: no response yet, the buffer not
full, the bytes in it free of terminators (and, outside the user id, of colons
and skipped bytes), the recorded info field clean, and no error reply type once
the user id field is entered. -/
def reply_inv (st : reply_state) : Prop :=
  st.response = none ∧ st.field ≤ FIELD_USERID ∧ st.p.length < 511 ∧
  (∀ c ∈ st.p, c ≠ 13 ∧ c ≠ 10 ∧ c ≠ 0) ∧
  (st.field ≠ FIELD_USERID → ∀ c ∈ st.p, c ≠ 58 ∧ skipped c = false) ∧
  (∀ i, st.info = some i → clean_info i) ∧
  (st.field = FIELD_USERID → st.is_error = false)

/-- What holds of the variables of the reply loop when it is left. -/
def reply_post (st : reply_state) (ex : reply_exit) : Prop :=
  st.p.length ≤ 511 ∧
  (∀ c ∈ st.p, c ≠ 13 ∧ c ≠ 10 ∧ c ≠ 0) ∧
  (∀ u, st.response = some u →
    u.length ≤ 510 ∧ (∀ c ∈ u, c ≠ 13 ∧ c ≠ 10 ∧ c ≠ 0) ∧ st.p = []) ∧
  (∀ i, st.info = some i → clean_info i) ∧
  (ex = reply_exit.jumped → st.response = none) ∧
  (ex = reply_exit.blocked → reply_inv st)

/-- The state in which the reply loop starts. -/
def reply_start : reply_state :=
  { field := FIELD_PORTS, p := [], is_error := false, response := none, info := none }

/-! ## The successive states of the process-wide variables -/

/-- The states of the process-wide variables after each assignment `netlink`
makes to them, in order. -/
def netlink_steps (libc : Libc) (nl : netlink_env) (g : Globals) (query : ident_query) :
    List Globals :=
  match nl.socket with
  | none => [{ g with query_fd := -1 }]
  | some fd =>
    let g := { g with query_fd := (fd : Int) }
    let r := if nl.sendmsg_ok then read_responses libc 1 query nl.recvs else Step.done none
    match r with
    | Step.done _ => [g, { g with query_fd := -1 }]
    | Step.expired => [g]
    | Step.fatal => [g]

/-- The states of the process-wide variables after the statements of
`forward_query` that follow `forwarding_attempted = true` and assign one of
them: the `strdup` of the info field and the `close_query_fd` at `clean_up`,
where they are reached.  `conn` is the connection the loop over the candidates
left, `g` the state after `forwarding_attempted = true`. -/
def reply_steps (conn : Option connection) (g : Globals) (query : ident_query) :
    List Globals :=
  match conn with
  | none => []
  | some c =>
    if g.query_fd < 0 then []
    else
    let buf := forward_request query
    let to_send := buf.length
    if to_send ≥ 513 then []
    else
      match send_loop to_send 0 c.sends with
      | none => []
      | some bytes_sent =>
        if bytes_sent < to_send then [close_query_fd g]
        else
          let st0 : reply_state :=
            { field := FIELD_PORTS, p := [], is_error := false, response := none,
              info := none }
          let set_info (g : Globals) (st : reply_state) : Globals :=
            match st.info with
            | some i => { g with additional_info := some i, additional_info_freed := false }
            | none => g
          match reply_loop st0 c.reply with
          | (st, reply_exit.blocked) => [set_info g st]
          | (st, reply_exit.jumped) => [set_info g st, close_query_fd (set_info g st)]
          | (st, reply_exit.finished) => [set_info g st, close_query_fd (set_info g st)]

/-- The states of the process-wide variables after each statement of
`forward_query` that assigns one of them, in order: `getaddrinfo`,
`close_query_fd`, the loop over the candidates (taken as one step),
`clean_up_forwarding`, `forwarding_attempted = true`, and then `reply_steps`. -/
def forward_query_steps (addresses : Option (List candidate)) (g : Globals)
    (query : ident_query) : List Globals :=
  match addresses with
  | none => []
  | some cands =>
    let g1 := { g with forward_address := true }
    let g2 := close_query_fd g1
    match connect_loop (g2.query_fd, none) cands with
    | (fd, none) => [g1, g2, { g2 with query_fd := fd }]
    | (fd, some conn) =>
      let g3 := { g2 with query_fd := fd }
      let g4 := clean_up_forwarding g3
      let g5 := { g4 with forwarding_attempted := true }
      [g1, g2, g3, g4] ++ g5 :: reply_steps conn g5 query

/-- The states of the process-wide variables after each assignment `conntrack`
makes to them, in order: `forwarding_attempted = false`, `popen`, `pclose`,
and the steps of `forward_query` when a row is forwarded. -/
def conntrack_steps (conntrack_path : Option (List Nat)) (pipe : pipe_env)
    (addresses : List Nat → Option (List candidate)) (g : Globals) (q : ident_query) :
    List Globals :=
  let g1 := { g with forwarding_attempted := false }
  g1 ::
    match conntrack_command conntrack_path q with
    | none => []
    | some _ =>
      if !pipe.popen_ok then [{ g1 with query_pipe := false }]
      else
        let g2 := { g1 with query_pipe := true }
        g2 ::
          match conntrack_forward q pipe.lines with
          | none => if pipe.eof then [{ g2 with query_pipe := false }] else []
          | some call =>
            let g3 := { g2 with query_pipe := false }
            g3 :: forward_query_steps (addresses call.destination) g3 call.query

/-- The states the two lookups of `main` go through. -/
def lookup_steps (cfg : Config) (env : Env) (query : ident_query) : List Globals :=
  (if cfg.fixed_local_result.isNone then netlink_steps env.libc env.nl Globals.init query
   else []) ++
    match local_lookup cfg env Globals.init query with
    | (g1, Step.done found) =>
      if found.isNone && cfg.forwarding_enabled then
        conntrack_steps cfg.conntrack_path env.pipe env.addresses g1 query
      else []
    | _ => []

/-- The states of the process-wide variables in one run of `main`, from the
start of the process to the label `send_response`, where the fixed local
result is decided on: the initial state, the steps of the lookups, and the
clean-up of the two slots; the list ends where the process exits or the alarm
goes off. -/
def main_steps (cfg : Config) (env : Env) : List Globals :=
  Globals.init ::
    match env.stdin with
    | stdin_event.blocked => []
    | stdin_event.read input =>
      let r := parse_query cfg env input
      if !r.ok then []
      else
        let query := { r.query with ip_in_query_extension := cfg.forward_original_ip }
        lookup_steps cfg env query ++
          match lookup cfg env query with
          | (_, Step.fatal) => []
          | (_, Step.expired) => []
          | (g, Step.done _) => [close_slots g]

/-- A step from `a` to `b` does not set `forwarding_attempted` back. -/
def keeps_flag (a b : Globals) : Prop :=
  a.forwarding_attempted = true → b.forwarding_attempted = true

/-- Along `steps`, and from each of them to the state `final`,
`forwarding_attempted` is never set back. -/
def flag_rises (steps : List Globals) (final : Globals) : Prop :=
  steps.Pairwise keeps_flag ∧ ∀ a ∈ steps, keeps_flag a final

/-! ## Specification-level notions for the rows of the conntrack tool -/

/-- The two sides of an output line, split at its second `src=`: the LAN side
runs from the first `src=` up to the byte before the second one, which
separates the sides and belongs to neither; the reply side runs from the
second `src=` to the end of the line.  `none` when the line has no two `src=`. -/
def row_sides (line : List Nat) : Option (List Nat × List Nat) :=
  match find_sub (str "src=") line with
  | none => none
  | some i =>
    match find_sub (str "src=") (line.drop (i + 4)) with
    | none => none
    | some k => some ((line.drop i).take (k + 3), line.drop (i + 4 + k))

/-- The number written after the first `key` (`sport=` or `dport=`) of a side,
as `strtol` reads it, reduced modulo `2^32`; 0 when the side has no `key`. -/
def side_number (key side : List Nat) : Nat :=
  match find_sub key side with
  | some m => Int.toNat ((strtol (side.drop (m + 6))).1 % 4294967296)
  | none => 0

/-- The address written after the first `key` (`dst=`) of a side: the bytes
that follow it up to the next space or the end of the side. -/
def side_address (key side : List Nat) : Option (List Nat) :=
  (find_sub key side).map (fun m => (side.drop (m + 4)).takeWhile (· != 32))

/-- The client address of a LAN side: the bytes after its `src=` up to the
next space; `none` when no space follows within the LAN side. -/
def lan_client (lan : List Nat) : Option (List Nat) :=
  if 32 ∈ lan.drop 4 then some ((lan.drop 4).takeWhile (· != 32)) else none

/-- The decimal value of the digits written directly after the first `key` of a
side, read as a natural number of any size; 0 when the side has no `key` or no
digit follows it. -/
def side_decimal (key side : List Nat) : Nat :=
  match find_sub key side with
  | some m => dec_val ((side.drop (m + 6)).takeWhile isdigit)
  | none => 0

/-! ## Fixtures: the end-to-end scenarios of the specification -/

/-- A host whose address and user lookups all fail. -/
def no_libc : Libc := ⟨fun _ _ => none, fun _ _ => none, fun _ => none⟩

/-- A host on which uid 1000 is `alice`. -/
def alice_libc : Libc :=
  ⟨fun _ _ => none, fun _ _ => none, fun uid => if uid = 1000 then some (str "alice") else none⟩

/-- The default configuration: no fixed result, forwarding enabled, no
address options. -/
def default_config : Config :=
  { fixed_local_result := none, forwarding_enabled := true, validate_ip := false,
    forward_original_ip := false, accept_ip := false,
    conntrack_path := some (str "/usr/sbin/conntrack") }

/-- A kernel dump that holds no matching socket. -/
def local_miss : netlink_env :=
  { socket := some 3, sendmsg_ok := true, recvs := [nl_recv.datagram 1 [nl_message.done]] }

/-- A run in which the line `line` is read, the local lookup misses and the
conntrack tool prints nothing. -/
def plain_env (line : List Nat) : Env :=
  { libc := no_libc, peer := peer_name.named AF_INET [198, 51, 100, 77],
    stdin := stdin_event.read (some line), nl := local_miss,
    pipe := { popen_ok := true, lines := [], eof := true },
    addresses := fun _ => none, write_blocked := false }

/-- The conntrack row of scenario 3: LAN side `src=192.168.1.5 sport=51000`,
reply side `src=203.0.113.2 dst=198.51.100.10 sport=443 dport=34567`. -/
def nat_row : List Nat :=
  str ("tcp      6 431999 ESTABLISHED src=192.168.1.5 dst=203.0.113.2 sport=51000 dport=443 " ++
    "src=203.0.113.2 dst=198.51.100.10 sport=443 dport=34567 [ASSURED] mark=0 use=1\n")

/-- The row of scenario 3 with the reply-side `dport=` written as
`4295001863`, which is `34567 + 2^32`. -/
def wrapped_dport_row : List Nat :=
  str ("tcp      6 431999 ESTABLISHED src=192.168.1.5 dst=203.0.113.2 sport=51000 dport=443 " ++
    "src=203.0.113.2 dst=198.51.100.10 sport=443 dport=4295001863 [ASSURED] mark=0 use=1\n")

/-- The row of scenario 3 with the LAN-side `sport=` written as `4295018296`,
which is `51000 + 2^32`. -/
def wrapped_sport_row : List Nat :=
  str ("tcp      6 431999 ESTABLISHED src=192.168.1.5 dst=203.0.113.2 sport=4295018296 " ++
    "dport=443 src=203.0.113.2 dst=198.51.100.10 sport=443 dport=34567 [ASSURED] mark=0 use=1\n")

/-- A downstream server that accepts the whole request and answers `reply`. -/
def downstream (reply : List Nat) : connection :=
  { fd := 4, sends := [send_result.sent 512], reply := reply.map recv_event.byte }

/-- Scenario 3 and 4: the query `34567,443` misses locally, the conntrack tool
prints `nat_row`, and the host 192.168.1.5 answers `reply`. -/
def nat_env (reply : List Nat) : Env :=
  { libc := no_libc, peer := peer_name.named AF_INET [203, 0, 113, 2],
    stdin := stdin_event.read (some (str "34567,443\r\n")), nl := local_miss,
    pipe := { popen_ok := true, lines := [nat_row], eof := true },
    addresses := fun dest =>
      if dest = str "192.168.1.5" then some [candidate.connected (downstream reply)]
      else none,
    write_blocked := false }

/-! ## Lemmas on the libc models -/

theorem dropWhile_head_false (p : Nat → Bool) (l : List Nat) (c : Nat) (t : List Nat)
    (h : l.dropWhile p = c :: t) : p c = false := by
  induction l with
  | nil => simp at h
  | cons a l ih =>
    rw [List.dropWhile_cons] at h
    by_cases hp : p a = true
    · simp only [hp, if_true] at h
      exact ih h
    · simp only [hp] at h
      simp only [Bool.false_eq_true, if_false, List.cons.injEq] at h
      rw [← h.1]
      simpa using hp

theorem drop_length_takeWhile (p : Nat → Bool) (l : List Nat) :
    l.drop (l.takeWhile p).length = l.dropWhile p := by
  induction l with
  | nil => simp
  | cons a l ih =>
    by_cases hp : p a = true
    · simp [List.takeWhile_cons, List.dropWhile_cons, hp, ih]
    · simp [List.takeWhile_cons, List.dropWhile_cons, hp]

theorem isdigit_not_space (c : Nat) (h : isdigit c = true) : isspace c = false := by
  simp only [isdigit, Bool.and_eq_true, decide_eq_true_eq] at h
  simp only [isspace, Bool.or_eq_false_iff, beq_eq_false_iff_ne, Bool.and_eq_false_iff,
    decide_eq_false_iff_not]
  omega

theorem strtol_digits (c : Nat) (t : List Nat) (h : isdigit c = true) :
    strtol (c :: t) =
      (((min (dec_val ((c :: t).takeWhile isdigit)) LONG_MAX : Nat) : Int),
       ((c :: t).takeWhile isdigit).length) := by
  have hs : isspace c = false := isdigit_not_space c h
  have h45 : c ≠ 45 := by
    intro e; rw [e] at h; revert h; decide
  have h43 : c ≠ 43 := by
    intro e; rw [e] at h; revert h; decide
  simp [strtol, List.takeWhile_cons, hs, h, h45, h43]

theorem read_port_spec (p : List Nat) :
    read_port p =
      (port_value p, if p.dropWhile (fun c => !isdigit c) = [] then none
                     else some (after_digits p)) := by
  unfold read_port port_value first_digits after_digits
  cases hp : p.dropWhile (fun c => !isdigit c) with
  | nil => simp
  | cons c t =>
    have hc : isdigit c = true := by
      have := dropWhile_head_false _ _ _ _ hp
      simpa using this
    have hd := drop_length_takeWhile isdigit (c :: t)
    simp only [strtol_digits c t hc, List.isEmpty_cons, Bool.false_eq_true, if_false]
    rw [hd]
    have hne : (c :: t).takeWhile isdigit ≠ [] := by
      simp [List.takeWhile_cons, hc]
    simp only [hne, false_or, reduceCtorEq, if_false]
    generalize dec_val ((c :: t).takeWhile isdigit) = v
    have key : (((min v LONG_MAX : Nat) : Int) < 1 ∨ ((min v LONG_MAX : Nat) : Int) > 65535) ↔
        (v < 1 ∨ 65535 < v) := by
      rw [Nat.min_def]; unfold LONG_MAX; split <;> omega
    by_cases h : v < 1 ∨ 65535 < v
    · rw [if_pos (key.mpr h), if_pos h]
    · rw [if_neg (fun hk => h (key.mp hk)), if_neg h]
      have hmin : min v LONG_MAX = v := by
        rw [Nat.min_def]; unfold LONG_MAX; split <;> omega
      rw [hmin]; simp

/-! ## Lemmas on `read_query` -/

theorem port_value_pos_digits (s : List Nat) (h : port_value s ≠ 0) :
    s.dropWhile (fun c => !isdigit c) ≠ [] := by
  intro e
  apply h
  simp [port_value, first_digits, e]

theorem port_value_range (s : List Nat) (h : port_value s ≠ 0) :
    1 ≤ port_value s ∧ port_value s ≤ 65535 := by
  unfold port_value at h ⊢
  split
  · rename_i hc; rw [if_pos hc] at h; exact absurd rfl h
  · rename_i hc; omega

theorem read_query_rejects (libc : Libc) (line : List Nat) (q : ident_query)
    (h : bad_ports (cstr line 0)) :
    (read_query libc (some line) q).ok = false ∧
      (read_query libc (some line) q).query.local_port = 0 ∧
      ((read_query libc (some line) q).query.remote_port = 0 ∨
        (read_query libc (some line) q).query.remote_port = q.remote_port) := by
  unfold bad_ports remote_value after_comma at h
  simp only [read_query, read_port_spec]
  by_cases h1 : port_value (cstr line 0) = 0
  · simp [h1]
  · have hd := port_value_pos_digits _ h1
    simp only [h1, if_false, hd, Option.getD_some]
    rcases h with h | h
    · exact absurd h h1
    · cases hf : find_sub [44] (after_digits (cstr line 0)) with
      | none => simp
      | some k =>
        simp only [hf, Option.map_some', Option.getD_some] at h
        simp [h]

theorem read_query_accepts (libc : Libc) (line : List Nat) (q : ident_query)
    (rest : List Nat) (h1 : port_value (cstr line 0) ≠ 0)
    (h2 : after_comma (after_digits (cstr line 0)) = some rest)
    (h3 : port_value rest ≠ 0) :
    (read_query libc (some line) q).ok = true ∧
      (read_query libc (some line) q).query.local_port = port_value (cstr line 0) ∧
      (read_query libc (some line) q).query.remote_port = port_value rest := by
  unfold after_comma at h2
  have hd := port_value_pos_digits _ h1
  cases hf : find_sub [44] (after_digits (cstr line 0)) with
  | none => simp [hf] at h2
  | some k =>
    simp only [hf, Option.map_some', Option.some.injEq] at h2
    simp only [read_query, read_port_spec, h1, if_false, hd, Option.getD_some, hf, h2, h3]
    split
    · simp
    · split
      · split <;> simp
      · split
        · simp
        · split <;> simp

/-! ## Lemmas on `main` -/

theorem obtain_peer_ports (cfg : Config) (libc : Libc) (peer : peer_name) (q : ident_query) :
    (obtain_peer cfg libc peer q).local_port = q.local_port ∧
      (obtain_peer cfg libc peer q).remote_port = q.remote_port := by
  unfold obtain_peer
  cases peer with
  | failed => simp
  | named family addr =>
    simp only
    split
    · split
      · split <;> simp
      · simp
    · simp

theorem resolve_answer (cfg : Config) (env : Env) (q : ident_query) (a : answer)
    (h : resolve cfg env q = Step.done a) :
    a.query.local_port = q.local_port ∧ a.query.remote_port = q.remote_port ∧
      a.error_result = str "NO-USER" := by
  unfold resolve at h
  simp only at h
  split at h
  · exact absurd h (by simp)
  · exact absurd h (by simp)
  · simp only [Step.done.injEq] at h
    subst h
    simp

theorem apply_fixed_answer (fixed : Option (List Nat)) (a b : answer)
    (h : apply_fixed fixed a = some b) :
    b.query = a.query ∧ b.globals = a.globals ∧
      (b.error_result = a.error_result ∨ b.error_result = str "HIDDEN-USER") := by
  unfold apply_fixed at h
  split at h
  · split at h
    · split at h
      · simp only [Option.some.injEq, Step.done.injEq] at h; subst h; simp
      · split at h
        · simp only [Option.some.injEq, Step.done.injEq] at h; subst h; simp
        · split at h
          · exact absurd h (by simp)
          · split at h
            · simp only [Option.some.injEq, Step.done.injEq] at h; subst h; simp
            · simp only [Option.some.injEq, Step.done.injEq] at h; subst h; simp
    · simp only [Option.some.injEq, Step.done.injEq] at h; subst h; simp
  · simp only [Option.some.injEq, Step.done.injEq] at h; subst h; simp

theorem main_response (cfg : Config) (env : Env) (out : List Nat)
    (h : main cfg env = Outcome.response out) :
    ∃ a, final_answer cfg env = some a ∧ out = response_line a := by
  unfold main at h
  unfold final_answer
  cases hb : before_response cfg env with
  | fatal => rw [hb] at h; exact absurd h (by simp)
  | expired => rw [hb] at h; exact absurd h (by simp [handle_alarm])
  | done a0 =>
    rw [hb] at h
    simp only at h
    cases hf : apply_fixed cfg.fixed_local_result a0 with
    | none => rw [hf] at h; exact absurd h (by simp)
    | some a =>
      rw [hf] at h
      simp only [write_response] at h
      refine ⟨a, by simp [hf], ?_⟩
      split at h
      · exact absurd h (by simp [handle_alarm])
      · split at h
        · exact absurd h (by simp)
        · simp only [Outcome.response.injEq] at h
          exact h.symm

theorem response_line_reference (a : answer) :
    response_line a =
      reference_response a.query.local_port a.query.remote_port a.found_result
        a.globals.additional_info a.error_result := by
  unfold response_line response_header response_body reference_response
  cases a.found_result <;> cases a.globals.additional_info <;>
    simp [List.append_assoc, str]

theorem before_response_invalid (cfg : Config) (env : Env) (line : List Nat)
    (hstdin : env.stdin = stdin_event.read (some line))
    (hbad : bad_ports (cstr line 0)) :
    ∃ q, before_response cfg env =
        Step.done { query := q, found_result := none, error_result := str "INVALID-PORT",
                    globals := Globals.init } ∧
      q.local_port = 0 ∧ q.remote_port = 0 := by
  unfold before_response
  simp only [hstdin, parse_query]
  have hr := read_query_rejects env.libc line
    (obtain_peer cfg env.libc env.peer (initial_query cfg)) hbad
  have hp := obtain_peer_ports cfg env.libc env.peer (initial_query cfg)
  obtain ⟨h1, h2, h3⟩ := hr
  rw [h1]
  refine ⟨_, by simp, h2, ?_⟩
  rcases h3 with h3 | h3
  · exact h3
  · rw [h3]; exact hp.2

/-! ## Claims on the query parser and the response -/

/-- C1, counterexample: the line `0,5` is rejected by `read_query`, yet with
the fixed local override `?` the response `main` writes carries the token
`HIDDEN-USER`, not `INVALID-PORT`. -/
theorem invalid_port_override_counterexample :
    (read_query ⟨fun _ _ => none, fun _ _ => none, fun _ => none⟩ (some (str "0,5\r\n"))
        ⟨0, 0, none, none, 0, false⟩).ok = false ∧
      main ⟨some (str "?"), true, false, false, false, none⟩
        ⟨⟨fun _ _ => none, fun _ _ => none, fun _ => none⟩, peer_name.failed,
         stdin_event.read (some (str "0,5\r\n")), ⟨none, false, []⟩, ⟨false, [], true⟩,
         fun _ => none, false⟩
        = Outcome.response (str "0,0:ERROR:HIDDEN-USER\r\n") := by
  decide

/-- C1, amended: a query line with no usable port pair (no run of digits, or a
first run of digits outside 1..65535, or no comma after it, or the same defect
after the comma) is rejected by `read_query` whatever the query and the libc;
and when the fixed local override is unset, empty or starts with `*`, `main`
writes `0,0:ERROR:INVALID-PORT` (unless the alarm goes off while it writes,
from where on the behaviour is undefined). -/
theorem invalid_port_response (cfg : Config) (env : Env) (line : List Nat)
    (hstdin : env.stdin = stdin_event.read (some line))
    (hbad : bad_ports (cstr line 0))
    (hfixed : cfg.fixed_local_result = none ∨
      ∃ f, cfg.fixed_local_result = some f ∧ (f.head? = none ∨ f.head? = some 42)) :
    (∀ libc q, (read_query libc (some line) q).ok = false) ∧
      main cfg env =
        if env.write_blocked then Outcome.undefined
        else Outcome.response (str "0,0:ERROR:INVALID-PORT\r\n") := by
  refine ⟨fun libc q => (read_query_rejects libc line q hbad).1, ?_⟩
  obtain ⟨q, hb, hl, hr⟩ := before_response_invalid cfg env line hstdin hbad
  have hfix : apply_fixed cfg.fixed_local_result
      { query := q, found_result := none, error_result := str "INVALID-PORT",
        globals := Globals.init } =
      some { query := q, found_result := none, error_result := str "INVALID-PORT",
             globals := Globals.init } := by
    rcases hfixed with h | ⟨f, h, hh | hh⟩
    · simp [apply_fixed, h]
    · simp [apply_fixed, h, hh, Globals.init]
    · simp [apply_fixed, h, hh, Globals.init]
  unfold main
  rw [hb]
  simp only [hfix, write_response]
  by_cases hw : env.write_blocked = true
  · simp [hw, handle_alarm]
  · simp only [hw, Bool.false_eq_true, if_false]
    have : response_line
        { query := q, found_result := none, error_result := str "INVALID-PORT",
          globals := Globals.init } = str "0,0:ERROR:INVALID-PORT\r\n" := by
      simp only [response_line, response_header, hl, hr, response_body, Globals.init]
      decide
    rw [this]
    simp [Globals.init]

/-- C1, witness: the line `65536,5` with no override configured. -/
theorem invalid_port_response_witness :
    main ⟨none, true, false, false, false, none⟩
        ⟨⟨fun _ _ => none, fun _ _ => none, fun _ => none⟩, peer_name.failed,
         stdin_event.read (some (str "65536,5\r\n")), ⟨none, false, []⟩, ⟨false, [], true⟩,
         fun _ => none, false⟩
      = Outcome.response (str "0,0:ERROR:INVALID-PORT\r\n") :=
  (invalid_port_response ⟨none, true, false, false, false, none⟩
    ⟨⟨fun _ _ => none, fun _ _ => none, fun _ => none⟩, peer_name.failed,
     stdin_event.read (some (str "65536,5\r\n")), ⟨none, false, []⟩, ⟨false, [], true⟩,
     fun _ => none, false⟩ (str "65536,5\r\n") rfl (Or.inl (by decide)) (Or.inl rfl)).2

/-- C2, the code at the failing input: when `fgets` returns `NULL`,
`read_query` returns `true` (`return query;`) and leaves the query as it was,
here with both ports `0` as `main` initialises them. -/
theorem read_query_failed_read (libc : Libc) (ext : Bool) :
    (read_query libc none ⟨0, 0, none, none, 0, ext⟩).ok = true ∧
      (read_query libc none ⟨0, 0, none, none, 0, ext⟩).query.local_port = 0 ∧
      (read_query libc none ⟨0, 0, none, none, 0, ext⟩).query.remote_port = 0 := by
  simp [read_query]

/-! ## Lemmas on decimal text -/

theorem dec_val_append (xs : List Nat) (d : Nat) :
    dec_val (xs ++ [d]) = 10 * dec_val xs + (d - 48) := by
  simp [dec_val, List.foldl_append]

theorem fmt_digits_spec (fuel : Nat) : ∀ (n : Nat) (acc : List Nat), n < fuel →
    ∃ ds, fmt_digits fuel n acc = ds ++ acc ∧ ds ≠ [] ∧
      (∀ c ∈ ds, isdigit c = true) ∧ dec_val ds = n := by
  induction fuel with
  | zero => intro n acc h; omega
  | succ fuel ih =>
    intro n acc h
    unfold fmt_digits
    by_cases hn : n < 10
    · refine ⟨[48 + n], by simp [hn], by simp, ?_, ?_⟩
      · intro c hc
        simp only [List.mem_singleton] at hc
        subst hc
        simp only [isdigit, Bool.and_eq_true, decide_eq_true_eq]
        omega
      · simp [dec_val]
    · have hlt : n / 10 < fuel := by omega
      obtain ⟨ds, h1, h2, h3, h4⟩ := ih (n / 10) ((48 + n % 10) :: acc) hlt
      refine ⟨ds ++ [48 + n % 10], by simp [hn, h1], by simp, ?_, ?_⟩
      · intro c hc
        rcases List.mem_append.mp hc with hc | hc
        · exact h3 c hc
        · simp only [List.mem_singleton] at hc
          subst hc
          simp only [isdigit, Bool.and_eq_true, decide_eq_true_eq]
          omega
      · rw [dec_val_append, h4]
        omega

theorem fmt_u_spec (n : Nat) :
    fmt_u n ≠ [] ∧ (∀ c ∈ fmt_u n, isdigit c = true) ∧ dec_val (fmt_u n) = n := by
  obtain ⟨ds, h1, h2, h3, h4⟩ := fmt_digits_spec (n + 1) n [] (by omega)
  unfold fmt_u
  rw [h1, List.append_nil]
  exact ⟨h2, h3, h4⟩

theorem dropWhile_append_all (p : Nat → Bool) (pre rest : List Nat)
    (h : ∀ c ∈ pre, p c = true) : (pre ++ rest).dropWhile p = rest.dropWhile p := by
  induction pre with
  | nil => rfl
  | cons a pre ih =>
    have hrest : ∀ c ∈ pre, p c = true := fun c hc => h c (List.mem_cons_of_mem a hc)
    rw [List.cons_append, List.dropWhile_cons, if_pos (h a (List.mem_cons_self a pre))]
    exact ih hrest

theorem takeWhile_append_all (p : Nat → Bool) (pre rest : List Nat)
    (h : ∀ c ∈ pre, p c = true) : (pre ++ rest).takeWhile p = pre ++ rest.takeWhile p := by
  induction pre with
  | nil => rfl
  | cons a pre ih =>
    have hrest : ∀ c ∈ pre, p c = true := fun c hc => h c (List.mem_cons_of_mem a hc)
    rw [List.cons_append, List.takeWhile_cons, if_pos (h a (List.mem_cons_self a pre)),
      ih hrest, List.cons_append]

theorem takeWhile_head_false (p : Nat → Bool) (l : List Nat)
    (h : ∀ c, l.head? = some c → p c = false) : l.takeWhile p = [] := by
  cases l with
  | nil => rfl
  | cons a l => simp [List.takeWhile_cons, h a rfl]

theorem dropWhile_head_stop (p : Nat → Bool) (l : List Nat)
    (h : ∀ c, l.head? = some c → p c = false) : l.dropWhile p = l := by
  cases l with
  | nil => rfl
  | cons a l => simp [List.dropWhile_cons, h a rfl]

/-- The first run of digits of `pre ++ ds ++ post` is `ds` when `pre` has no
digit, `ds` is a non-empty run of digits and `post` does not start with one. -/
theorem digits_split (pre ds post : List Nat)
    (hpre : ∀ c ∈ pre, isdigit c = false) (hne : ds ≠ [])
    (hds : ∀ c ∈ ds, isdigit c = true)
    (hpost : ∀ c, post.head? = some c → isdigit c = false) :
    first_digits (pre ++ ds ++ post) = ds ∧ after_digits (pre ++ ds ++ post) = post ∧
      (pre ++ ds ++ post).dropWhile (fun c => !isdigit c) = ds ++ post := by
  have h0 : (pre ++ ds ++ post).dropWhile (fun c => !isdigit c) = ds ++ post := by
    rw [List.append_assoc, dropWhile_append_all _ pre (ds ++ post)
      (fun c hc => by simp [hpre c hc])]
    apply dropWhile_head_stop
    intro c hc
    cases ds with
    | nil => exact absurd rfl hne
    | cons d ds =>
      simp only [List.cons_append, List.head?_cons, Option.some.injEq] at hc
      subst hc
      simp [hds d (by simp)]
  refine ⟨?_, ?_, h0⟩
  · unfold first_digits
    rw [h0, takeWhile_append_all _ ds post hds, takeWhile_head_false _ post hpost,
      List.append_nil]
  · unfold after_digits
    rw [h0, dropWhile_append_all _ ds post hds]
    exact dropWhile_head_stop _ post hpost

theorem find_comma (ws rest : List Nat) (h : ∀ c ∈ ws, c ≠ 44) :
    find_sub [44] (ws ++ 44 :: rest) = some ws.length := by
  induction ws with
  | nil => simp [find_sub, List.isPrefixOf]
  | cons a ws ih =>
    have ha : a ≠ 44 := h a (by simp)
    have ha' : (44 == a) = false := by
      simp only [beq_eq_false_iff_ne, ne_eq]
      exact fun e => ha e.symm
    have hstep : find_sub [44] (a :: (ws ++ 44 :: rest)) =
        (find_sub [44] (ws ++ 44 :: rest)).map (· + 1) := by
      simp [find_sub, List.isPrefixOf, ha']
    rw [List.cons_append, hstep, ih (fun c hc => h c (by simp [hc]))]
    rfl

theorem takeWhile_head (p : Nat → Bool) (l : List Nat) (c : Nat)
    (h : (l.takeWhile p).head? = some c) : l.head? = some c := by
  cases l with
  | nil => simp at h
  | cons a l =>
    rw [List.takeWhile_cons] at h
    split at h
    · simpa using h
    · simp at h

theorem blank_not_digit (c : Nat) (h : c = 32 ∨ c = 9) : isdigit c = false := by
  rcases h with h | h <;> subst h <;> decide

theorem digit_ne_zero (c : Nat) (h : isdigit c = true) : (c != 0) = true := by
  simp only [isdigit, Bool.and_eq_true, decide_eq_true_eq] at h
  simp only [bne_iff_ne, ne_eq]
  omega

/-- The ports `read_query` stores for a line `<l> , <r> ...` with both numbers
in 1..65535. -/
theorem read_query_pair (libc : Libc) (q : ident_query) (l r : Nat)
    (ws1 ws2 ws3 tail : List Nat)
    (hl : 1 ≤ l ∧ l ≤ 65535) (hr : 1 ≤ r ∧ r ≤ 65535)
    (h1 : ∀ c ∈ ws1, c = 32 ∨ c = 9) (h2 : ∀ c ∈ ws2, c = 32 ∨ c = 9)
    (h3 : ∀ c ∈ ws3, c = 32 ∨ c = 9)
    (htail : ∀ c, tail.head? = some c → isdigit c = false) :
    (read_query libc (some (ws1 ++ fmt_u l ++ ws2 ++ [44] ++ ws3 ++ fmt_u r ++ tail)) q).ok
        = true ∧
      (read_query libc (some (ws1 ++ fmt_u l ++ ws2 ++ [44] ++ ws3 ++ fmt_u r ++ tail))
        q).query.local_port = l ∧
      (read_query libc (some (ws1 ++ fmt_u l ++ ws2 ++ [44] ++ ws3 ++ fmt_u r ++ tail))
        q).query.remote_port = r := by
  obtain ⟨lne, ldig, lval⟩ := fmt_u_spec l
  obtain ⟨rne, rdig, rval⟩ := fmt_u_spec r
  have hnz : ∀ c ∈ ws1 ++ fmt_u l ++ ws2 ++ [44] ++ ws3 ++ fmt_u r, (c != 0) = true := by
    intro c hc
    simp only [List.mem_append, List.mem_singleton] at hc
    rcases hc with ((((hc | hc) | hc) | hc) | hc) | hc
    · rcases h1 c hc with e | e <;> subst e <;> decide
    · exact digit_ne_zero c (ldig c hc)
    · rcases h2 c hc with e | e <;> subst e <;> decide
    · subst hc; decide
    · rcases h3 c hc with e | e <;> subst e <;> decide
    · exact digit_ne_zero c (rdig c hc)
  have hcstr : cstr (ws1 ++ fmt_u l ++ ws2 ++ [44] ++ ws3 ++ fmt_u r ++ tail) 0 =
      ws1 ++ fmt_u l ++ (ws2 ++ 44 :: (ws3 ++ fmt_u r ++ tail.takeWhile (· != 0))) := by
    unfold cstr
    rw [List.drop_zero, takeWhile_append_all _ _ tail hnz]
    simp [List.append_assoc]
  have htail' : ∀ c, (tail.takeWhile (· != 0)).head? = some c → isdigit c = false :=
    fun c hc => htail c (takeWhile_head _ tail c hc)
  have hpost1 : ∀ c, (ws2 ++ 44 :: (ws3 ++ fmt_u r ++ tail.takeWhile (· != 0))).head? = some c →
      isdigit c = false := by
    intro c hc
    cases ws2 with
    | nil =>
      simp only [List.nil_append, List.head?_cons, Option.some.injEq] at hc
      subst hc; decide
    | cons a ws2 =>
      simp only [List.cons_append, List.head?_cons, Option.some.injEq] at hc
      subst hc
      exact blank_not_digit _ (h2 _ (by simp))
  obtain ⟨d1, d2, _⟩ := digits_split ws1 (fmt_u l) _
    (fun c hc => blank_not_digit c (h1 c hc)) lne ldig hpost1
  obtain ⟨e1, e2, _⟩ := digits_split ws3 (fmt_u r) _
    (fun c hc => blank_not_digit c (h3 c hc)) rne rdig htail'
  have pv1 : port_value (cstr (ws1 ++ fmt_u l ++ ws2 ++ [44] ++ ws3 ++ fmt_u r ++ tail) 0)
      = l := by
    rw [hcstr]
    unfold port_value
    rw [d1, lval]
    have : ¬ (fmt_u l = [] ∨ l < 1 ∨ 65535 < l) := by
      rintro (h | h | h)
      · exact lne h
      · omega
      · omega
    rw [if_neg this]
  have ac : after_comma
      (after_digits (cstr (ws1 ++ fmt_u l ++ ws2 ++ [44] ++ ws3 ++ fmt_u r ++ tail) 0)) =
      some (ws3 ++ fmt_u r ++ tail.takeWhile (· != 0)) := by
    rw [hcstr, d2]
    unfold after_comma
    rw [find_comma ws2 _ (fun c hc => by rcases h2 c hc with e | e <;> subst e <;> decide)]
    simp
  have pv2 : port_value (ws3 ++ fmt_u r ++ tail.takeWhile (· != 0)) = r := by
    unfold port_value
    rw [e1, rval]
    have : ¬ (fmt_u r = [] ∨ r < 1 ∨ 65535 < r) := by
      rintro (h | h | h)
      · exact rne h
      · omega
      · omega
    rw [if_neg this]
  have := read_query_accepts libc _ q _ (by rw [pv1]; omega) ac (by rw [pv2]; omega)
  rw [pv1, pv2] at this
  exact this

/-- C3, counterexample: for the line `70000,80` the response `main` writes
begins with `0,0:`, not with `70000,80:`. -/
theorem round_trip_counterexample :
    main ⟨none, true, false, false, false, none⟩
        ⟨⟨fun _ _ => none, fun _ _ => none, fun _ => none⟩, peer_name.failed,
         stdin_event.read (some (fmt_u 70000 ++ str "," ++ fmt_u 80 ++ str "\r\n")),
         ⟨none, false, []⟩, ⟨false, [], true⟩, fun _ => none, false⟩
        = Outcome.response (str "0,0:ERROR:INVALID-PORT\r\n") ∧
      ¬ (fmt_u 70000 ++ str "," ++ fmt_u 80 ++ str ":" <+: str "0,0:ERROR:INVALID-PORT\r\n") := by
  decide

/-- C3, amended: for a line `<l> , <r> ...` with `l` and `r` in 1..65535 written
in decimal, blanks allowed around them, and whatever follows (an address
extension, the end of line), every response `main` writes begins with exactly
`<l>,<r>:`, whether the answer is local, forwarded or an error. -/
theorem response_echoes_ports (cfg : Config) (env : Env) (l r : Nat)
    (ws1 ws2 ws3 tail out : List Nat)
    (hl : 1 ≤ l ∧ l ≤ 65535) (hr : 1 ≤ r ∧ r ≤ 65535)
    (h1 : ∀ c ∈ ws1, c = 32 ∨ c = 9) (h2 : ∀ c ∈ ws2, c = 32 ∨ c = 9)
    (h3 : ∀ c ∈ ws3, c = 32 ∨ c = 9)
    (htail : ∀ c, tail.head? = some c → isdigit c = false)
    (hstdin : env.stdin =
      stdin_event.read (some (ws1 ++ fmt_u l ++ ws2 ++ [44] ++ ws3 ++ fmt_u r ++ tail)))
    (hout : main cfg env = Outcome.response out) :
    fmt_u l ++ str "," ++ fmt_u r ++ str ":" <+: out := by
  obtain ⟨a, hfa, hline⟩ := main_response cfg env out hout
  unfold final_answer at hfa
  cases hb : before_response cfg env with
  | fatal => rw [hb] at hfa; simp at hfa
  | expired => rw [hb] at hfa; simp at hfa
  | done a0 =>
    rw [hb] at hfa
    simp only at hfa
    obtain ⟨hq, _, _⟩ := apply_fixed_answer _ _ _ hfa
    unfold before_response at hb
    simp only [hstdin, parse_query] at hb
    obtain ⟨rok, rl, rr⟩ := read_query_pair env.libc
      (obtain_peer cfg env.libc env.peer (initial_query cfg))
      l r ws1 ws2 ws3 tail hl hr h1 h2 h3 htail
    rw [rok] at hb
    simp only [Bool.not_true, Bool.false_eq_true, if_false] at hb
    obtain ⟨pl, pr, _⟩ := resolve_answer cfg env _ a0 hb
    rw [hline]
    unfold response_line response_header
    rw [hq, pl, pr, rl, rr]
    exact List.prefix_append _ _

/-- C3, witness: the line ` 22 , 34567 : 10.0.0.1` with a local miss and
forwarding disabled. -/
theorem response_echoes_ports_witness :
    fmt_u 22 ++ str "," ++ fmt_u 34567 ++ str ":" <+: str "22,34567:ERROR:NO-USER\r\n" :=
  response_echoes_ports ⟨none, false, false, false, false, none⟩
    ⟨⟨fun _ _ => none, fun _ _ => none, fun _ => none⟩, peer_name.failed,
     stdin_event.read (some ([32] ++ fmt_u 22 ++ [32] ++ [44] ++ [32] ++ fmt_u 34567 ++
       str " : 10.0.0.1\r\n")),
     ⟨some 3, true, [nl_recv.datagram 1 [nl_message.done]]⟩, ⟨false, [], true⟩,
     fun _ => none, false⟩
    22 34567 [32] [32] [32] (str " : 10.0.0.1\r\n") (str "22,34567:ERROR:NO-USER\r\n")
    (by decide) (by decide) (by decide) (by decide) (by decide) (by decide) rfl (by decide)

/-- C4: whenever `main` writes a response line, the line is the reference
format applied to the port pair, the user id found (if any), `additional_info`
(if set) and the current error token, and that token is one of `INVALID-PORT`,
`UNKNOWN-ERROR`, `NO-USER`, `HIDDEN-USER`. -/
theorem response_format (cfg : Config) (env : Env) (out : List Nat)
    (h : main cfg env = Outcome.response out) :
    ∃ a, final_answer cfg env = some a ∧
      out = reference_response a.query.local_port a.query.remote_port a.found_result
        a.globals.additional_info a.error_result ∧
      a.error_result ∈ error_tokens := by
  obtain ⟨a, hfa, hline⟩ := main_response cfg env out h
  refine ⟨a, hfa, by rw [hline, response_line_reference], ?_⟩
  unfold final_answer at hfa
  cases hb : before_response cfg env with
  | fatal => rw [hb] at hfa; simp at hfa
  | expired => rw [hb] at hfa; simp at hfa
  | done a0 =>
    rw [hb] at hfa
    simp only at hfa
    obtain ⟨_, _, he⟩ := apply_fixed_answer _ _ _ hfa
    have h0 : a0.error_result ∈ error_tokens := by
      unfold before_response at hb
      simp only at hb
      split at hb
      · exact absurd hb (by simp)
      · split at hb
        · simp only [Step.done.injEq] at hb
          subst hb
          simp [error_tokens]
        · obtain ⟨_, _, hr⟩ := resolve_answer cfg env _ a0 hb
          rw [hr]; simp [error_tokens]
    rcases he with he | he
    · rw [he]; exact h0
    · rw [he]; simp [error_tokens]

/-- C4, witness: scenario 1, a local hit for `22 , 34567` owned by `alice`. -/
theorem response_format_witness :
    ∃ a, final_answer default_config
        { plain_env (str "22 , 34567\r\n") with
          libc := alice_libc,
          nl := { socket := some 3, sendmsg_ok := true,
                  recvs := [nl_recv.datagram 1
                    [nl_message.diag ⟨AF_INET, 22, 34567, [10, 0, 0, 1], 1000⟩]] } } = some a ∧
      str "22,34567:USERID:UNIX:alice\r\n" =
        reference_response a.query.local_port a.query.remote_port a.found_result
          a.globals.additional_info a.error_result ∧
      a.error_result ∈ error_tokens :=
  response_format default_config _ (str "22,34567:USERID:UNIX:alice\r\n") (by decide)

/-- C5, counterexample: the query carries the IPv4 peer address 10.0.0.1, the
message is of family `AF_INET6` with another destination address, the ports
agree: `check_response` accepts the message. -/
theorem check_response_family_counterexample :
    check_response alice_libc
        ⟨AF_INET6, 22, 34567, [32, 1, 13, 184, 0, 0, 0, 0, 0, 0, 0, 0, 0, 0, 0, 1], 1000⟩
        ⟨22, 34567, some (str "10.0.0.1"), some [10, 0, 0, 1], AF_INET, false⟩
      = some (str "alice") := by
  decide

/-- C5, amended: `check_response` returns a user name if and only if the
message's local and remote ports both equal the query's and, whenever the
query carries a peer address and the message's family equals the query's, the
first 4 (IPv4) resp. 16 (IPv6) bytes of the message's destination address
equal those of the peer address; a message of another family than the query's
is accepted on the ports alone. -/
theorem check_response_accepts_iff (libc : Libc) (msg : inet_diag_msg) (q : ident_query) :
    (check_response libc msg q).isSome = true ↔
      msg.idiag_sport = q.local_port ∧ msg.idiag_dport = q.remote_port ∧
        ∀ addr, q.socket_address = some addr → q.address_family = msg.idiag_family →
          (q.address_family = AF_INET → addr.take 4 = msg.idiag_dst.take 4) ∧
          (q.address_family = AF_INET6 → addr.take 16 = msg.idiag_dst.take 16) := by
  have hres : (check_response libc msg q).isSome = check_match msg q := by
    unfold check_response
    split
    · rename_i h; rw [h]; split <;> rfl
    · rename_i h; simp at h; rw [h]; rfl
  rw [hres]
  unfold check_match
  cases hs : q.socket_address with
  | none => simp
  | some addr =>
    simp only [Option.some.injEq, forall_eq']
    by_cases hp : msg.idiag_sport = q.local_port ∧ msg.idiag_dport = q.remote_port
    · obtain ⟨hp1, hp2⟩ := hp
      by_cases hf : q.address_family = msg.idiag_family
      · by_cases h4 : q.address_family = AF_INET
        · have h6 : q.address_family ≠ AF_INET6 := by rw [h4]; decide
          simp [hp1, hp2, ← hf, h4, address_size, memcmp_differs, AF_INET, AF_INET6]
        · by_cases h6 : q.address_family = AF_INET6
          · simp [hp1, hp2, ← hf, h6, address_size, memcmp_differs, AF_INET, AF_INET6]
          · simp [hp1, hp2, ← hf, h4, h6, address_size]
      · simp [hp1, hp2, hf]
    · have : (msg.idiag_sport == q.local_port && msg.idiag_dport == q.remote_port) = false := by
        simp only [Bool.and_eq_false_iff, beq_eq_false_iff_ne, ne_eq]
        by_cases h1 : msg.idiag_sport = q.local_port
        · right; intro h2; exact hp ⟨h1, h2⟩
        · left; exact h1
      rw [this]
      simp only [Bool.false_and, Bool.false_eq_true, if_false, false_iff]
      intro h
      exact hp ⟨h.1, h.2.1⟩

/-! ## Lemmas on C strings in a buffer -/

theorem takeWhile_set_zero (l : List Nat) : ∀ n : Nat,
    (l.set n 0).takeWhile (· != 0) = (l.takeWhile (· != 0)).take n := by
  induction l with
  | nil => intro n; simp
  | cons a l ih =>
    intro n
    cases n with
    | zero => simp [List.takeWhile_cons]
    | succ n =>
      by_cases ha : a = 0
      · simp [List.takeWhile_cons, ha]
      · simp [List.takeWhile_cons, ha, ih n]

theorem cstr_poke0 (b : List Nat) (k i : Nat) :
    cstr (poke0 b k) i = if k < i then cstr b i else (cstr b i).take (k - i) := by
  unfold cstr poke0
  rw [List.drop_set]
  split
  · rfl
  · exact takeWhile_set_zero _ _

theorem cstr_poke0_below (b : List Nat) (k i : Nat) (h : k < i) :
    cstr (poke0 b k) i = cstr b i := by
  rw [cstr_poke0, if_pos h]

theorem cstr_poke0_above (b : List Nat) (k i : Nat) (h : i ≤ k) :
    cstr (poke0 b k) i = (cstr b i).take (k - i) := by
  rw [cstr_poke0, if_neg (by omega)]

theorem cstr_no_nul (b : List Nat) (i : Nat) (h : 0 ∉ b) : cstr b i = b.drop i := by
  unfold cstr
  apply List.takeWhile_eq_self_iff.mpr
  intro x hx
  have : x ∈ b := List.mem_of_mem_drop hx
  have hne : x ≠ 0 := fun e => h (e ▸ this)
  simpa using hne

theorem find_sub_bound (needle : List Nat) : ∀ (l : List Nat) (m : Nat),
    find_sub needle l = some m → m + needle.length ≤ l.length := by
  intro l
  induction l with
  | nil =>
    intro m h
    simp only [find_sub] at h
    split at h
    · simp only [Option.some.injEq] at h
      have : needle = [] := by simpa using ‹needle.isEmpty = true›
      subst h; subst this; simp
    · exact absurd h (by simp)
  | cons c cs ih =>
    intro m h
    simp only [find_sub] at h
    split at h
    · rename_i hp
      simp only [Option.some.injEq] at h
      subst h
      have := (List.isPrefixOf_iff_prefix.mp hp).length_le
      simpa using this
    · cases hf : find_sub needle cs with
      | none => rw [hf] at h; exact absurd h (by simp)
      | some k =>
        rw [hf] at h
        simp only [Option.map_some', Option.some.injEq] at h
        have := ih k hf
        subst h
        simp only [List.length_cons]
        omega

theorem find_sub_single (c : Nat) : ∀ (l : List Nat),
    (∀ t, find_sub [c] l = some t →
      t < l.length ∧ l.take t = l.takeWhile (· != c) ∧ l[t]? = some c) ∧
    (find_sub [c] l = none → c ∉ l) := by
  intro l
  induction l with
  | nil => simp [find_sub]
  | cons a l ih =>
    obtain ⟨ih1, ih2⟩ := ih
    by_cases ha : a = c
    · subst ha
      have hp : [a].isPrefixOf (a :: l) = true := by simp [List.isPrefixOf]
      simp only [find_sub, hp, if_true]
      refine ⟨?_, fun h => absurd h (by simp)⟩
      intro t ht
      simp only [Option.some.injEq] at ht
      subst ht
      simp [List.takeWhile_cons]
    · have hp : [c].isPrefixOf (a :: l) = false := by
        simp [List.isPrefixOf, ha, Ne.symm ha]
      simp only [find_sub, hp, Bool.false_eq_true, if_false]
      refine ⟨?_, ?_⟩
      · intro t ht
        cases hf : find_sub [c] l with
        | none => rw [hf] at ht; exact absurd ht (by simp)
        | some k =>
          rw [hf] at ht
          simp only [Option.map_some', Option.some.injEq] at ht
          subst ht
          obtain ⟨h1, h2, h3⟩ := ih1 k hf
          refine ⟨by simp; omega, ?_, by simpa using h3⟩
          simp [List.takeWhile_cons, ha, h2]
      · intro h
        cases hf : find_sub [c] l with
        | none =>
          have := ih2 hf
          simp [Ne.symm ha, this]
        | some k => rw [hf] at h; exact absurd h (by simp)

theorem takeWhile_get_some (p : Nat → Bool) : ∀ (l : List Nat) (n x : Nat),
    (l.takeWhile p)[n]? = some x → l[n]? = some x := by
  intro l
  induction l with
  | nil => intro n x h; simp at h
  | cons a l ih =>
    intro n x h
    by_cases ha : p a = true
    · rw [List.takeWhile_cons_of_pos ha] at h
      cases n with
      | zero => simpa using h
      | succ n => simpa using ih n x (by simpa using h)
    · rw [List.takeWhile_cons_of_neg ha] at h
      simp at h

theorem cstr_get_some (b : List Nat) (o n x : Nat) (h : (cstr b o)[n]? = some x) :
    b[o + n]? = some x := by
  unfold cstr at h
  have := takeWhile_get_some _ _ _ _ h
  simpa [List.getElem?_drop] using this

theorem strchr_spec (b : List Nat) (o c p : Nat) (h : strchr b o c = some p) :
    ∃ t, p = t + o ∧ t < (cstr b o).length ∧
      (cstr b o).take t = (cstr b o).takeWhile (· != c) ∧ b[p]? = some c := by
  unfold strchr strstr at h
  cases hf : find_sub [c] (cstr b o) with
  | none => rw [hf] at h; simp at h
  | some t =>
    rw [hf] at h
    simp only [Option.map_some', Option.some.injEq] at h
    obtain ⟨h1, h2, h3⟩ := (find_sub_single c (cstr b o)).1 t hf
    refine ⟨t, h.symm, h1, h2, ?_⟩
    rw [← h, Nat.add_comm]
    exact cstr_get_some b o t c h3

theorem strchr_none (b : List Nat) (o c : Nat) (h : strchr b o c = none) :
    c ∉ cstr b o := by
  unfold strchr strstr at h
  cases hf : find_sub [c] (cstr b o) with
  | none => exact (find_sub_single c (cstr b o)).2 hf
  | some t => rw [hf] at h; simp at h

theorem find_sub_single_mem (c : Nat) (l : List Nat) (h : c ∈ l) :
    ∃ t, find_sub [c] l = some t := by
  cases hf : find_sub [c] l with
  | none => exact absurd h ((find_sub_single c l).2 hf)
  | some t => exact ⟨t, rfl⟩

theorem takeWhile_ne_of_not_mem (c : Nat) (l : List Nat) (h : c ∉ l) :
    l.takeWhile (· != c) = l := by
  apply List.takeWhile_eq_self_iff.mpr
  intro x hx
  have : x ≠ c := fun e => h (e ▸ hx)
  simpa using this

/-- Overwriting a byte `c` with a NUL leaves a string that holds no `c` as it
is. -/
theorem cstr_poke0_at (b : List Nat) (s p c : Nat)
    (hno : c ∉ cstr b s) (hp : b[p]? = some c) :
    cstr (poke0 b p) s = cstr b s := by
  rw [cstr_poke0]
  split
  · rfl
  · rename_i hlt
    apply List.take_of_length_le
    by_contra hcon
    have hlen : p - s < (cstr b s).length := by omega
    have hx : (cstr b s)[p - s]? = some ((cstr b s)[p - s]) := List.getElem?_eq_getElem hlen
    have := cstr_get_some b s (p - s) _ hx
    have e : s + (p - s) = p := by omega
    rw [e, hp] at this
    simp only [Option.some.injEq] at this
    apply hno
    rw [this]
    exact List.getElem_mem hlen

theorem row_sides_some (line lan nat : List Nat) (h : row_sides line = some (lan, nat)) :
    ∃ i k, find_sub (str "src=") line = some i ∧
      find_sub (str "src=") (line.drop (i + 4)) = some k ∧
      lan = (line.drop i).take (k + 3) ∧ nat = line.drop (i + 4 + k) ∧
      i + 4 + k + 4 ≤ line.length ∧ lan.length = k + 3 := by
  unfold row_sides at h
  cases h1 : find_sub (str "src=") line with
  | none => rw [h1] at h; simp at h
  | some i =>
    rw [h1] at h
    simp only at h
    cases h2 : find_sub (str "src=") (line.drop (i + 4)) with
    | none => rw [h2] at h; simp at h
    | some k =>
      rw [h2] at h
      simp only [Option.some.injEq, Prod.mk.injEq] at h
      have b2 := find_sub_bound _ _ _ h2
      have hl : (str "src=").length = 4 := by decide
      rw [hl, List.length_drop] at b2
      refine ⟨i, k, rfl, h2, h.1.symm, h.2.symm, by omega, ?_⟩
      rw [← h.1, List.length_take, List.length_drop]
      omega

theorem row_buffer_view (line : List Nat) (i j : Nat) (hnul : 0 ∉ line) (hj : i + 4 ≤ j) :
    (∀ o, i ≤ o → o ≤ j - 1 →
      cstr (poke0 (if i = 0 then line else poke0 line (i - 1)) (j - 1)) o =
        (line.drop o).take (j - 1 - o)) ∧
    (∀ o, j ≤ o →
      cstr (poke0 (if i = 0 then line else poke0 line (i - 1)) (j - 1)) o = line.drop o) ∧
    (∀ o, i ≤ o → cstr (if i = 0 then line else poke0 line (i - 1)) o = line.drop o) := by
  have h1 : ∀ o, i ≤ o → cstr (if i = 0 then line else poke0 line (i - 1)) o = line.drop o := by
    intro o ho
    by_cases hi : i = 0
    · rw [if_pos hi]; exact cstr_no_nul line o hnul
    · rw [if_neg hi, cstr_poke0_below _ _ _ (by omega)]; exact cstr_no_nul line o hnul
  refine ⟨?_, ?_, h1⟩
  · intro o ho1 ho2
    rw [cstr_poke0_above _ _ _ ho2, h1 o ho1]
  · intro o ho
    rw [cstr_poke0_below _ _ _ (by omega), h1 o (by omega)]

theorem ct_port_side (buf : List Nat) (off : Nat) (key side : List Nat)
    (hkey : key.length = 6) (hside : cstr buf off = side)
    (hrest : ∀ m, m + 6 ≤ side.length → cstr buf (m + off + 6) = side.drop (m + 6)) :
    ct_port buf off key = side_number key side := by
  unfold ct_port side_number strstr
  rw [hside]
  cases hf : find_sub key side with
  | none => rfl
  | some m =>
    have hb := find_sub_bound _ _ _ hf
    rw [hkey] at hb
    simp only [Option.map_some']
    rw [hrest m hb]
    rfl


theorem cstr_kept (B C : List Nat) (o p : Nat) (hC : cstr B o = C) (hp : o + C.length ≤ p) :
    cstr (poke0 B p) o = C := by
  rw [cstr_poke0_above _ _ _ (by omega), hC]
  exact List.take_of_length_le (by omega)

/-- The step `p = strchr(lan_side + 4, ' '); if (p) *p = '\0';`. -/
theorem row_client_step (B R : List Nat) (a j : Nat) (hR : cstr B a = R)
    (hj : a + R.length < j) :
    cstr (match strchr B a 32 with
          | some p => poke0 B p
          | none => B) a = R.takeWhile (· != 32) ∧
    (∀ o, j ≤ o →
      cstr (match strchr B a 32 with
            | some p => poke0 B p
            | none => B) o = cstr B o) ∧
    (strchr B a 32).map (fun _ => R.takeWhile (· != 32)) =
      (if 32 ∈ R then some (R.takeWhile (· != 32)) else none) := by
  cases hpc : strchr B a 32 with
  | none =>
    have hno := strchr_none B a 32 hpc
    rw [hR] at hno
    simp only [Option.map_none', hno, if_false, and_true]
    exact ⟨by rw [hR, takeWhile_ne_of_not_mem 32 R hno], fun _ _ => trivial⟩
  | some p =>
    obtain ⟨t, hp, ht, htake, hb⟩ := strchr_spec B a 32 p hpc
    rw [hR] at ht htake
    have hmem : 32 ∈ R := by
      have := cstr_get_some B a t 32
      by_contra hno
      have e := takeWhile_ne_of_not_mem 32 R hno
      rw [e] at htake
      have : (R.take t).length = R.length := by rw [htake]
      rw [List.length_take] at this
      omega
    simp only [Option.map_some', hmem, if_true, and_true]
    refine ⟨?_, ?_⟩
    · rw [cstr_poke0_above _ _ _ (by omega), hR, hp, Nat.add_sub_cancel, htake]
    · intro o ho
      exact cstr_poke0_below _ _ _ (by omega)

/-- The step `p = strstr(nat_side, "dst="); if (p) { source = p + 4; p =
strchr(source, ' '); if (p) *p = '\0'; }`. -/
theorem row_source_step (B nat C : List Nat) (a j : Nat)
    (hN : ∀ o, j ≤ o → cstr B o = nat.drop (o - j))
    (hC : cstr B a = C) (hj : a + C.length < j) :
    cstr (match (strstr B j (str "dst=")).map (· + 4) with
          | some s =>
            (match strchr B s 32 with
             | some p => poke0 B p
             | none => B)
          | none => B) a = C ∧
    ((strstr B j (str "dst=")).map (· + 4)).map
      (cstr (match (strstr B j (str "dst=")).map (· + 4) with
          | some s =>
            (match strchr B s 32 with
             | some p => poke0 B p
             | none => B)
          | none => B)) = side_address (str "dst=") nat ∧
    (∀ s, (strstr B j (str "dst=")).map (· + 4) = some s →
      32 ∉ cstr (match (strstr B j (str "dst=")).map (· + 4) with
          | some s =>
            (match strchr B s 32 with
             | some p => poke0 B p
             | none => B)
          | none => B) s) := by
  have hnat : cstr B j = nat := by
    rw [hN j (Nat.le_refl _), Nat.sub_self, List.drop_zero]
  unfold side_address strstr
  rw [hnat]
  cases hd : find_sub (str "dst=") nat with
  | none => simp [hC]
  | some d =>
    simp only [Option.map_some', Option.some.injEq, forall_eq']
    have hS : cstr B (d + j + 4) = nat.drop (d + 4) := by
      rw [hN _ (by omega)]
      congr 1
      omega
    have hnot : ∀ l : List Nat, 32 ∉ l.takeWhile (· != 32) := by
      intro l hmem
      have := List.mem_takeWhile_imp hmem
      simp at this
    cases hu : strchr B (d + j + 4) 32 with
    | none =>
      have hno := strchr_none B _ 32 hu
      simp only []
      refine ⟨hC, ?_, hno⟩
      rw [hS] at hno ⊢
      rw [takeWhile_ne_of_not_mem 32 _ hno]
    | some p =>
      obtain ⟨t, hp, ht, htake, hb⟩ := strchr_spec B _ 32 p hu
      simp only []
      have hcut : cstr (poke0 B p) (d + j + 4) = (nat.drop (d + 4)).takeWhile (· != 32) := by
        rw [cstr_poke0_above _ _ _ (by omega), hp, Nat.add_sub_cancel, htake, hS]
      refine ⟨cstr_kept B C a p hC (by omega), ?_, ?_⟩
      · rw [hcut]
      · rw [hcut]
        exact hnot _

/-- The step `p = strchr(nat_side + 4, ' '); if (p) *p = '\0';`, which leaves
the strings `client` and `source` as they are. -/
theorem row_server_step (B C : List Nat) (a j : Nat) (src : Option Nat)
    (hC : cstr B a = C) (hj : a + C.length < j)
    (hsrc : ∀ s, src = some s → 32 ∉ cstr B s) :
    cstr (match strchr B (j + 4) 32 with
          | some p => poke0 B p
          | none => B) a = C ∧
    src.map (cstr (match strchr B (j + 4) 32 with
          | some p => poke0 B p
          | none => B)) = src.map (cstr B) := by
  cases hps : strchr B (j + 4) 32 with
  | none => exact ⟨hC, rfl⟩
  | some p =>
    obtain ⟨t, hp, ht, htake, hb⟩ := strchr_spec B _ 32 p hps
    simp only []
    refine ⟨cstr_kept B C a p hC (by omega), ?_⟩
    cases src with
    | none => rfl
    | some s =>
      simp only [Option.map_some', Option.some.injEq]
      exact cstr_poke0_at B s p 32 (hsrc s rfl) hb

theorem conntrack_row_fields (line lan nat : List Nat) (hnul : 0 ∉ line)
    (hsides : row_sides line = some (lan, nat)) (hlan : 4 ≤ lan.length) :
    ∃ row, conntrack_row line = some row ∧
      row.client = lan_client lan ∧
      row.source = side_address (str "dst=") nat ∧
      row.client_port = side_number (str "sport=") lan ∧
      row.server_port = side_number (str "sport=") nat ∧
      row.router_port = side_number (str "dport=") nat := by
  obtain ⟨i, k, hi, hk, hlan_eq, hnat_eq, hlen, hlanlen⟩ := row_sides_some line lan nat hsides
  have hk1 : 1 ≤ k := by omega
  have h1 : strstr line 0 (str "src=") = some i := by
    unfold strstr
    rw [cstr_no_nul line 0 hnul, List.drop_zero, hi]
    rfl
  obtain ⟨vlan, vnat, v1⟩ := row_buffer_view line i (k + (i + 4)) hnul (by omega)
  have h2 : strstr (if i = 0 then line else poke0 line (i - 1)) (i + 4) (str "src=") =
      some (k + (i + 4)) := by
    unfold strstr
    rw [v1 (i + 4) (by omega), hk]
    rfl
  have hlanstr : cstr (poke0 (if i = 0 then line else poke0 line (i - 1)) (k + (i + 4) - 1)) i
      = lan := by
    rw [vlan i (Nat.le_refl _) (by omega), hlan_eq]
    congr 1
    omega
  have hnatstr : cstr (poke0 (if i = 0 then line else poke0 line (i - 1)) (k + (i + 4) - 1))
      (k + (i + 4)) = nat := by
    rw [vnat _ (Nat.le_refl _), hnat_eq]
    congr 1
    omega
  have hcp : ct_port (poke0 (if i = 0 then line else poke0 line (i - 1)) (k + (i + 4) - 1)) i
      (str "sport=") = side_number (str "sport=") lan := by
    apply ct_port_side _ _ _ _ (by decide) hlanstr
    intro m hm
    rw [vlan _ (by omega) (by omega), hlan_eq, List.drop_take, List.drop_drop]
    congr 1
    · omega
    · congr 1; omega
  have hnp : ∀ key, key.length = 6 →
      ct_port (poke0 (if i = 0 then line else poke0 line (i - 1)) (k + (i + 4) - 1))
        (k + (i + 4)) key = side_number key nat := by
    intro key hkey
    apply ct_port_side _ _ _ _ hkey hnatstr
    intro m _
    rw [vnat _ (by omega), hnat_eq, List.drop_drop]
    congr 1
    omega
  have hR : cstr (poke0 (if i = 0 then line else poke0 line (i - 1)) (k + (i + 4) - 1)) (i + 4)
      = lan.drop 4 := by
    rw [vlan _ (by omega) (by omega), hlan_eq, List.drop_take, List.drop_drop]
    congr 1
    omega
  have hRlen : (lan.drop 4).length = k - 1 := by
    rw [List.length_drop, hlanlen]; omega
  have hN : ∀ o, k + (i + 4) ≤ o →
      cstr (poke0 (if i = 0 then line else poke0 line (i - 1)) (k + (i + 4) - 1)) o =
        nat.drop (o - (k + (i + 4))) := by
    intro o ho
    rw [vnat o ho, hnat_eq, List.drop_drop]
    congr 1
    omega
  simp only [conntrack_row, h1, h2]
  generalize poke0 (if i = 0 then line else poke0 line (i - 1)) (k + (i + 4) - 1) = B at *
  obtain ⟨c1, n1, m1⟩ := row_client_step B (lan.drop 4) (i + 4) (k + (i + 4)) hR (by omega)
  generalize hB3 : (match strchr B (i + 4) 32 with
                    | some p => poke0 B p
                    | none => B) = B3 at *
  obtain ⟨c2, s2, n2⟩ := row_source_step B3 nat _ (i + 4) (k + (i + 4))
    (fun o ho => by rw [n1 o ho, hN o ho]) c1
    (by have := (List.takeWhile_prefix (· != 32) (l := lan.drop 4)).length_le; omega)
  generalize hB4 : (match (strstr B3 (k + (i + 4)) (str "dst=")).map (· + 4) with
          | some s =>
            (match strchr B3 s 32 with
             | some p => poke0 B3 p
             | none => B3)
          | none => B3) = B4 at *
  obtain ⟨c3, s3⟩ := row_server_step B4 _ (i + 4) (k + (i + 4))
    ((strstr B3 (k + (i + 4)) (str "dst=")).map (· + 4)) c2
    (by have := (List.takeWhile_prefix (· != 32) (l := lan.drop 4)).length_le; omega) n2
  refine ⟨_, rfl, ?_, ?_, hcp, hnp _ (by decide), hnp _ (by decide)⟩
  · simp only [c3]
    rw [m1]
    rfl
  · simp only []
    rw [s3, s2]

/-! ## Lemmas on `conntrack` -/

theorem row_match_iff (q : ident_query) (row : ct_row) :
    row_match q row = true ↔
      row.router_port = q.local_port ∧ row.server_port = q.remote_port ∧
        ∃ c s, row.client = some c ∧ row.source = some s ∧ c ≠ s := by
  unfold row_match
  cases hc : row.client with
  | none => simp
  | some c =>
    cases hs : row.source with
    | none => simp
    | some s =>
      by_cases hp : q.remote_port = row.server_port ∧ q.local_port = row.router_port
      · obtain ⟨hp1, hp2⟩ := hp
        by_cases hcs : c = s
        · simp [hp1, hp2, hcs]
        · simp [hp1, hp2, hcs]
      · have : (q.remote_port == row.server_port && q.local_port == row.router_port) = false := by
          simp only [Bool.and_eq_false_iff, beq_eq_false_iff_ne, ne_eq]
          by_cases h1 : q.remote_port = row.server_port
          · right; intro h2; exact hp ⟨h1, h2⟩
          · left; exact h1
        simp only [Option.isSome_some, Bool.true_and, this, Bool.false_and, Bool.false_eq_true,
          if_false, false_iff]
        intro h
        exact hp ⟨h.2.1.symm, h.1.symm⟩

theorem conntrack_scan_skip (q : ident_query) (pre rest : List (List Nat))
    (h : ∀ l ∈ pre, row_accepted q l = false) :
    conntrack_scan q (pre ++ rest) = conntrack_scan q rest := by
  induction pre with
  | nil => rfl
  | cons a pre ih =>
    have ha : row_accepted q a = false := h a (by simp)
    have ih' := ih (fun l hl => h l (by simp [hl]))
    unfold row_accepted at ha
    simp only [List.cons_append, conntrack_scan]
    cases hr : conntrack_row a with
    | none => simpa using ih'
    | some row =>
      rw [hr] at ha
      simp only at ha
      simp only [ha, Bool.false_eq_true, if_false]
      exact ih'

theorem conntrack_scan_some (q : ident_query) (lines : List (List Nat)) (row : ct_row)
    (h : conntrack_scan q lines = some row) :
    ∃ line ∈ lines, conntrack_row line = some row ∧ row_match q row = true := by
  induction lines with
  | nil => simp [conntrack_scan] at h
  | cons a lines ih =>
    simp only [conntrack_scan] at h
    cases hr : conntrack_row a with
    | none =>
      rw [hr] at h
      obtain ⟨line, hm, hh⟩ := ih h
      exact ⟨line, by simp [hm], hh⟩
    | some r =>
      rw [hr] at h
      simp only at h
      by_cases hm : row_match q r = true
      · simp only [hm, if_true, Option.some.injEq, Step.done.injEq] at h
        subst h
        exact ⟨a, by simp, hr, hm⟩
      · simp only [hm, Bool.false_eq_true, if_false] at h
        obtain ⟨line, hm', hh⟩ := ih h
        exact ⟨line, by simp [hm'], hh⟩

theorem row_accepted_iff (q : ident_query) (line : List Nat) :
    row_accepted q line = true ↔
      ∃ row, conntrack_row line = some row ∧
        row.router_port = q.local_port ∧ row.server_port = q.remote_port ∧
        ∃ c s, row.client = some c ∧ row.source = some s ∧ c ≠ s := by
  unfold row_accepted
  cases hr : conntrack_row line with
  | none => simp
  | some row =>
    simp only [Option.some.injEq, exists_eq_left']
    exact row_match_iff q row

theorem conntrack_row_none (line : List Nat) (hnul : 0 ∉ line) (h : row_sides line = none) :
    conntrack_row line = none := by
  unfold row_sides at h
  have e0 : cstr line 0 = line := by rw [cstr_no_nul line 0 hnul, List.drop_zero]
  cases h1 : find_sub (str "src=") line with
  | none =>
    have : strstr line 0 (str "src=") = none := by
      unfold strstr; rw [e0, h1]; rfl
    simp only [conntrack_row, this]
  | some i =>
    rw [h1] at h
    simp only at h
    have hs1 : strstr line 0 (str "src=") = some i := by
      unfold strstr; rw [e0, h1]; rfl
    cases h2 : find_sub (str "src=") (line.drop (i + 4)) with
    | some k => rw [h2] at h; simp at h
    | none =>
      have hv : cstr (if i = 0 then line else poke0 line (i - 1)) (i + 4) = line.drop (i + 4) := by
        by_cases hi : i = 0
        · rw [if_pos hi]; exact cstr_no_nul line _ hnul
        · rw [if_neg hi, cstr_poke0_below _ _ _ (by omega)]; exact cstr_no_nul line _ hnul
      have hs2 : strstr (if i = 0 then line else poke0 line (i - 1)) (i + 4) (str "src=") =
          none := by
        unfold strstr; rw [hv, h2]; rfl
      simp only [conntrack_row, hs1, hs2]

theorem side_number_decimal (key side : List Nat) (m c : Nat) (t : List Nat)
    (hf : find_sub key side = some m) (hd : side.drop (m + 6) = c :: t)
    (hc : isdigit c = true) :
    side_number key side = min (side_decimal key side) LONG_MAX % 4294967296 := by
  unfold side_number side_decimal
  rw [hf]
  simp only
  rw [hd, strtol_digits c t hc]
  simp only
  omega

theorem lan_client_some (lan c : List Nat) (h : lan_client lan = some c) :
    c = (lan.drop 4).takeWhile (· != 32) := by
  unfold lan_client at h
  split at h
  · exact (Option.some.inj h).symm
  · exact absurd h (by simp)

/-- C6, counterexample: the row of scenario 3 with the reply-side port written
as `dport=4295001863` is accepted for the query `34567,443`, although the
number written is not the query's local port. -/
theorem wrapped_dport_accepted :
    (row_sides wrapped_dport_row).map (fun sides => side_decimal (str "dport=") sides.2) =
      some 4295001863 ∧
    (4295001863 : Nat) ≠ (⟨34567, 443, none, none, 0, false⟩ : ident_query).local_port ∧
    row_accepted ⟨34567, 443, none, none, 0, false⟩ wrapped_dport_row = true := by
  decide

/-- C6: for a line without NUL bytes whose two sides are `lan` and `nat` (split
at the second `src=`, which does not follow the first one directly), the line
is accepted as the NATed origin if and only if the number after the reply-side
`dport=`, reduced modulo `2^32`, equals the query's local port, the number
after the reply-side `sport=`, reduced likewise, equals the query's remote
port, and the LAN side has a client address, ended by a space, that differs as
a text from the address after the reply-side `dst=`; a row whose client
address equals that `dst=` address is never accepted; the query's peer address
does not change the decision; a number written as digits directly after its
key is the decimal value, capped at `LONG_MAX`, modulo `2^32`; and a line
without two `src=` is not accepted. -/
theorem conntrack_row_decision (q : ident_query) (line lan nat : List Nat)
    (hnul : 0 ∉ line) (hsides : row_sides line = some (lan, nat)) (hlan : 4 ≤ lan.length) :
    (row_accepted q line = true ↔
      side_number (str "dport=") nat = q.local_port ∧
      side_number (str "sport=") nat = q.remote_port ∧
      ∃ c s, lan_client lan = some c ∧ side_address (str "dst=") nat = some s ∧ c ≠ s) ∧
    (lan_client lan = side_address (str "dst=") nat → row_accepted q line = false) ∧
    (∀ ip, row_accepted { q with ip_address := ip } line = row_accepted q line) ∧
    (∀ key m c t, find_sub key nat = some m → nat.drop (m + 6) = c :: t → isdigit c = true →
      side_number key nat = min (side_decimal key nat) LONG_MAX % 4294967296) ∧
    (∀ other, 0 ∉ other → row_sides other = none → row_accepted q other = false) := by
  obtain ⟨row, hrow, hcl, hsrc, _, hsp, hrp⟩ := conntrack_row_fields line lan nat hnul hsides hlan
  have hiff : row_accepted q line = true ↔
      side_number (str "dport=") nat = q.local_port ∧
      side_number (str "sport=") nat = q.remote_port ∧
      ∃ c s, lan_client lan = some c ∧ side_address (str "dst=") nat = some s ∧ c ≠ s := by
    rw [row_accepted_iff, hrow]
    simp only [Option.some.injEq, exists_eq_left']
    rw [hcl, hsrc, hsp, hrp]
  refine ⟨hiff, ?_, ?_, ?_, ?_⟩
  · intro heq
    cases hacc : row_accepted q line with
    | false => rfl
    | true =>
      obtain ⟨_, _, c, s, h1, h2, h3⟩ := hiff.mp hacc
      rw [h1, h2] at heq
      exact absurd (Option.some.inj heq) h3
  · intro ip
    unfold row_accepted
    cases conntrack_row line with
    | none => rfl
    | some row => rfl
  · intro key m c t hf hd hc
    exact side_number_decimal key nat m c t hf hd hc
  · intro other hn hs
    unfold row_accepted
    rw [conntrack_row_none other hn hs]

/-- C6, witness: the row of scenario 3, with its LAN side and its reply side,
is accepted for the query `34567,443`. -/
theorem conntrack_row_decision_witness :
    0 ∉ nat_row ∧
    row_sides nat_row =
      some (str "src=192.168.1.5 dst=203.0.113.2 sport=51000 dport=443",
            str "src=203.0.113.2 dst=198.51.100.10 sport=443 dport=34567 [ASSURED] mark=0 use=1\n") ∧
    row_accepted ⟨34567, 443, none, none, 0, false⟩ nat_row = true :=
  ⟨by decide, by decide,
   (conntrack_row_decision ⟨34567, 443, none, none, 0, false⟩ nat_row
      (str "src=192.168.1.5 dst=203.0.113.2 sport=51000 dport=443")
      (str "src=203.0.113.2 dst=198.51.100.10 sport=443 dport=34567 [ASSURED] mark=0 use=1\n")
      (by decide) (by decide) (by decide)).1.mpr
      ⟨by decide, by decide, str "192.168.1.5", str "198.51.100.10", by decide, by decide,
        by decide⟩⟩

theorem conntrack_scan_of_accepted (q : ident_query) (lines : List (List Nat))
    (h : ∃ line ∈ lines, row_accepted q line = true) :
    (conntrack_scan q lines).isSome = true := by
  induction lines with
  | nil => obtain ⟨line, hm, _⟩ := h; simp at hm
  | cons a lines ih =>
    simp only [conntrack_scan]
    cases hr : conntrack_row a with
    | none =>
      simp only
      apply ih
      obtain ⟨line, hm, hacc⟩ := h
      rcases List.mem_cons.mp hm with e | e
      · subst e; simp [row_accepted, hr] at hacc
      · exact ⟨line, e, hacc⟩
    | some row =>
      simp only
      by_cases hmatch : row_match q row = true
      · simp [hmatch]
      · simp only [hmatch, Bool.false_eq_true, if_false]
        apply ih
        obtain ⟨line, hm, hacc⟩ := h
        rcases List.mem_cons.mp hm with e | e
        · subst e; simp [row_accepted, hr, hmatch] at hacc
        · exact ⟨line, e, hacc⟩

/-- C7, counterexample: for the row of scenario 3 with the LAN-side port
written as `sport=4295018296`, the forwarded query has local port 51000, which
is not the number written. -/
theorem wrapped_sport_forwarded :
    (row_sides wrapped_sport_row).map (fun sides => side_decimal (str "sport=") sides.1) =
      some 4295018296 ∧
    conntrack_forward ⟨34567, 443, none, none, 0, false⟩ [wrapped_sport_row] =
      some { destination := str "192.168.1.5",
             query := ⟨51000, 443, none, none, 0, false⟩ } := by
  decide

/-- C7: over any sequence of lines read from the tool, `conntrack` makes a call
of `forward_query` if and only if some line is accepted; the call is made once,
after the loop, for the first accepted line: when that line has no NUL byte and
its sides are `lan` and `nat` (the second `src=` not following the first one
directly), the destination is the text after the LAN-side `src=` up to the next
space, the forwarded query has as local port the number after the LAN-side
`sport=` reduced modulo `2^32` (for digits written directly after `sport=`:
their decimal value, capped at `LONG_MAX`, modulo `2^32`; 0 without `sport=`)
and the original remote port.  For the row of scenario 3 and the query
`34567,443` the call goes to 192.168.1.5 and the request sent is `51000,443`. -/
theorem conntrack_forwards_first (q : ident_query) (lines : List (List Nat)) :
    ((conntrack_forward q lines).isSome = true ↔
      ∃ line ∈ lines, row_accepted q line = true) ∧
    (∀ pre line post lan nat, lines = pre ++ line :: post →
      (∀ l ∈ pre, row_accepted q l = false) → row_accepted q line = true →
      0 ∉ line → row_sides line = some (lan, nat) → 4 ≤ lan.length →
      ∃ call, conntrack_forward q lines = some call ∧
        lan_client lan = some call.destination ∧
        call.destination = (lan.drop 4).takeWhile (· != 32) ∧
        call.query.local_port = side_number (str "sport=") lan ∧
        call.query.remote_port = q.remote_port) ∧
    (∀ lan m c t, find_sub (str "sport=") lan = some m → lan.drop (m + 6) = c :: t →
      isdigit c = true →
      side_number (str "sport=") lan =
        min (side_decimal (str "sport=") lan) LONG_MAX % 4294967296) ∧
    (∀ lan, find_sub (str "sport=") lan = none → side_number (str "sport=") lan = 0) ∧
    (∀ path pipe addresses g cmd, conntrack_command path q = some cmd →
      pipe.popen_ok = true → pipe.lines = lines →
      conntrack path pipe addresses g q =
        match conntrack_forward q lines with
        | some call =>
          ((forward_query (addresses call.destination)
              { g with forwarding_attempted := false, query_pipe := false } call.query).globals,
           (forward_query (addresses call.destination)
              { g with forwarding_attempted := false, query_pipe := false } call.query).result)
        | none =>
          if pipe.eof then
            ({ g with forwarding_attempted := false, query_pipe := false }, Step.done none)
          else ({ g with forwarding_attempted := false, query_pipe := true }, Step.expired)) ∧
    (conntrack_forward ⟨34567, 443, none, none, 0, false⟩ [nat_row] =
        some { destination := str "192.168.1.5",
               query := ⟨51000, 443, none, none, 0, false⟩ } ∧
      forward_request ⟨51000, 443, none, none, 0, false⟩ = str "51000,443\r\n") := by
  refine ⟨⟨?_, ?_⟩, ?_, ?_, ?_, ?_, ?_⟩
  · intro h
    unfold conntrack_forward at h
    cases hs : conntrack_scan q lines with
    | none => rw [hs] at h; simp at h
    | some row =>
      obtain ⟨line, hm, hr, hmatch⟩ := conntrack_scan_some q lines row hs
      exact ⟨line, hm, by simp [row_accepted, hr, hmatch]⟩
  · intro h
    have := conntrack_scan_of_accepted q lines h
    unfold conntrack_forward
    cases hs : conntrack_scan q lines with
    | none => rw [hs] at this; simp at this
    | some row => simp
  · intro pre line post lan nat hlines hpre hacc hnul hsides hlan
    obtain ⟨row, hr, hcl, _, hcp, _, _⟩ := conntrack_row_fields line lan nat hnul hsides hlan
    unfold row_accepted at hacc
    rw [hr] at hacc
    simp only at hacc
    obtain ⟨_, _, c, s, hc, _, _⟩ := (row_match_iff q row).mp hacc
    have hlc : lan_client lan = some c := by rw [← hcl, hc]
    refine ⟨{ destination := c, query := forwarded_query q row }, ?_, hlc,
      lan_client_some lan c hlc, hcp, rfl⟩
    unfold conntrack_forward
    rw [hlines, conntrack_scan_skip q pre _ hpre]
    simp [conntrack_scan, hr, hacc, hc]
  · intro lan m c t hf hd hc
    exact side_number_decimal _ lan m c t hf hd hc
  · intro lan hf
    unfold side_number
    rw [hf]
  · intro path pipe addresses g cmd hcmd hpopen hlines
    unfold conntrack
    simp only [hcmd, hpopen, hlines]
    cases conntrack_forward q lines with
    | none => simp
    | some call => simp
  · decide

/-- C7, witness: a skipped line, a rejected row and then the row of scenario 3;
the call is made for the third line, to the text after its LAN-side `src=` and
with the number after its LAN-side `sport=`. -/
theorem conntrack_forwards_first_witness :
    ∃ call, conntrack_forward ⟨34567, 443, none, none, 0, false⟩
          [str "conntrack v1.4.6\n",
           str "tcp 6 9 TIME_WAIT src=192.168.1.9 dst=203.0.113.2 sport=40000 dport=443 src=203.0.113.2 dst=198.51.100.10 sport=443 dport=40000 use=1\n",
           nat_row] = some call ∧
      lan_client (str "src=192.168.1.5 dst=203.0.113.2 sport=51000 dport=443") =
        some call.destination ∧
      call.destination =
        ((str "src=192.168.1.5 dst=203.0.113.2 sport=51000 dport=443").drop 4).takeWhile
          (· != 32) ∧
      call.query.local_port =
        side_number (str "sport=") (str "src=192.168.1.5 dst=203.0.113.2 sport=51000 dport=443") ∧
      call.query.remote_port = 443 :=
  (conntrack_forwards_first ⟨34567, 443, none, none, 0, false⟩ _).2.1
    [str "conntrack v1.4.6\n",
     str "tcp 6 9 TIME_WAIT src=192.168.1.9 dst=203.0.113.2 sport=40000 dport=443 src=203.0.113.2 dst=198.51.100.10 sport=443 dport=40000 use=1\n"]
    nat_row []
    (str "src=192.168.1.5 dst=203.0.113.2 sport=51000 dport=443")
    (str "src=203.0.113.2 dst=198.51.100.10 sport=443 dport=34567 [ASSURED] mark=0 use=1\n")
    rfl (by decide) (by decide) (by decide) (by decide) (by decide)

/-! ## Lemmas on `forward_query` -/

theorem forward_request_text (query : ident_query) :
    forward_request query = request_text query := by
  unfold forward_request request_text
  cases query.ip_in_query_extension <;> cases query.ip_address <;> simp

/-- The part of `forward_query` after a successful walk over the candidates. -/
theorem forward_query_connected (g : Globals) (query : ident_query)
    (cands : List candidate) (c : connection) (hconn : connects g cands c) :
    forward_query (some cands) g query =
      let g1 : Globals :=
        { g with forward_address := false, query_fd := (c.fd : Int),
                 additional_info_freed := g.additional_info_freed || g.additional_info.isSome,
                 forwarding_attempted := true }
      if (forward_request query).length ≥ 513 then
        { globals := g1, request := none, bytes_sent := 0, result := Step.fatal }
      else
        match send_loop (forward_request query).length 0 c.sends with
        | none =>
          { globals := g1, request := some (forward_request query), bytes_sent := 0,
            result := Step.expired }
        | some bytes_sent =>
          if bytes_sent < (forward_request query).length then
            { globals := { g1 with query_fd := -1 }, request := some (forward_request query),
              bytes_sent := bytes_sent, result := Step.done none }
          else
            let set_info (g : Globals) (st : reply_state) : Globals :=
              match st.info with
              | some i => { g with additional_info := some i, additional_info_freed := false }
              | none => g
            match reply_loop ⟨FIELD_PORTS, [], false, none, none⟩ c.reply with
            | (st, reply_exit.blocked) =>
              { globals := set_info g1 st, request := some (forward_request query),
                bytes_sent := bytes_sent, result := Step.expired }
            | (st, reply_exit.jumped) =>
              { globals := { set_info g1 st with query_fd := -1 },
                request := some (forward_request query),
                bytes_sent := bytes_sent, result := Step.done st.response }
            | (st, reply_exit.finished) =>
              { globals := { set_info g1 st with query_fd := -1 },
                request := some (forward_request query),
                bytes_sent := bytes_sent,
                result := Step.done (accept_truncated st).response } := by
  have hc : ∀ g' : Globals, close_query_fd g' =
      { g' with query_fd := if g'.query_fd ≥ 0 then -1 else g'.query_fd } := by
    intro g'
    unfold close_query_fd
    split <;> simp_all
  unfold connects at hconn
  rw [hc] at hconn
  simp only at hconn
  unfold forward_query
  simp only [hc, hconn]
  have hnn : ¬ ((c.fd : Int) < 0) := by omega
  have hpos : (c.fd : Int) ≥ 0 := by omega
  simp only [clean_up_forwarding, hnn, if_false]
  split
  · rfl
  · split
    · rfl
    · split
      · simp [hpos]
      · split
        · rename_i st _
          cases st.info <;> simp
        · rename_i st _
          cases st.info <;> simp [hpos]
        · rename_i st _
          cases st.info <;> simp [hpos]

/-- C8: once the walk over the candidates has left a connected socket, the
bytes `forward_query` hands to `send` are exactly the request of the
specification (`<lport>,<rport>\r\n`, or `<lport>,<rport> : <text>\r\n` when
the extension flag is on and the address text is known), and they are all
written when the first `send` takes them; if the request is 513 bytes or
longer nothing is handed to `send` and the process ends with a failure. -/
theorem forward_request_bytes (g : Globals) (query : ident_query)
    (cands : List candidate) (c : connection) (hconn : connects g cands c) :
    ((request_text query).length < 513 →
      (forward_query (some cands) g query).request = some (request_text query) ∧
      ∀ n rest, c.sends = send_result.sent n :: rest → (request_text query).length ≤ n →
        (forward_query (some cands) g query).bytes_sent = (request_text query).length) ∧
    ((request_text query).length ≥ 513 →
      (forward_query (some cands) g query).request = none ∧
      (forward_query (some cands) g query).bytes_sent = 0 ∧
      (forward_query (some cands) g query).result = Step.fatal) := by
  rw [forward_query_connected g query cands c hconn, forward_request_text]
  refine ⟨?_, ?_⟩
  · intro hlt
    have hge : ¬ ((request_text query).length ≥ 513) := by omega
    simp only [hge, if_false]
    refine ⟨?_, ?_⟩
    · split
      · rfl
      · split
        · rfl
        · split <;> rfl
    · intro n rest hs hn
      have hn0 : n ≠ 0 := by
        have := (fmt_u_spec query.local_port).1
        have hpos : 0 < (request_text query).length := by
          unfold request_text
          split <;> simp [str]
        omega
      have hloop : send_loop (request_text query).length 0 c.sends =
          some (request_text query).length := by
        rw [hs]
        simp [send_loop, hn0, Nat.min_eq_right hn]
      simp only [hloop, lt_self_iff_false, if_false]
      split <;> rfl
  · intro hge
    simp [hge]

/-- C8, witness: the forwarded query `51000,443` with the extension on and the
peer address text `203.0.113.2`. -/
theorem forward_request_bytes_witness :
    (forward_query (some [candidate.connected (downstream (str "51000,443:USERID:UNIX:bob\r\n"))])
        Globals.init ⟨51000, 443, some (str "203.0.113.2"), none, 0, true⟩).request
      = some (str "51000,443 : 203.0.113.2\r\n") :=
  ((forward_request_bytes Globals.init ⟨51000, 443, some (str "203.0.113.2"), none, 0, true⟩
      [candidate.connected (downstream (str "51000,443:USERID:UNIX:bob\r\n"))]
      (downstream (str "51000,443:USERID:UNIX:bob\r\n")) (by decide)).1 (by decide)).1

/-! ## Lemmas on the reply loop -/

theorem kept_cons_skipped (c : Nat) (s : List Nat) (h : skipped c = true) :
    kept (c :: s) = kept s := by
  simp [kept, List.filter_cons, h]

theorem kept_cons_kept (c : Nat) (s : List Nat) (h : skipped c = false) :
    kept (c :: s) = c :: kept s := by
  simp [kept, List.filter_cons, h]

/-- The bytes of one of the first three fields are read into the buffer, the
skipped ones left out, as long as the buffer does not fill up. -/
theorem reply_loop_field (fld : List Nat) : ∀ (st : reply_state) (rest : List recv_event),
    st.field ≠ FIELD_USERID → field_bytes fld → (st.p ++ kept fld).length < 511 →
    reply_loop st (fld.map recv_event.byte ++ rest) =
      reply_loop { st with p := st.p ++ kept fld } rest := by
  induction fld with
  | nil => intro st rest _ _ _; simp [kept]
  | cons c fld ih =>
    intro st rest hf hb hlen
    obtain ⟨c58, c13, c10, c0⟩ := hb c (by simp)
    have hb' : field_bytes fld := fun x hx => hb x (by simp [hx])
    have hterm : ¬ ((st.field ≠ FIELD_USERID ∧ c = 58) ∨ c = 13 ∨ c = 10) := by
      rintro (⟨_, h⟩ | h | h)
      · exact c58 h
      · exact c13 h
      · exact c10 h
    simp only [List.map_cons, List.cons_append]
    rw [reply_loop]
    simp only [c0, if_false, hterm]
    cases hs : skipped c with
    | true =>
      have : ¬ (st.field = FIELD_USERID ∨ (!true) = true) := by
        rintro (h | h)
        · exact hf h
        · simp at h
      rw [if_neg this, kept_cons_skipped c fld hs]
      rw [kept_cons_skipped c fld hs] at hlen
      exact ih st rest hf hb' hlen
    | false =>
      have : st.field = FIELD_USERID ∨ (!false) = true := Or.inr rfl
      rw [if_pos this]
      rw [kept_cons_kept c fld hs] at hlen ⊢
      have hl : ¬ ((st.p ++ [c]).length = 511) := by
        simp only [List.length_append, List.length_cons, List.length_nil] at hlen ⊢
        omega
      simp only [hl, if_false]
      have := ih { st with p := st.p ++ [c] } rest hf hb'
        (by simpa [List.append_assoc] using hlen)
      rw [this]
      simp [List.append_assoc]

/-- The bytes of the user id field are all read into the buffer as long as it
does not fill up. -/
theorem reply_loop_userid (u : List Nat) : ∀ (st : reply_state) (rest : List recv_event),
    st.field = FIELD_USERID → userid_bytes u → (st.p ++ u).length < 511 →
    reply_loop st (u.map recv_event.byte ++ rest) =
      reply_loop { st with p := st.p ++ u } rest := by
  induction u with
  | nil => intro st rest _ _ _; simp
  | cons c u ih =>
    intro st rest hf hb hlen
    obtain ⟨c13, c10, c0⟩ := hb c (by simp)
    have hb' : userid_bytes u := fun x hx => hb x (by simp [hx])
    have hterm : ¬ ((st.field ≠ FIELD_USERID ∧ c = 58) ∨ c = 13 ∨ c = 10) := by
      rintro (⟨h, _⟩ | h | h)
      · exact h hf
      · exact c13 h
      · exact c10 h
    simp only [List.map_cons, List.cons_append]
    rw [reply_loop]
    simp only [c0, if_false, hterm]
    have : st.field = FIELD_USERID ∨ (!skipped c) = true := Or.inl hf
    rw [if_pos this]
    have hl : ¬ ((st.p ++ [c]).length = 511) := by
      simp only [List.length_append, List.length_cons, List.length_nil] at hlen ⊢
      omega
    simp only [hl, if_false]
    have := ih { st with p := st.p ++ [c] } rest hf hb'
      (by simpa [List.append_assoc] using hlen)
    rw [this]
    simp [List.append_assoc]

theorem kept_blank_filter (s : List Nat) :
    kept (s.filter (fun c => !isspace c)) = kept s := by
  unfold kept
  rw [List.filter_filter]
  apply List.filter_congr
  intro c _
  by_cases h : isspace c = true
  · have : skipped c = true := by
      simp only [isspace, Bool.or_eq_true, beq_iff_eq, Bool.and_eq_true, decide_eq_true_eq] at h
      simp only [skipped, Bool.or_eq_true, beq_iff_eq, decide_eq_true_eq]
      omega
    simp [h, this]
  · simp [h]

theorem reply_fill (fld : List Nat) (f : Nat) (p : List Nat) (e : Bool)
    (i : Option (List Nat)) (rest : List recv_event)
    (hf : f ≠ FIELD_USERID) (hb : field_bytes fld) (hlen : (p ++ kept fld).length < 511) :
    reply_loop ⟨f, p, e, none, i⟩ (fld.map recv_event.byte ++ rest) =
      reply_loop ⟨f, p ++ kept fld, e, none, i⟩ rest :=
  reply_loop_field fld ⟨f, p, e, none, i⟩ rest hf hb hlen

theorem reply_step_ports (p : List Nat) (e : Bool) (i : Option (List Nat))
    (rest : List recv_event) :
    reply_loop ⟨FIELD_PORTS, p, e, none, i⟩ (recv_event.byte 58 :: rest) =
      reply_loop ⟨FIELD_REPLY_TYPE, [], e, none, i⟩ rest := by
  rw [reply_loop]
  simp [FIELD_PORTS, FIELD_REPLY_TYPE, FIELD_INFO, FIELD_USERID]

theorem reply_step_type (p : List Nat) (e : Bool) (i : Option (List Nat))
    (rest : List recv_event) :
    reply_loop ⟨FIELD_REPLY_TYPE, p, e, none, i⟩ (recv_event.byte 58 :: rest) =
      reply_loop ⟨FIELD_INFO, [], p != str "USERID", none, i⟩ rest := by
  rw [reply_loop]
  simp [FIELD_PORTS, FIELD_REPLY_TYPE, FIELD_INFO, FIELD_USERID]

theorem reply_step_info_error (p : List Nat) (i : Option (List Nat)) (t : Nat)
    (rest : List recv_event) (ht : t = 58 ∨ t = 13 ∨ t = 10) :
    reply_loop ⟨FIELD_INFO, p, true, none, i⟩ (recv_event.byte t :: rest) =
      (⟨FIELD_USERID, p, true, none, if p = [] then i else some p⟩, reply_exit.jumped) := by
  rw [reply_loop]
  rcases ht with h | h | h <;> subst h <;> by_cases hp : p = [] <;>
    simp [FIELD_PORTS, FIELD_REPLY_TYPE, FIELD_INFO, FIELD_USERID, hp]

theorem reply_step_info_colon (p : List Nat) (i : Option (List Nat))
    (rest : List recv_event) :
    reply_loop ⟨FIELD_INFO, p, false, none, i⟩ (recv_event.byte 58 :: rest) =
      reply_loop ⟨FIELD_USERID, [], false, none, if p = [] then i else some p⟩ rest := by
  rw [reply_loop]
  by_cases hp : p = [] <;>
    simp [FIELD_PORTS, FIELD_REPLY_TYPE, FIELD_INFO, FIELD_USERID, hp]

theorem reply_step_info_eol (p : List Nat) (i : Option (List Nat)) (t : Nat)
    (rest : List recv_event) (ht : t = 13 ∨ t = 10) :
    reply_loop ⟨FIELD_INFO, p, false, none, i⟩ (recv_event.byte t :: rest) =
      (⟨FIELD_USERID, [], false, none, if p = [] then i else some p⟩,
        reply_exit.finished) := by
  rw [reply_loop]
  rcases ht with h | h <;> subst h <;> by_cases hp : p = [] <;>
    simp [FIELD_PORTS, FIELD_REPLY_TYPE, FIELD_INFO, FIELD_USERID, hp]

theorem reply_step_userid_eol (p : List Nat) (e : Bool) (i : Option (List Nat)) (t : Nat)
    (rest : List recv_event) (ht : t = 13 ∨ t = 10) :
    reply_loop ⟨FIELD_USERID, p, e, none, i⟩ (recv_event.byte t :: rest) =
      (⟨FIELD_EOL, [], e, some p, i⟩, reply_exit.finished) := by
  rw [reply_loop]
  rcases ht with h | h <;> subst h <;>
    simp [FIELD_PORTS, FIELD_REPLY_TYPE, FIELD_INFO, FIELD_USERID, FIELD_EOL]

/-- The state of the reply loop after the terminator of the info field. -/
theorem reply_loop_header (ports type info : List Nat) (t : Nat) (rest : List recv_event)
    (hports : field_bytes ports) (htype : field_bytes type) (hinfo : field_bytes info)
    (hkp : (kept ports).length < 511) (hkt : (kept type).length < 511)
    (hki : (kept info).length < 511) (ht : t = 58 ∨ t = 13 ∨ t = 10) :
    reply_loop ⟨FIELD_PORTS, [], false, none, none⟩
        ((ports ++ [58] ++ type ++ [58] ++ info).map recv_event.byte ++
          recv_event.byte t :: rest) =
      if kept type ≠ str "USERID" then
        (⟨FIELD_USERID, kept info, true, none,
          if kept info = [] then none else some (kept info)⟩, reply_exit.jumped)
      else if t = 58 then
        reply_loop ⟨FIELD_USERID, [], false, none,
          if kept info = [] then none else some (kept info)⟩ rest
      else
        (⟨FIELD_USERID, [], false, none,
          if kept info = [] then none else some (kept info)⟩, reply_exit.finished) := by
  have e : (ports ++ [58] ++ type ++ [58] ++ info).map recv_event.byte ++
      recv_event.byte t :: rest =
      ports.map recv_event.byte ++ (recv_event.byte 58 :: (type.map recv_event.byte ++
        (recv_event.byte 58 :: (info.map recv_event.byte ++ recv_event.byte t :: rest)))) := by
    simp [List.append_assoc]
  rw [e, reply_fill ports _ _ _ _ _ (by decide) hports (by simpa using hkp), reply_step_ports,
    reply_fill type _ _ _ _ _ (by decide) htype (by simpa using hkt), reply_step_type,
    reply_fill info _ _ _ _ _ (by decide) hinfo (by simpa using hki)]
  simp only [List.nil_append]
  by_cases hu : kept type = str "USERID"
  · have hb : (kept type != str "USERID") = false := by simp [hu]
    rw [hb, if_neg (by simp [hu])]
    by_cases h58 : t = 58
    · subst h58
      rw [reply_step_info_colon, if_pos rfl]
    · rw [if_neg h58]
      exact reply_step_info_eol _ _ t _ (by omega)
  · have hb : (kept type != str "USERID") = true := by simp [hu]
    rw [hb, if_pos hu]
    exact reply_step_info_error _ _ t _ ht

theorem reply_fill_userid (u : List Nat) (p : List Nat) (e : Bool)
    (i : Option (List Nat)) (rest : List recv_event)
    (hb : userid_bytes u) (hlen : (p ++ u).length < 511) :
    reply_loop ⟨FIELD_USERID, p, e, none, i⟩ (u.map recv_event.byte ++ rest) =
      reply_loop ⟨FIELD_USERID, p ++ u, e, none, i⟩ rest :=
  reply_loop_userid u ⟨FIELD_USERID, p, e, none, i⟩ rest rfl hb hlen

/-- What `forward_query` returns and records once the request is written, in
terms of the reply loop. -/
theorem forward_query_reply (g : Globals) (query : ident_query)
    (cands : List candidate) (c : connection) (st : reply_state)
    (hconn : connects g cands c) (hfit : (request_text query).length < 513)
    (hsend : sends_all query c) (hg : g.additional_info = none)
    (hloop : reply_loop ⟨FIELD_PORTS, [], false, none, none⟩ c.reply =
      (st, reply_exit.finished) ∨
      (reply_loop ⟨FIELD_PORTS, [], false, none, none⟩ c.reply = (st, reply_exit.jumped) ∧
        st.is_error = true ∧ st.response = none)) :
    (forward_query (some cands) g query).result = Step.done (accept_truncated st).response ∧
      (forward_query (some cands) g query).globals.additional_info = st.info ∧
      (g.additional_info_freed = false →
        (forward_query (some cands) g query).globals.additional_info_freed = false) ∧
      (forward_query (some cands) g query).globals.forwarding_attempted = true := by
  unfold sends_all at hsend
  rw [forward_query_connected g query cands c hconn]
  rw [← forward_request_text] at hfit
  have hge : ¬ ((forward_request query).length ≥ 513) := by omega
  simp only [hge, if_false, hsend, lt_self_iff_false, hg]
  rcases hloop with h | ⟨h, he, hr⟩
  · rw [h]
    cases hi : st.info <;> simp [hi]
  · rw [h]
    have : (accept_truncated st).response = st.response := by
      unfold accept_truncated
      simp [he]
    rw [this]
    cases hi : st.info <;> simp [hi]

/-- C9, counterexample: the reply has the four fields, the type `USERID` and the
user id `bob`, but its ports field is 511 digits long; the buffer fills up in
the first field and `forward_query` returns no user id. -/
theorem forward_reply_counterexample :
    (forward_query
        (some [candidate.connected
          (downstream (List.replicate 511 49 ++ str ":USERID:UNIX:bob\r\n"))])
        Globals.init ⟨51000, 443, none, none, 0, false⟩).result = Step.done none := by
  set_option maxRecDepth 100000 in decide

/-- C9, amended: for a reply `<ports>:<type>:<info>:<userid><EOL>` whose first
three fields hold no colon, CR, LF or NUL, whose ports and info fields keep
fewer than 511 bytes once the skipped bytes are removed, whose type reads
`USERID` once white space is removed, and whose user id holds no CR, LF or NUL
and is shorter than 511 bytes, `forward_query` (connected, request written)
returns the user id byte for byte and sets `additional_info` to the info field
without its spaces, tabs, control bytes and bytes from 0x7F on when that is
non-empty, and leaves it unset otherwise. -/
theorem forward_reply_userid (g : Globals) (query : ident_query)
    (cands : List candidate) (c : connection)
    (ports type info userid : List Nat) (eol : Nat) (rest : List recv_event)
    (hconn : connects g cands c) (hfit : (request_text query).length < 513)
    (hsend : sends_all query c) (hg : g.additional_info = none)
    (hports : field_bytes ports) (htype : field_bytes type) (hinfo : field_bytes info)
    (huser : userid_bytes userid) (heol : eol = 13 ∨ eol = 10)
    (hkp : (kept ports).length < 511) (hki : (kept info).length < 511)
    (htype_is : type.filter (fun c => !isspace c) = str "USERID")
    (hlen : userid.length < 511)
    (hreply : c.reply =
      (ports ++ [58] ++ type ++ [58] ++ info ++ [58] ++ userid ++ [eol]).map recv_event.byte
        ++ rest) :
    (forward_query (some cands) g query).result = Step.done (some userid) ∧
      (forward_query (some cands) g query).globals.additional_info =
        if kept info = [] then none else some (kept info) := by
  have hkt : kept type = str "USERID" := by
    rw [← kept_blank_filter, htype_is]; decide
  have hktl : (kept type).length < 511 := by rw [hkt]; decide
  have e : (ports ++ [58] ++ type ++ [58] ++ info ++ [58] ++ userid ++ [eol]).map
      recv_event.byte ++ rest =
      (ports ++ [58] ++ type ++ [58] ++ info).map recv_event.byte ++
        recv_event.byte 58 :: (userid.map recv_event.byte ++ recv_event.byte eol :: rest) := by
    simp [List.append_assoc]
  have hloop : reply_loop ⟨FIELD_PORTS, [], false, none, none⟩ c.reply =
      (⟨FIELD_EOL, [], false, some userid, if kept info = [] then none else some (kept info)⟩,
        reply_exit.finished) := by
    rw [hreply, e, reply_loop_header ports type info 58 _ hports htype hinfo hkp hktl hki
      (Or.inl rfl), if_neg (by simp [hkt]), if_pos rfl,
      reply_fill_userid userid _ _ _ _ huser (by simpa using hlen), List.nil_append,
      reply_step_userid_eol _ _ _ _ _ heol]
  obtain ⟨h1, h2, _, _⟩ := forward_query_reply g query cands c _ hconn hfit hsend hg
    (Or.inl hloop)
  refine ⟨?_, h2⟩
  rw [h1]
  simp [accept_truncated]

/-- C9, witness: the reply `51000,443 : USERID : UN IX : b:o b` followed by CR LF
yields the user id ` b:o b ` and the info `UNIX`. -/
theorem forward_reply_userid_witness :
    (forward_query (some [candidate.connected
          (downstream (str "51000,443 : USERID : UN IX : b:o b \r\n"))])
        Globals.init ⟨51000, 443, none, none, 0, false⟩).result
        = Step.done (some (str " b:o b ")) ∧
      (forward_query (some [candidate.connected
          (downstream (str "51000,443 : USERID : UN IX : b:o b \r\n"))])
        Globals.init ⟨51000, 443, none, none, 0, false⟩).globals.additional_info
        = some (str "UNIX") :=
  forward_reply_userid Globals.init ⟨51000, 443, none, none, 0, false⟩
    [candidate.connected (downstream (str "51000,443 : USERID : UN IX : b:o b \r\n"))]
    (downstream (str "51000,443 : USERID : UN IX : b:o b \r\n"))
    (str "51000,443 ") (str " USERID ") (str " UN IX ") (str " b:o b ") 13
    [recv_event.byte 10]
    (by decide) (by decide) (by decide) rfl (by decide) (by decide) (by decide) (by decide)
    (by decide) (by decide) (by decide) (by decide) (by decide) (by decide)

/-! ## Lemmas on the lookups of `main` -/

theorem local_lookup_done (cfg : Config) (env : Env) (q : ident_query) (g1 : Globals)
    (found : Option (List Nat))
    (h : local_lookup cfg env Globals.init q = (g1, Step.done found)) :
    g1.query_fd = -1 ∧ g1.additional_info = none ∧ g1.additional_info_freed = false := by
  unfold local_lookup at h
  split at h
  · unfold netlink at h
    cases hs : env.nl.socket with
    | none =>
      rw [hs] at h
      simp only [Prod.mk.injEq] at h
      obtain ⟨h, _⟩ := h
      subst h
      simp [Globals.init]
    | some fd =>
      rw [hs] at h
      simp only at h
      cases hr : (if env.nl.sendmsg_ok = true then read_responses env.libc 1 q env.nl.recvs
          else Step.done none) with
      | done res =>
        rw [hr] at h
        simp only [Prod.mk.injEq] at h
        obtain ⟨h, _⟩ := h
        subst h
        simp [Globals.init]
      | expired => rw [hr] at h; simp at h
      | fatal => rw [hr] at h; simp at h
  · simp only [Prod.mk.injEq] at h
    obtain ⟨h, _⟩ := h
    subst h
    simp [Globals.init]

theorem connects_of_closed (g : Globals) (cands : List candidate) (c : connection)
    (hg : g.query_fd = -1) (h : connects Globals.init cands c) : connects g cands c := by
  unfold connects at h ⊢
  have e1 : (close_query_fd g).query_fd = -1 := by
    unfold close_query_fd
    split
    · rfl
    · exact hg
  have e2 : (close_query_fd Globals.init).query_fd = -1 := by decide
  rw [e1]
  rw [e2] at h
  exact h

/-- C10, counterexample: the forwarded reply `51000,443:ERROR:` with an empty
info field records no `additional_info`, and the response of `main` is
`34567,443:ERROR:NO-USER`, not `34567,443:ERROR:` followed by the empty info. -/
theorem forwarded_error_counterexample :
    (forward_query (some [candidate.connected (downstream (str "51000,443:ERROR:\r\n"))])
        Globals.init ⟨51000, 443, none, none, 0, false⟩).globals.additional_info = none ∧
      main default_config (nat_env (str "51000,443:ERROR:\r\n")) =
        Outcome.response (str "34567,443:ERROR:NO-USER\r\n") := by
  decide

/-- C10, amended: for a downstream reply `<ports>:<type>:<info>` ended by a
colon, CR or LF, whose fields hold no colon, CR, LF or NUL and keep fewer than
511 bytes each once the skipped bytes are removed, and whose type is not
`USERID`, `forward_query` (connected, request written) returns no user id and
records the info field without its skipped bytes as `additional_info` when
that is non-empty (nothing otherwise); and when it is non-empty, a run of
`main` that reaches this forward (query accepted, local lookup without a
result, forwarding enabled, a conntrack row accepted) and writes its response
writes `<l>,<r>:ERROR:<info>`. -/
theorem forwarded_error_response (cfg : Config) (env : Env) (input : Option (List Nat))
    (g1 : Globals) (call : forward_call) (cands : List candidate) (c : connection)
    (ports type info : List Nat) (t : Nat) (rest : List recv_event)
    (hports : field_bytes ports) (htype : field_bytes type) (hinfo : field_bytes info)
    (hkp : (kept ports).length < 511) (hkt : (kept type).length < 511)
    (hki : (kept info).length < 511) (ht : t = 58 ∨ t = 13 ∨ t = 10)
    (hnot : kept type ≠ str "USERID")
    (hreply : c.reply =
      (ports ++ [58] ++ type ++ [58] ++ info).map recv_event.byte ++ recv_event.byte t :: rest)
    (hfit : (request_text call.query).length < 513) (hsend : sends_all call.query c) :
    (∀ g, g.additional_info = none → connects g cands c →
      (forward_query (some cands) g call.query).result = Step.done none ∧
      (forward_query (some cands) g call.query).globals.additional_info =
        if kept info = [] then none else some (kept info)) ∧
    (kept info ≠ [] →
      env.stdin = stdin_event.read input →
      (parse_query cfg env input).ok = true →
      local_lookup cfg env Globals.init
        { (parse_query cfg env input).query with
          ip_in_query_extension := cfg.forward_original_ip } = (g1, Step.done none) →
      cfg.forwarding_enabled = true →
      (conntrack_command cfg.conntrack_path
        { (parse_query cfg env input).query with
          ip_in_query_extension := cfg.forward_original_ip }).isSome = true →
      env.pipe.popen_ok = true →
      conntrack_forward
        { (parse_query cfg env input).query with
          ip_in_query_extension := cfg.forward_original_ip } env.pipe.lines = some call →
      env.addresses call.destination = some cands →
      connects Globals.init cands c →
      env.write_blocked = false →
      main cfg env =
        Outcome.response (fmt_u (parse_query cfg env input).query.local_port ++ str "," ++
          fmt_u (parse_query cfg env input).query.remote_port ++ str ":ERROR:" ++ kept info ++
          str "\r\n")) := by
  have hloop : reply_loop ⟨FIELD_PORTS, [], false, none, none⟩ c.reply =
      (⟨FIELD_USERID, kept info, true, none,
        if kept info = [] then none else some (kept info)⟩, reply_exit.jumped) := by
    rw [hreply, reply_loop_header ports type info t rest hports htype hinfo hkp hkt hki ht,
      if_pos hnot]
  have hA : ∀ g, g.additional_info = none → connects g cands c →
      (forward_query (some cands) g call.query).result = Step.done none ∧
      (forward_query (some cands) g call.query).globals.additional_info =
        (if kept info = [] then none else some (kept info)) ∧
      (g.additional_info_freed = false →
        (forward_query (some cands) g call.query).globals.additional_info_freed = false) ∧
      (forward_query (some cands) g call.query).globals.forwarding_attempted = true := by
    intro g hg hconn
    obtain ⟨h1, h2, h3, h4⟩ := forward_query_reply g call.query cands c _ hconn hfit hsend hg
      (Or.inr ⟨hloop, rfl, rfl⟩)
    refine ⟨?_, h2, h3, h4⟩
    rw [h1]
    simp [accept_truncated]
  refine ⟨fun g hg hconn => ⟨(hA g hg hconn).1, (hA g hg hconn).2.1⟩, ?_⟩
  intro hne hstdin hok hlocal hfwd hcmd hpopen hrow haddr hconn hwrite
  obtain ⟨gfd, ginfo, gfreed⟩ := local_lookup_done cfg env _ g1 none hlocal
  obtain ⟨cmd, hcmd'⟩ := Option.isSome_iff_exists.mp hcmd
  have hconn2 : connects { g1 with forwarding_attempted := false, query_pipe := false }
      cands c := connects_of_closed _ cands c gfd hconn
  obtain ⟨r1, r2, r3, r4⟩ := hA { g1 with forwarding_attempted := false, query_pipe := false }
    ginfo hconn2
  have r3' := r3 gfreed
  have hct : conntrack cfg.conntrack_path env.pipe env.addresses g1
      { (parse_query cfg env input).query with
        ip_in_query_extension := cfg.forward_original_ip } =
      ((forward_query (some cands)
          { g1 with forwarding_attempted := false, query_pipe := false } call.query).globals,
        Step.done none) := by
    unfold conntrack
    simp only [hcmd', hpopen, hrow, haddr, r1]
    simp
  have hres : resolve cfg env (parse_query cfg env input).query =
      Step.done { query := { (parse_query cfg env input).query with
                             ip_in_query_extension := cfg.forward_original_ip },
                  found_result := none, error_result := str "NO-USER",
                  globals :=
                    { (forward_query (some cands)
                        { g1 with forwarding_attempted := false, query_pipe := false }
                        call.query).globals with query_fd := -1, query_pipe := false } } := by
    unfold resolve lookup
    simp only [hlocal, hfwd, Option.isNone_none, Bool.and_self, if_true, hct, close_slots]
  unfold main before_response
  simp only [hstdin, hok, Bool.not_true, Bool.false_eq_true, if_false, hres]
  simp only [apply_fixed, r4, Bool.or_true, Bool.not_true, Bool.false_eq_true, if_false]
  have hfix : ∀ a : answer, (match cfg.fixed_local_result with
      | some _ => some a
      | none => some a) = some a := by
    intro a; cases cfg.fixed_local_result <;> rfl
  rw [hfix]
  simp only [write_response, hwrite, Bool.false_eq_true, if_false, r2, r3', Bool.and_false,
    response_line, response_header, response_body, if_neg hne, Option.getD_some]
  have hcat : str ":" ++ str "ERROR:" = str ":ERROR:" := by decide
  simp only [List.append_assoc, Outcome.response.injEq, List.append_cancel_left_eq]
  rw [← List.append_assoc (str ":"), hcat]

/-- C10, witness: scenario 4, the forwarded reply `51000,443:ERROR:HIDDEN-USER`
for the query `34567,443`. -/
theorem forwarded_error_response_witness :
    main default_config (nat_env (str "51000,443:ERROR:HIDDEN-USER\r\n")) =
      Outcome.response (str "34567,443:ERROR:HIDDEN-USER\r\n") :=
  (forwarded_error_response default_config (nat_env (str "51000,443:ERROR:HIDDEN-USER\r\n"))
    (some (str "34567,443\r\n")) Globals.init
    ⟨str "192.168.1.5", ⟨51000, 443, none, none, 0, false⟩⟩
    [candidate.connected (downstream (str "51000,443:ERROR:HIDDEN-USER\r\n"))]
    (downstream (str "51000,443:ERROR:HIDDEN-USER\r\n"))
    (str "51000,443") (str "ERROR") (str "HIDDEN-USER") 13 [recv_event.byte 10]
    (by decide) (by decide) (by decide) (by decide) (by decide) (by decide) (by decide)
    (by decide) (by decide) (by decide) (by decide)).2
    (by decide) rfl (by decide) (by decide) rfl (by decide) rfl (by decide) (by decide)
    (by decide) rfl

/-! ## Claims on the privilege reducer -/

theorem discard_capabilities_returns (env : priv_env) (caps : List Nat) :
    discard_capabilities env caps = true := by
  unfold discard_capabilities
  split
  · rfl
  · split <;> rfl

/-- The arguments with which `minimal_privileges_as` enters its steps. -/
theorem minimal_privileges_eq (env : priv_env) (uid gid : Nat) (need_admin : Bool) :
    minimal_privileges_as env uid gid need_admin =
      privilege_steps env (!no_user_change env uid gid)
        (if need_admin then [CAP_NET_ADMIN] else [])
        (if no_user_change env uid gid then
          (if need_admin then [CAP_NET_ADMIN, CAP_SETPCAP] else [CAP_SETPCAP])
         else
          (if need_admin then [CAP_NET_ADMIN, CAP_SETPCAP, CAP_SETGID, CAP_SETUID]
           else [CAP_SETPCAP, CAP_SETGID, CAP_SETUID]))
        (if no_user_change env uid gid then [CAP_SETPCAP]
         else [CAP_SETPCAP, CAP_SETGID, CAP_SETUID]) := by
  unfold minimal_privileges_as
  cases need_admin <;> cases no_user_change env uid gid <;> rfl

/-- What the trace of the steps records, whatever the lists. -/
theorem privilege_steps_trace (env : priv_env) (change_user : Bool)
    (needed kept dropped : List Nat) :
    (privilege_steps env change_user needed kept dropped).file_list = needed ∧
      (∀ l, (privilege_steps env change_user needed kept dropped).inherit_list = some l →
        l = needed ∧ needed ≠ []) ∧
      (∀ l, (privilege_steps env change_user needed kept dropped).discard_list = some l →
        l = dropped) ∧
      ((privilege_steps env change_user needed kept dropped).returned = true →
        (privilege_steps env change_user needed kept dropped).discard_list = some dropped) := by
  have ha : already_have_capabilities (env.fails priv_call.current_cap_get_flag)
      env.current_has needed = some false → needed ≠ [] := by
    intro h hn
    rw [hn] at h
    simp [already_have_capabilities] at h
  unfold privilege_steps
  simp only [discard_capabilities_returns]
  cases (set_file_capabilites env needed).1 with
  | false => simp
  | true =>
    cases change_identity env change_user kept with
    | false => simp
    | true =>
      cases hah : already_have_capabilities (env.fails priv_call.current_cap_get_flag)
          env.current_has needed with
      | none => simp
      | some b =>
        cases b with
        | true =>
          by_cases hm : make_inheritable env true needed = true
          · simp [hm]
          · simp [hm]
        | false =>
          have := ha hah
          by_cases hm : make_inheritable env false needed = true
          · simp [hm, this]
          · simp [hm, this]

/-- What must have gone well when the steps come to an end by returning. -/
theorem privilege_steps_returned (env : priv_env) (change_user : Bool)
    (needed kept dropped : List Nat)
    (h : (privilege_steps env change_user needed kept dropped).returned = true) :
    (set_file_capabilites env needed).1 = true ∧
      change_identity env change_user kept = true ∧
      ∃ b, already_have_capabilities (env.fails priv_call.current_cap_get_flag)
          env.current_has needed = some b ∧ make_inheritable env b needed = true := by
  unfold privilege_steps at h
  simp only at h
  cases h1 : (set_file_capabilites env needed).1 with
  | false => rw [h1] at h; simp at h
  | true =>
    rw [h1] at h
    cases h2 : change_identity env change_user kept with
    | false => rw [h2] at h; simp at h
    | true =>
      rw [h2] at h
      cases h3 : already_have_capabilities (env.fails priv_call.current_cap_get_flag)
          env.current_has needed with
      | none => rw [h3] at h; simp at h
      | some b =>
        rw [h3] at h
        refine ⟨rfl, rfl, b, rfl, ?_⟩
        by_cases hm : make_inheritable env b needed = true
        · exact hm
        · simp [hm] at h

theorem already_have_single (fails : Bool) (has : Nat → Bool) (cap : Nat) :
    already_have_capabilities fails has [cap] =
      if fails then none else some (has cap) := by
  unfold already_have_capabilities
  cases fails <;> cases has cap <;> simp [already_have_capabilities]

/-- The calls that must have succeeded when `set_file_capabilites` returns for
a single capability. -/
theorem set_file_capabilites_returned (env : priv_env) (cap : Nat)
    (h : (set_file_capabilites env [cap]).1 = true) :
    env.fails priv_call.file_open = false ∧
    (env.fails priv_call.file_cap_get_fd = true →
      env.fails priv_call.file_cap_init = false) ∧
    env.fails priv_call.file_cap_get_flag = false ∧
    (env.fails priv_call.file_cap_get_fd = true ∨ env.file_has cap = false →
      env.fails priv_call.file_needed_set_flag = false ∧
      env.fails priv_call.file_needed_set_proc = false ∧
      env.fails priv_call.file_set_flag_inheritable = false ∧
      env.fails priv_call.file_set_flag_effective = false) := by
  unfold set_file_capabilites at h
  simp only [List.length_singleton, Nat.lt_irrefl, if_false, already_have_single] at h
  cases h0 : env.fails priv_call.file_open <;>
    cases h1 : env.fails priv_call.file_cap_get_fd <;>
    cases h2 : env.fails priv_call.file_cap_init <;>
    cases h3 : env.fails priv_call.file_cap_get_flag <;>
    cases h4 : env.file_has cap <;>
    cases h5 : env.fails priv_call.file_needed_set_flag <;>
    cases h6 : env.fails priv_call.file_needed_set_proc <;>
    cases h7 : env.fails priv_call.file_set_flag_inheritable <;>
    cases h8 : env.fails priv_call.file_set_flag_effective <;>
    simp_all

/-- C15, counterexample: `need_admin` is true and no user change is performed
(uid 0, gid 0), no call fails; the discard step is handed `CAP_SETPCAP` alone,
not the three transition capabilities. -/
theorem discard_list_counterexample :
    (minimal_privileges_as ⟨fun _ => false, 0, 0, fun _ => false, fun _ => false⟩
        0 0 true).discard_list = some [CAP_SETPCAP] ∧
      (minimal_privileges_as ⟨fun _ => false, 0, 0, fun _ => false, fun _ => false⟩
        0 0 true).returned = true := by
  decide

/-- C15, amended: whenever `minimal_privileges_as` returns it has reached the
discard step; the list handed to that step is the three transition
capabilities `SETPCAP, SETGID, SETUID` when a user change is performed and
`SETPCAP` alone when none is performed (`num_caps -= 2`), and it never
contains `NET_ADMIN`; the list handed to the file-capability step, and to the
step that makes capabilities inheritable and effective when that step is
called, is `NET_ADMIN` alone when `need_admin` is true, and nothing is made
inheritable when it is false. -/
theorem privilege_lists (env : priv_env) (uid gid : Nat) (need_admin : Bool) :
    ((minimal_privileges_as env uid gid need_admin).returned = true →
      (minimal_privileges_as env uid gid need_admin).discard_list.isSome = true) ∧
    (∀ l, (minimal_privileges_as env uid gid need_admin).discard_list = some l →
      (no_user_change env uid gid = false → l = [CAP_SETPCAP, CAP_SETGID, CAP_SETUID]) ∧
      (no_user_change env uid gid = true → l = [CAP_SETPCAP]) ∧
      CAP_NET_ADMIN ∉ l) ∧
    (minimal_privileges_as env uid gid need_admin).file_list =
      (if need_admin then [CAP_NET_ADMIN] else []) ∧
    (∀ l, (minimal_privileges_as env uid gid need_admin).inherit_list = some l →
      need_admin = true ∧ l = [CAP_NET_ADMIN]) ∧
    (need_admin = false →
      (minimal_privileges_as env uid gid need_admin).inherit_list = none) := by
  rw [minimal_privileges_eq]
  obtain ⟨hfile, hinh, hdis, hret⟩ := privilege_steps_trace env (!no_user_change env uid gid)
    (if need_admin then [CAP_NET_ADMIN] else [])
    (if no_user_change env uid gid then
      (if need_admin then [CAP_NET_ADMIN, CAP_SETPCAP] else [CAP_SETPCAP])
     else
      (if need_admin then [CAP_NET_ADMIN, CAP_SETPCAP, CAP_SETGID, CAP_SETUID]
       else [CAP_SETPCAP, CAP_SETGID, CAP_SETUID]))
    (if no_user_change env uid gid then [CAP_SETPCAP]
     else [CAP_SETPCAP, CAP_SETGID, CAP_SETUID])
  refine ⟨fun h => by rw [hret h]; rfl, ?_, hfile, ?_, ?_⟩
  · intro l hl
    have := hdis l hl
    refine ⟨?_, ?_, ?_⟩
    · intro hn; rw [this, hn]; rfl
    · intro hn; rw [this, hn]; rfl
    · rw [this]
      cases no_user_change env uid gid <;> decide
  · intro l hl
    obtain ⟨h1, h2⟩ := hinh l hl
    cases need_admin with
    | true => exact ⟨rfl, h1⟩
    | false => exact absurd rfl h2
  · intro hna
    subst hna
    cases hi : (privilege_steps env (!no_user_change env uid gid)
        (if false = true then [CAP_NET_ADMIN] else [])
        (if no_user_change env uid gid then
          (if false = true then [CAP_NET_ADMIN, CAP_SETPCAP] else [CAP_SETPCAP])
         else
          (if false = true then [CAP_NET_ADMIN, CAP_SETPCAP, CAP_SETGID, CAP_SETUID]
           else [CAP_SETPCAP, CAP_SETGID, CAP_SETUID]))
        (if no_user_change env uid gid then [CAP_SETPCAP]
         else [CAP_SETPCAP, CAP_SETGID, CAP_SETUID])).inherit_list with
    | none => rfl
    | some l => exact absurd rfl (hinh l hi).2

/-- C15, witness: root drops to uid and gid 65534 with `need_admin`; the
discard step is handed the three transition capabilities. -/
theorem privilege_lists_witness :
    (minimal_privileges_as ⟨fun _ => false, 0, 0, fun _ => false, fun _ => false⟩
        65534 65534 true).discard_list
      = some [CAP_SETPCAP, CAP_SETGID, CAP_SETUID] :=
  match h : (minimal_privileges_as ⟨fun _ => false, 0, 0, fun _ => false, fun _ => false⟩
      65534 65534 true).discard_list with
  | some l =>
    congrArg some (((privilege_lists ⟨fun _ => false, 0, 0, fun _ => false, fun _ => false⟩
      65534 65534 true).2.1 l h).1 (by decide))
  | none => absurd h (by decide)

/-- C16, counterexample: `need_admin` is true, the tool's file capabilities
have to be written and `cap_set_fd` fails; `minimal_privileges_as` returns to
its caller with the file capabilities unwritten. -/
theorem file_write_failure_counterexample :
    (minimal_privileges_as
        ⟨fun c => c == priv_call.file_cap_set_fd, 0, 0, fun _ => false, fun _ => false⟩
        65534 65534 true).returned = true ∧
      (minimal_privileges_as
        ⟨fun c => c == priv_call.file_cap_set_fd, 0, 0, fun _ => false, fun _ => false⟩
        65534 65534 true).file_written = false := by
  decide

/-- C16, amended: with `need_admin` true, `minimal_privileges_as` returns to
its caller only if none of these calls it reaches has failed: opening the
tool, `cap_init` after a failed `cap_get_fd`, `cap_get_flag`, setting a
capability flag or applying the process capability set in the file-capability
step (when the file set has to be changed), in the retain step and in the
inheritable step (when the process does not hold `NET_ADMIN` as inheritable
and effective yet), keep-caps on, `setregid`, `setreuid` (when a user change
is performed).  A failure of `cap_get_fd`, of `cap_set_fd` or inside the
discard step is a warning and does not end the process. -/
theorem privilege_failures_fatal (env : priv_env) (uid gid : Nat)
    (h : (minimal_privileges_as env uid gid true).returned = true) :
    env.fails priv_call.file_open = false ∧
    (env.fails priv_call.file_cap_get_fd = true →
      env.fails priv_call.file_cap_init = false) ∧
    env.fails priv_call.file_cap_get_flag = false ∧
    (env.fails priv_call.file_cap_get_fd = true ∨ env.file_has CAP_NET_ADMIN = false →
      env.fails priv_call.file_needed_set_flag = false ∧
      env.fails priv_call.file_needed_set_proc = false ∧
      env.fails priv_call.file_set_flag_inheritable = false ∧
      env.fails priv_call.file_set_flag_effective = false) ∧
    (no_user_change env uid gid = false →
      env.fails priv_call.retain_cap_clear = false ∧
      env.fails priv_call.retain_set_flag_effective = false ∧
      env.fails priv_call.retain_set_flag_permitted = false ∧
      env.fails priv_call.retain_set_proc = false ∧
      env.fails priv_call.retain_prctl = false ∧
      env.fails priv_call.setregid = false ∧
      env.fails priv_call.setreuid = false) ∧
    env.fails priv_call.current_cap_get_flag = false ∧
    (env.current_has CAP_NET_ADMIN = false →
      env.fails priv_call.inherit_set_flag_effective = false ∧
      env.fails priv_call.inherit_set_flag_inheritable = false ∧
      env.fails priv_call.inherit_set_proc = false) := by
  rw [minimal_privileges_eq] at h
  obtain ⟨hfile, hchange, b, hb, hinh⟩ := privilege_steps_returned env _ _ _ _ h
  simp only [if_true] at hfile hb hinh hchange
  obtain ⟨f1, f2, f3, f4⟩ := set_file_capabilites_returned env CAP_NET_ADMIN hfile
  refine ⟨f1, f2, f3, f4, ?_, ?_, ?_⟩
  · intro hn
    rw [hn] at hchange
    simp only [change_identity, Bool.not_false, if_true, Bool.false_eq_true, if_false,
      retain_capabilities, List.length_cons, List.length_nil] at hchange
    cases h0 : env.fails priv_call.retain_cap_clear <;>
      cases h1 : env.fails priv_call.retain_set_flag_effective <;>
      cases h2 : env.fails priv_call.retain_set_flag_permitted <;>
      cases h3 : env.fails priv_call.retain_set_proc <;>
      cases h4 : env.fails priv_call.retain_prctl <;>
      cases h5 : env.fails priv_call.setregid <;>
      cases h6 : env.fails priv_call.setreuid <;>
      simp_all
  · rw [already_have_single] at hb
    cases h0 : env.fails priv_call.current_cap_get_flag with
    | false => rfl
    | true => rw [h0] at hb; simp at hb
  · intro hcur
    rw [already_have_single] at hb
    cases h0 : env.fails priv_call.current_cap_get_flag with
    | true => rw [h0] at hb; simp at hb
    | false =>
      rw [h0, hcur] at hb
      simp only [Bool.false_eq_true, if_false, Option.some.injEq, Step.done.injEq] at hb
      subst hb
      simp only [make_inheritable, Bool.false_eq_true, if_false, inheritable_capabilities,
        List.length_singleton, Nat.lt_irrefl] at hinh
      cases h1 : env.fails priv_call.inherit_set_flag_effective <;>
        cases h2 : env.fails priv_call.inherit_set_flag_inheritable <;>
        cases h3 : env.fails priv_call.inherit_set_proc <;>
        simp_all

/-- C16, witness: root drops to uid and gid 65534 with `need_admin` and no call
fails; the function returns, so in particular `setreuid` has not failed. -/
theorem privilege_failures_fatal_witness :
    (⟨fun _ => false, 0, 0, fun _ => false, fun _ => false⟩ : priv_env).fails
      priv_call.setreuid = false :=
  ((privilege_failures_fatal ⟨fun _ => false, 0, 0, fun _ => false, fun _ => false⟩
    65534 65534 (by decide)).2.2.2.2.1 (by decide)).2.2.2.2.2.2

/-! ## Claims on the query extension -/

theorem read_query_rejected_frame (libc : Libc) (line : List Nat) (q : ident_query)
    (h : bad_ports (cstr line 0)) :
    (read_query libc (some line) q).got_address = false ∧
      same_peer (read_query libc (some line) q).query q := by
  unfold bad_ports remote_value after_comma at h
  unfold same_peer
  simp only [read_query, read_port_spec]
  by_cases h1 : port_value (cstr line 0) = 0
  · simp [h1]
  · have hd := port_value_pos_digits _ h1
    simp only [h1, if_false, hd, Option.getD_some]
    rcases h with h | h
    · exact absurd h h1
    · cases hf : find_sub [44] (after_digits (cstr line 0)) with
      | none => simp
      | some k =>
        simp only [hf, Option.map_some', Option.getD_some] at h
        simp [h]

theorem not_bad_ports (s : List Nat) (h : ¬ bad_ports s) :
    port_value s ≠ 0 ∧ ∃ rest, after_comma (after_digits s) = some rest ∧
      port_value rest ≠ 0 := by
  unfold bad_ports remote_value at h
  refine ⟨fun e => h (Or.inl e), ?_⟩
  cases hc : after_comma (after_digits s) with
  | none => exact absurd (Or.inr (by simp [hc])) h
  | some rest =>
    refine ⟨rest, rfl, fun e => h (Or.inr ?_)⟩
    simp [hc, e]

/-- C14: `read_query` accepts a line exactly when it has two usable ports,
whatever the extension flag and the token; whenever it reports no address
(`got_address` false) the peer address fields are exactly as they were; it
reports none when the flag is off, and none when the token after the colon is
no IPv4 and no IPv6 address for `inet_pton`; and when it reports one, the flag
is on and the fields hold the family, the bytes and the printable form of the
token's address. -/
theorem read_query_frame (libc : Libc) (line : List Nat) (q : ident_query) :
    ((read_query libc (some line) q).ok = true ↔ ¬ bad_ports (cstr line 0)) ∧
    ((read_query libc (some line) q).got_address = false →
      same_peer (read_query libc (some line) q).query q) ∧
    (q.ip_in_query_extension = false →
      (read_query libc (some line) q).got_address = false) ∧
    ((∀ tok, extension_token (cstr line 0) = some tok →
        libc.inet_pton AF_INET tok = none ∧ libc.inet_pton AF_INET6 tok = none) →
      (read_query libc (some line) q).got_address = false) ∧
    ((read_query libc (some line) q).got_address = true →
      q.ip_in_query_extension = true ∧
      ∃ tok af addr text, extension_token (cstr line 0) = some tok ∧
        (af = AF_INET ∨ af = AF_INET6) ∧ libc.inet_pton af tok = some addr ∧
        libc.inet_ntop af addr = some text ∧
        (read_query libc (some line) q).query.address_family = af ∧
        (read_query libc (some line) q).query.socket_address = some addr ∧
        (read_query libc (some line) q).query.ip_address = some text) := by
  by_cases hbad : bad_ports (cstr line 0)
  · obtain ⟨g, sp⟩ := read_query_rejected_frame libc line q hbad
    have hok := (read_query_rejects libc line q hbad).1
    refine ⟨?_, fun _ => sp, fun _ => g, fun _ => g, ?_⟩
    · rw [hok]; simp [hbad]
    · intro h; rw [g] at h; exact absurd h (by simp)
  · obtain ⟨h1, rest, h2, h3⟩ := not_bad_ports _ hbad
    have hok := (read_query_accepts libc line q rest h1 h2 h3).1
    refine ⟨by rw [hok]; simp [hbad], ?_⟩
    have htok : extension_token (cstr line 0) =
        (find_sub [58] rest).map (fun j => address_token (rest.drop (j + 1))) := by
      unfold extension_token; rw [h2]
    unfold after_comma at h2
    have hd := port_value_pos_digits _ h1
    cases hf : find_sub [44] (after_digits (cstr line 0)) with
    | none => simp [hf] at h2
    | some k =>
      simp only [hf, Option.map_some', Option.some.injEq] at h2
      rw [htok]
      unfold same_peer
      simp only [read_query, read_port_spec, h1, if_false, hd, Option.getD_some, hf, h2, h3]
      cases hext : q.ip_in_query_extension with
      | false => simp
      | true =>
        simp only [if_true]
        cases hc : find_sub [58] rest with
        | none => simp
        | some j =>
          simp only [Option.map_some', Option.some.injEq, forall_eq']
          cases h4 : libc.inet_pton AF_INET (address_token (rest.drop (j + 1))) with
          | some addr =>
            cases hn : libc.inet_ntop AF_INET addr with
            | none => simp [h4, hn]
            | some text =>
              simp only [h4, hn, true_and, Bool.true_eq_false, false_implies, reduceCtorEq,
                false_and, implies_true, forall_const, exists_eq_left']
              exact ⟨_, AF_INET, addr, text, rfl, Or.inl rfl, h4, hn, rfl, rfl, rfl⟩
          | none =>
            cases h6 : libc.inet_pton AF_INET6 (address_token (rest.drop (j + 1))) with
            | none => simp [h4, h6]
            | some addr =>
              cases hn : libc.inet_ntop AF_INET6 addr with
              | none => simp [h4, h6, hn]
              | some text =>
                simp only [h4, h6, hn, true_and, Bool.true_eq_false, false_implies,
                  reduceCtorEq, and_false, implies_true, forall_const, exists_eq_left']
                exact ⟨_, AF_INET6, addr, text, rfl, Or.inr rfl, h6, hn, rfl, rfl, rfl⟩

/-! ## Invariants of the lookups -/

theorem close_query_fd_eq (g : Globals) :
    close_query_fd g = { g with query_fd := if g.query_fd ≥ 0 then -1 else g.query_fd } := by
  unfold close_query_fd
  split <;> simp_all

theorem close_query_fd_neg (g : Globals) : (close_query_fd g).query_fd < 0 := by
  rw [close_query_fd_eq]
  simp only
  split <;> omega

/-- After the walk over the candidates `query_fd` is negative unless it refers
to a connection. -/
theorem connect_loop_slot (cands : List candidate) :
    ∀ (st : Int × Option connection) (fd : Int) (conn : Option connection),
      (st.2 = none → st.1 < 0) → connect_loop st cands = (fd, some conn) →
      (conn = none → fd < 0) := by
  induction cands with
  | nil =>
    intro st fd conn hst h hc
    simp only [connect_loop, Prod.mk.injEq, Option.some.injEq, Step.done.injEq] at h
    rw [← h.1]
    exact hst (by rw [h.2, hc])
  | cons c cands ih =>
    intro st fd conn hst h
    cases c with
    | socket_failed =>
      simp only [connect_loop] at h
      exact ih (-1, none) fd conn (fun _ => by decide) h
    | connect_failed k =>
      simp only [connect_loop] at h
      exact ih (-1, none) fd conn (fun _ => by decide) h
    | connect_blocked k =>
      simp [connect_loop] at h
    | connected k =>
      simp only [connect_loop] at h
      exact ih ((k.fd : Int), some k) fd conn (fun hn => by simp at hn) h

/-- What `forward_query` does to the process-wide variables: it leaves
`query_pipe` alone; when it returns, `query_fd` is negative and
`forwarding_attempted` is set; it never clears `forwarding_attempted`; and,
entered with no `additional_info`, it leaves none behind unless
`forwarding_attempted` is set, and never a freed one. -/
theorem forward_query_globals (addrs : Option (List candidate)) (g : Globals)
    (q : ident_query) :
    (forward_query addrs g q).globals.query_pipe = g.query_pipe ∧
    (∀ res, (forward_query addrs g q).result = Step.done res →
      (forward_query addrs g q).globals.query_fd < 0 ∧
      (forward_query addrs g q).globals.forwarding_attempted = true) ∧
    (g.forwarding_attempted = true →
      (forward_query addrs g q).globals.forwarding_attempted = true) ∧
    (g.additional_info = none → g.additional_info_freed = false →
      (forward_query addrs g q).globals.additional_info_freed = false ∧
      ((forward_query addrs g q).globals.forwarding_attempted = false →
        (forward_query addrs g q).globals.additional_info = none)) := by
  cases addrs with
  | none =>
    simp only [forward_query, reduceCtorEq, false_implies, implies_true, true_and]
    exact ⟨fun h => h, fun h1 h2 => ⟨h2, fun _ => h1⟩⟩
  | some cands =>
    have hneg := close_query_fd_neg { g with forward_address := true }
    have hslot := connect_loop_slot cands
      ((close_query_fd { g with forward_address := true }).query_fd, none)
    unfold forward_query
    simp only
    generalize connect_loop
      ((close_query_fd { g with forward_address := true }).query_fd, none) cands = cl at hslot ⊢
    obtain ⟨fd, oc⟩ := cl
    have hc : ∀ x : Globals, (close_query_fd x).query_pipe = x.query_pipe ∧
        (close_query_fd x).forwarding_attempted = x.forwarding_attempted ∧
        (close_query_fd x).additional_info = x.additional_info ∧
        (close_query_fd x).additional_info_freed = x.additional_info_freed := by
      intro x; rw [close_query_fd_eq]; simp
    cases oc with
    | none =>
      simp only [reduceCtorEq, false_implies, implies_true, true_and, (hc _).1, (hc _).2.1,
        (hc _).2.2.1, (hc _).2.2.2]
      exact ⟨fun h => h, fun h1 h2 => ⟨h2, fun _ => h1⟩⟩
    | some conn =>
      have hfd := hslot fd conn (fun _ => hneg) rfl
      cases conn with
      | none =>
        simp only [clean_up_forwarding, (hc _).1, (hc _).2.1, (hc _).2.2.1, (hc _).2.2.2,
          Step.done.injEq, forall_eq', implies_true, true_and, and_true]
        refine ⟨hfd rfl, ?_⟩
        intro h1 h2
        simp [h1, h2]
      | some c =>
        simp only [clean_up_forwarding, (hc _).1, (hc _).2.1, (hc _).2.2.1, (hc _).2.2.2]
        split
        · rename_i hlt
          simp only [Step.done.injEq, forall_eq', implies_true, true_and, and_true]
          refine ⟨hlt, ?_⟩
          intro h1 h2
          simp [h1, h2]
        · split
          · simp only [reduceCtorEq, false_implies, implies_true, true_and, and_true]
            intro h1 h2
            simp [h1, h2]
          · split
            · simp only [reduceCtorEq, false_implies, implies_true, true_and, and_true]
              intro h1 h2
              simp [h1, h2]
            · split
              · simp only [(hc _).1, (hc _).2.1, (hc _).2.2.1, (hc _).2.2.2,
                  Step.done.injEq, forall_eq', implies_true, true_and, and_true]
                refine ⟨close_query_fd_neg _, ?_⟩
                intro h1 h2
                simp [h1, h2]
              · split
                · rename_i st _
                  cases hi : st.info
                  · simp only [hi, reduceCtorEq, false_implies, implies_true, true_and,
                      and_true]
                    intro h1 h2
                    simp [h1, h2]
                  · simp only [hi, reduceCtorEq, false_implies, implies_true, true_and,
                      and_true]
                · rename_i st _
                  refine ⟨?_, ?_, ?_, ?_⟩
                  · rw [(hc _).1]; cases hi : st.info <;> simp [hi]
                  · intro res _
                    refine ⟨close_query_fd_neg _, ?_⟩
                    rw [(hc _).2.1]; cases hi : st.info <;> simp [hi]
                  · intro _
                    rw [(hc _).2.1]; cases hi : st.info <;> simp [hi]
                  · intro h1 h2
                    rw [(hc _).2.1, (hc _).2.2.1, (hc _).2.2.2]
                    cases hi : st.info <;> simp [hi, h1, h2]
                · rename_i st _
                  refine ⟨?_, ?_, ?_, ?_⟩
                  · rw [(hc _).1]; cases hi : st.info <;> simp [hi]
                  · intro res _
                    refine ⟨close_query_fd_neg _, ?_⟩
                    rw [(hc _).2.1]; cases hi : st.info <;> simp [hi]
                  · intro _
                    rw [(hc _).2.1]; cases hi : st.info <;> simp [hi]
                  · intro h1 h2
                    rw [(hc _).2.1, (hc _).2.2.1, (hc _).2.2.2]
                    cases hi : st.info <;> simp [hi, h1, h2]

/-- What `netlink` does to the process-wide variables: only `query_fd`
changes, it is `-1` when the function returns, and the function never calls
`error`. -/
theorem netlink_globals (libc : Libc) (nl : netlink_env) (g : Globals) (q : ident_query) :
    (∃ fd, (netlink libc nl g q).1 = { g with query_fd := fd }) ∧
    (∀ res, (netlink libc nl g q).2 = Step.done res → (netlink libc nl g q).1.query_fd = -1) ∧
    (netlink libc nl g q).2 ≠ Step.fatal := by
  unfold netlink
  cases nl.socket with
  | none => exact ⟨⟨-1, rfl⟩, fun _ _ => rfl, by simp⟩
  | some fd =>
    simp only
    cases nl.sendmsg_ok with
    | false => exact ⟨⟨-1, rfl⟩, fun _ _ => rfl, by simp⟩
    | true =>
      simp only [if_true]
      have hnf : ∀ recvs, read_responses libc 1 q recvs ≠ Step.fatal := by
        intro recvs
        induction recvs with
        | nil => simp [read_responses]
        | cons r rest ih =>
          cases r with
          | failed => simp [read_responses]
          | datagram s msgs =>
            simp only [read_responses]
            split
            · exact ih
            · split
              · simp
              · exact ih
      cases hr : read_responses libc 1 q nl.recvs with
      | done res => exact ⟨⟨-1, rfl⟩, fun _ _ => rfl, by simp⟩
      | expired => exact ⟨⟨(fd : Int), rfl⟩, fun _ h => by simp at h, by simp⟩
      | fatal => exact absurd hr (hnf nl.recvs)

/-- What `conntrack` does to the process-wide variables: entered with a
negative `query_fd` it returns with `query_fd` negative and `query_pipe`
null; entered with no `additional_info` it leaves none behind unless
`forwarding_attempted` is set, and never a freed one. -/
theorem conntrack_globals (path : Option (List Nat)) (pipe : pipe_env)
    (addrs : List Nat → Option (List candidate)) (g : Globals) (q : ident_query) :
    (g.query_fd < 0 → ∀ res, (conntrack path pipe addrs g q).2 = Step.done res →
      (conntrack path pipe addrs g q).1.query_fd < 0 ∧
      (conntrack path pipe addrs g q).1.query_pipe = false) ∧
    (g.additional_info = none → g.additional_info_freed = false →
      (conntrack path pipe addrs g q).1.additional_info_freed = false ∧
      ((conntrack path pipe addrs g q).1.forwarding_attempted = false →
        (conntrack path pipe addrs g q).1.additional_info = none)) := by
  unfold conntrack
  simp only
  cases conntrack_command path q with
  | none =>
    simp only [reduceCtorEq, false_implies, implies_true, true_and]
    exact fun h1 h2 => ⟨h2, fun _ => h1⟩
  | some cmd =>
    simp only
    cases pipe.popen_ok with
    | false =>
      simp only [Bool.not_false, if_true, Step.done.injEq, forall_eq', and_true]
      exact ⟨fun h => h, fun h1 h2 => ⟨h2, fun _ => h1⟩⟩
    | true =>
      simp only [Bool.not_true, Bool.false_eq_true, if_false]
      cases conntrack_forward q pipe.lines with
      | none =>
        simp only
        cases pipe.eof with
        | true =>
          simp only [if_true, Step.done.injEq, forall_eq', and_true]
          exact ⟨fun h => h, fun h1 h2 => ⟨h2, fun _ => h1⟩⟩
        | false =>
          simp only [Bool.false_eq_true, if_false, reduceCtorEq, false_implies, implies_true,
            true_and]
          exact fun h1 h2 => ⟨h2, fun _ => h1⟩
      | some call =>
        simp only
        obtain ⟨f1, f2, _, f4⟩ := forward_query_globals (addrs call.destination)
          { g with forwarding_attempted := false, query_pipe := false } call.query
        refine ⟨?_, ?_⟩
        · intro _ res hres
          exact ⟨(f2 res hres).1, f1⟩
        · intro h1 h2
          exact f4 h1 h2

/-- What the local lookup leaves in the process-wide variables. -/
theorem local_lookup_globals (cfg : Config) (env : Env) (q : ident_query) :
    (∃ fd, (local_lookup cfg env Globals.init q).1 = { Globals.init with query_fd := fd }) ∧
    (∀ res, (local_lookup cfg env Globals.init q).2 = Step.done res →
      (local_lookup cfg env Globals.init q).1 = Globals.init) ∧
    (local_lookup cfg env Globals.init q).2 ≠ Step.fatal := by
  unfold local_lookup
  split
  · obtain ⟨⟨fd, h1⟩, h2, h3⟩ := netlink_globals env.libc env.nl Globals.init q
    refine ⟨⟨fd, h1⟩, ?_, h3⟩
    intro res hres
    have := h2 res hres
    rw [h1] at this ⊢
    simp only at this
    rw [this]
    rfl
  · exact ⟨⟨-1, rfl⟩, fun _ _ => rfl, by simp⟩

/-- The state of the process-wide variables after the two lookups of `main`:
when they return both slots are empty; `additional_info` is never a freed
one, and it is set only if `forwarding_attempted` is. -/
theorem lookup_globals (cfg : Config) (env : Env) (q : ident_query) :
    (∀ res, (lookup cfg env q).2 = Step.done res →
      (lookup cfg env q).1.query_fd < 0 ∧ (lookup cfg env q).1.query_pipe = false) ∧
    (lookup cfg env q).1.additional_info_freed = false ∧
    ((lookup cfg env q).1.forwarding_attempted = false →
      (lookup cfg env q).1.additional_info = none) := by
  obtain ⟨⟨fd, h1⟩, h2, _⟩ := local_lookup_globals cfg env q
  unfold lookup
  cases hl : local_lookup cfg env Globals.init q with
  | mk g1 st =>
    rw [hl] at h1 h2
    simp only at h1 h2
    cases st with
    | done found =>
      have hg : g1 = Globals.init := h2 found rfl
      subst hg
      simp only
      split
      · obtain ⟨c1, c2⟩ := conntrack_globals cfg.conntrack_path env.pipe env.addresses
          Globals.init q
        refine ⟨c1 (by decide), (c2 rfl rfl).1, (c2 rfl rfl).2⟩
      · simp only [Step.done.injEq, forall_eq']
        decide
    | expired =>
      subst h1
      simp [Globals.init]
    | fatal =>
      subst h1
      simp [Globals.init]

/-- The state `resolve` hands on: both slots are empty, and `additional_info`
is set only if `forwarding_attempted` is. -/
theorem resolve_globals (cfg : Config) (env : Env) (q : ident_query) (a : answer)
    (h : resolve cfg env q = Step.done a) :
    a.globals.query_fd = -1 ∧ a.globals.query_pipe = false ∧
      (a.globals.forwarding_attempted = false → a.globals.additional_info = none) := by
  obtain ⟨_, _, l3⟩ := lookup_globals cfg env
    { q with ip_in_query_extension := cfg.forward_original_ip }
  unfold resolve at h
  simp only at h
  cases hlk : lookup cfg env { q with ip_in_query_extension := cfg.forward_original_ip } with
  | mk g st =>
    rw [hlk] at h l3
    cases st with
    | fatal => exact absurd h (by simp)
    | expired => exact absurd h (by simp)
    | done found =>
      simp only [Option.some.injEq, Step.done.injEq] at h
      subst h
      exact ⟨rfl, rfl, l3⟩

/-- The state at the label `send_response`: both slots are empty, and
`additional_info` is set only if `forwarding_attempted` is. -/
theorem before_response_globals (cfg : Config) (env : Env) (a : answer)
    (h : before_response cfg env = Step.done a) :
    a.globals.query_fd = -1 ∧ a.globals.query_pipe = false ∧
      (a.globals.forwarding_attempted = false → a.globals.additional_info = none) := by
  unfold before_response at h
  cases hs : env.stdin with
  | blocked => rw [hs] at h; exact absurd h (by simp)
  | read input =>
    rw [hs] at h
    simp only at h
    cases hok : (parse_query cfg env input).ok with
    | false =>
      rw [hok] at h
      simp only [Bool.not_false, if_true, Option.some.injEq, Step.done.injEq] at h
      subst h
      exact ⟨rfl, rfl, fun _ => rfl⟩
    | true =>
      rw [hok] at h
      simp only [Bool.not_true, Bool.false_eq_true, if_false] at h
      exact resolve_globals cfg env _ a h

/-! ## Claims on the forward connection and the slots -/

/-- Remark on lists of several candidates, which the numeric lookup of
`forward_query` does not yield: the loop has no `break` after a `connect` that
succeeds, so it goes on to the next candidate; when that one fails the loop
ends with no socket, and when that one connects the query goes to it. -/
theorem last_candidate_decides :
    (forward_query
        (some [candidate.connected (downstream (str "51000,443:USERID:UNIX:bob\r\n")),
               candidate.connect_failed 5])
        Globals.init ⟨51000, 443, none, none, 0, false⟩).request = none ∧
    (forward_query
        (some [candidate.connected (downstream (str "51000,443:USERID:UNIX:bob\r\n")),
               candidate.connect_failed 5])
        Globals.init ⟨51000, 443, none, none, 0, false⟩).result = Step.done none ∧
    (forward_query
        (some [candidate.connected (downstream (str "51000,443:USERID:UNIX:bob\r\n"))])
        Globals.init ⟨51000, 443, none, none, 0, false⟩).result
      = Step.done (some (str "bob")) ∧
    (forward_query
        (some [candidate.connected (downstream (str "51000,443:USERID:UNIX:bob\r\n")),
               candidate.connected (downstream (str "51000,443:USERID:UNIX:carol\r\n"))])
        Globals.init ⟨51000, 443, none, none, 0, false⟩).result
      = Step.done (some (str "carol")) := by
  decide

/-- Remark on outcomes of `send` that the blocking socket of `forward_query`
does not produce: after a failure with `EAGAIN`, or a `send` that takes 3 bytes
only, the `continue` reaches the condition `bytes_sent > to_send`, which is
false, so the loop ends after one `send`: the request counts as not written
and the reply is not read.  The loop never looks at a second `send`. -/
theorem send_loop_gives_up :
    (forward_query
        (some [candidate.connected
          ⟨4, [send_result.again, send_result.sent 512],
            (str "51000,443:USERID:UNIX:bob\r\n").map recv_event.byte⟩])
        Globals.init ⟨51000, 443, none, none, 0, false⟩).bytes_sent = 0 ∧
    (forward_query
        (some [candidate.connected
          ⟨4, [send_result.again, send_result.sent 512],
            (str "51000,443:USERID:UNIX:bob\r\n").map recv_event.byte⟩])
        Globals.init ⟨51000, 443, none, none, 0, false⟩).result = Step.done none ∧
    (forward_query
        (some [candidate.connected
          ⟨4, [send_result.sent 3, send_result.sent 512],
            (str "51000,443:USERID:UNIX:bob\r\n").map recv_event.byte⟩])
        Globals.init ⟨51000, 443, none, none, 0, false⟩).bytes_sent = 3 ∧
    (forward_query
        (some [candidate.connected
          ⟨4, [send_result.sent 3, send_result.sent 512],
            (str "51000,443:USERID:UNIX:bob\r\n").map recv_event.byte⟩])
        Globals.init ⟨51000, 443, none, none, 0, false⟩).result = Step.done none ∧
    (∀ to_send r rest, send_loop to_send 0 (r :: rest) = send_loop to_send 0 [r]) := by
  refine ⟨by decide, by decide, by decide, by decide, ?_⟩
  intro to_send r rest
  cases r with
  | sent n =>
    have h : ¬ (0 + min n (to_send - 0) > to_send) := by
      simp only [Nat.zero_add, Nat.sub_zero, gt_iff_lt, not_lt]
      exact Nat.min_le_right n to_send
    simp only [send_loop, h, if_false]
  | again => simp [send_loop]
  | failed => simp [send_loop]

/-- C20: whenever `netlink` or `forward_query` returns (entered with no pipe
open), and whenever `conntrack` returns (entered with no socket open, as
`main` calls it), `query_fd` is negative and `query_pipe` is null; the same
holds after the two lookups of `main` when they return, at the label
`send_response` whenever `main` reaches it, and after the clean-up block that
follows the lookups whatever state that block starts in. -/
theorem slots_empty_on_return (cfg : Config) (env : Env) (q : ident_query) :
    (∀ libc nl (g : Globals) res, g.query_pipe = false →
      (netlink libc nl g q).2 = Step.done res →
      (netlink libc nl g q).1.query_fd < 0 ∧ (netlink libc nl g q).1.query_pipe = false) ∧
    (∀ addrs (g : Globals) res, g.query_pipe = false →
      (forward_query addrs g q).result = Step.done res →
      (forward_query addrs g q).globals.query_fd < 0 ∧
      (forward_query addrs g q).globals.query_pipe = false) ∧
    (∀ path pipe addrs (g : Globals) res, g.query_fd < 0 →
      (conntrack path pipe addrs g q).2 = Step.done res →
      (conntrack path pipe addrs g q).1.query_fd < 0 ∧
      (conntrack path pipe addrs g q).1.query_pipe = false) ∧
    (∀ res, (lookup cfg env q).2 = Step.done res →
      (lookup cfg env q).1.query_fd < 0 ∧ (lookup cfg env q).1.query_pipe = false) ∧
    (∀ a, resolve cfg env q = Step.done a →
      a.globals.query_fd < 0 ∧ a.globals.query_pipe = false) ∧
    (∀ g : Globals, (close_slots g).query_fd < 0 ∧ (close_slots g).query_pipe = false) := by
  refine ⟨?_, ?_, ?_, (lookup_globals cfg env q).1, ?_,
    fun g => ⟨by simp [close_slots], rfl⟩⟩
  · intro libc nl g res hg hres
    obtain ⟨⟨fd, h1⟩, h2, _⟩ := netlink_globals libc nl g q
    refine ⟨by rw [h2 res hres]; decide, ?_⟩
    rw [h1]
    exact hg
  · intro addrs g res hg hres
    obtain ⟨f1, f2, _, _⟩ := forward_query_globals addrs g q
    exact ⟨(f2 res hres).1, by rw [f1]; exact hg⟩
  · intro path pipe addrs g res hg hres
    exact (conntrack_globals path pipe addrs g q).1 hg res hres
  · intro a ha
    obtain ⟨r1, r2, _⟩ := resolve_globals cfg env q a ha
    exact ⟨by rw [r1]; decide, r2⟩

/-- C20, witness: scenario 3; `conntrack` returns `bob` with both slots empty. -/
theorem slots_empty_on_return_witness :
    (conntrack default_config.conntrack_path
        (nat_env (str "51000,443:USERID:UNIX:bob\r\n")).pipe
        (nat_env (str "51000,443:USERID:UNIX:bob\r\n")).addresses Globals.init
        ⟨34567, 443, none, none, 0, false⟩).1.query_fd < 0 ∧
      (conntrack default_config.conntrack_path
        (nat_env (str "51000,443:USERID:UNIX:bob\r\n")).pipe
        (nat_env (str "51000,443:USERID:UNIX:bob\r\n")).addresses Globals.init
        ⟨34567, 443, none, none, 0, false⟩).1.query_pipe = false :=
  (slots_empty_on_return default_config (nat_env (str "51000,443:USERID:UNIX:bob\r\n"))
    ⟨34567, 443, none, none, 0, false⟩).2.2.1 _ _ _ Globals.init (some (str "bob"))
    (by decide) (by decide)

/-! ## Claims on the fixed local result and the deadline -/

/-- `main` from the label `send_response` on. -/
theorem main_of_state (cfg : Config) (env : Env) (a : answer)
    (h : before_response cfg env = Step.done a) :
    main cfg env =
      match apply_fixed cfg.fixed_local_result a with
      | none => Outcome.no_response
      | some b => write_response env.write_blocked b := by
  unfold main
  rw [h]

/-- The `switch` is skipped when a user id was found or a forward attempted. -/
theorem apply_fixed_skipped (fixed : Option (List Nat)) (a : answer)
    (h : a.found_result.isSome = true ∨ a.globals.forwarding_attempted = true) :
    apply_fixed fixed a = some a := by
  unfold apply_fixed
  cases fixed with
  | none => rfl
  | some f =>
    have : (a.found_result.isSome || a.globals.forwarding_attempted) = true := by
      rcases h with h | h <;> simp [h]
    simp [this]

/-- With the fixed local result removed from the configuration the part of
`main` before `send_response` is the same, provided `netlink` would return
without a user. -/
theorem before_response_without_fixed (cfg : Config) (env : Env) (input : Option (List Nat))
    (hs : env.stdin = stdin_event.read input)
    (hmiss : (netlink env.libc env.nl Globals.init
      { (parse_query cfg env input).query with
        ip_in_query_extension := cfg.forward_original_ip }).2 = Step.done none) :
    before_response { cfg with fixed_local_result := none } env = before_response cfg env := by
  have hll : local_lookup { cfg with fixed_local_result := none } env Globals.init
      { (parse_query cfg env input).query with
        ip_in_query_extension := cfg.forward_original_ip } =
      local_lookup cfg env Globals.init
        { (parse_query cfg env input).query with
          ip_in_query_extension := cfg.forward_original_ip } := by
    obtain ⟨_, h2, _⟩ := local_lookup_globals { cfg with fixed_local_result := none } env
      { (parse_query cfg env input).query with
        ip_in_query_extension := cfg.forward_original_ip }
    have e : local_lookup { cfg with fixed_local_result := none } env Globals.init
        { (parse_query cfg env input).query with
          ip_in_query_extension := cfg.forward_original_ip } =
        netlink env.libc env.nl Globals.init
          { (parse_query cfg env input).query with
            ip_in_query_extension := cfg.forward_original_ip } := by
      simp [local_lookup]
    rw [e] at h2 ⊢
    have hg := h2 none hmiss
    unfold local_lookup
    split
    · rfl
    · exact Prod.ext hg hmiss
  unfold before_response
  rw [hs]
  have hp : parse_query { cfg with fixed_local_result := none } env input =
      parse_query cfg env input := rfl
  simp only [hp]
  split
  · rfl
  · unfold resolve lookup
    simp only [hll]

/-- C11, counterexample: the fixed local result `nobody` is configured; the
kernel knows a local socket for `34567,443` owned by `alice`, and the
conntrack tool prints a NATed flow for the same pair whose host answers `bob`.
With the fixed result configured `netlink` is not called, the forward is
attempted and the response names `bob`; with none configured the response
names `alice`. -/
theorem override_counterexample :
    (final_answer { default_config with fixed_local_result := some (str "nobody") }
        { nat_env (str "51000,443:USERID:UNIX:bob\r\n") with
          libc := alice_libc,
          nl := { socket := some 3, sendmsg_ok := true,
                  recvs := [nl_recv.datagram 1
                    [nl_message.diag ⟨AF_INET, 34567, 443, [10, 0, 0, 1], 1000⟩]] } }).map
        (fun a => a.globals.forwarding_attempted) = some true ∧
      main { default_config with fixed_local_result := some (str "nobody") }
        { nat_env (str "51000,443:USERID:UNIX:bob\r\n") with
          libc := alice_libc,
          nl := { socket := some 3, sendmsg_ok := true,
                  recvs := [nl_recv.datagram 1
                    [nl_message.diag ⟨AF_INET, 34567, 443, [10, 0, 0, 1], 1000⟩]] } }
        = Outcome.response (str "34567,443:USERID:UNIX:bob\r\n") ∧
      main default_config
        { nat_env (str "51000,443:USERID:UNIX:bob\r\n") with
          libc := alice_libc,
          nl := { socket := some 3, sendmsg_ok := true,
                  recvs := [nl_recv.datagram 1
                    [nl_message.diag ⟨AF_INET, 34567, 443, [10, 0, 0, 1], 1000⟩]] } }
        = Outcome.response (str "34567,443:USERID:UNIX:alice\r\n") := by
  decide

/-- C11, amended: in every run in which a user id was found or a forward was
attempted, the `switch` on the fixed local result is not executed: user id,
error token and the writing of the response are what they are for this state
with no fixed result; and the whole run ends as the run with no fixed result
configured does, provided the local lookup, which a configured fixed result
switches off, would have returned without a user. -/
theorem override_only_without_result (cfg : Config) (env : Env) (a : answer)
    (hb : before_response cfg env = Step.done a)
    (hrun : a.found_result.isSome = true ∨ a.globals.forwarding_attempted = true) :
    apply_fixed cfg.fixed_local_result a = apply_fixed none a ∧
    main cfg env = write_response env.write_blocked a ∧
    (∀ input, env.stdin = stdin_event.read input →
      (netlink env.libc env.nl Globals.init
        { (parse_query cfg env input).query with
          ip_in_query_extension := cfg.forward_original_ip }).2 = Step.done none →
      main cfg env = main { cfg with fixed_local_result := none } env) := by
  have hskip := apply_fixed_skipped cfg.fixed_local_result a hrun
  have hmain : main cfg env = write_response env.write_blocked a := by
    rw [main_of_state cfg env a hb, hskip]
  refine ⟨by rw [hskip]; rfl, hmain, ?_⟩
  intro input hs hmiss
  have hb2 := before_response_without_fixed cfg env input hs hmiss
  rw [hb] at hb2
  rw [hmain, main_of_state { cfg with fixed_local_result := none } env a hb2]
  rfl

/-- C11, witness: scenario 3 with the fixed local result `nobody` configured;
the forward is attempted and the run ends as the run without it. -/
theorem override_only_without_result_witness :
    main { default_config with fixed_local_result := some (str "nobody") }
        (nat_env (str "51000,443:USERID:UNIX:bob\r\n")) =
      main { default_config with fixed_local_result := none }
        (nat_env (str "51000,443:USERID:UNIX:bob\r\n")) :=
  (override_only_without_result
    { default_config with fixed_local_result := some (str "nobody") }
    (nat_env (str "51000,443:USERID:UNIX:bob\r\n"))
    { query := ⟨34567, 443, none, none, AF_INET, false⟩, found_result := some (str "bob"),
      error_result := str "NO-USER",
      globals := { Globals.init with forwarding_attempted := true,
                                     additional_info := some (str "UNIX") } }
    (by decide) (Or.inl rfl)).2.2 (some (str "34567,443\r\n")) rfl (by decide)

/-- The error token that `main` holds at the label `send_response`. -/
theorem before_response_error (cfg : Config) (env : Env) (a : answer)
    (hb : before_response cfg env = Step.done a) :
    (a.error_result = str "NO-USER" ∨ a.error_result = str "INVALID-PORT") ∧
    (∀ input, env.stdin = stdin_event.read input →
      (parse_query cfg env input).ok = true → a.error_result = str "NO-USER") ∧
    (∀ input, env.stdin = stdin_event.read input →
      (parse_query cfg env input).ok = false → a.error_result = str "INVALID-PORT") := by
  unfold before_response at hb
  cases hs : env.stdin with
  | blocked => rw [hs] at hb; exact absurd hb (by simp)
  | read input =>
    rw [hs] at hb
    simp only at hb
    have hin : ∀ input2, stdin_event.read input = stdin_event.read input2 →
        input2 = input := by
      intro input2 h2
      cases h2
      rfl
    cases hok : (parse_query cfg env input).ok with
    | false =>
      rw [hok] at hb
      simp only [Bool.not_false, if_true, Step.done.injEq] at hb
      subst hb
      refine ⟨Or.inr rfl, ?_, fun _ _ _ => rfl⟩
      intro input2 h2 hok2
      rw [hin input2 h2, hok] at hok2
      exact absurd hok2 (by simp)
    | true =>
      rw [hok] at hb
      simp only [Bool.not_true, Bool.false_eq_true, if_false] at hb
      unfold resolve at hb
      simp only at hb
      cases hlk : lookup cfg env { (parse_query cfg env input).query with
          ip_in_query_extension := cfg.forward_original_ip } with
      | mk g st =>
        rw [hlk] at hb
        cases st with
        | fatal => exact absurd hb (by simp)
        | expired => exact absurd hb (by simp)
        | done found =>
          simp only [Step.done.injEq] at hb
          subst hb
          refine ⟨Or.inl rfl, fun _ _ _ => rfl, ?_⟩
          intro input2 h2 hok2
          rw [hin input2 h2, hok] at hok2
          exact absurd hok2 (by simp)

/-- C12, counterexample: the fixed local result is consulted by its first
character only, and `*` leaves the error token that `main` holds. With the
fixed result `?guest`, a string other than `?`, the query `80,1234` is answered
`80,1234:ERROR:HIDDEN-USER` and not `80,1234:USERID:UNIX:?guest`; with the
fixed result `*` the rejected line `0,5` is answered
`0,0:ERROR:INVALID-PORT` and not with `NO-USER`. In both runs no user id was
found and no forward was attempted. -/
theorem fixed_result_counterexample :
    main { default_config with fixed_local_result := some (str "?guest"),
                               forwarding_enabled := false }
        (plain_env (str "80,1234\r\n"))
      = Outcome.response (str "80,1234:ERROR:HIDDEN-USER\r\n") ∧
    main { default_config with fixed_local_result := some (str "*"),
                               forwarding_enabled := false }
        (plain_env (str "0,5\r\n"))
      = Outcome.response (str "0,0:ERROR:INVALID-PORT\r\n") ∧
    (final_answer { default_config with fixed_local_result := some (str "*"),
                                        forwarding_enabled := false }
        (plain_env (str "0,5\r\n"))).map
      (fun a => (a.found_result, a.globals.forwarding_attempted)) = some (none, false) := by
  decide

/-- C12, amended: when the fixed local result `s` applies (no user id found,
no forward attempted) and the response can be written, the first character of
`s` decides: an empty `s` or a first character `*` gives the error response
with the error token `main` holds, which is `NO-USER` after an accepted query
and `INVALID-PORT` after a rejected line; a first character `?` gives the
error response `HIDDEN-USER`; a first character `!` writes no response; every
other non-empty `s` gives `<l>,<r>:USERID:UNIX:<s>`. -/
theorem fixed_result_cases (cfg : Config) (env : Env) (a : answer) (s : List Nat)
    (hb : before_response cfg env = Step.done a)
    (hfound : a.found_result = none)
    (hatt : a.globals.forwarding_attempted = false)
    (hs : cfg.fixed_local_result = some s)
    (hw : env.write_blocked = false) :
    ((s.head? = none ∨ s.head? = some 42) →
      main cfg env = Outcome.response
        (fmt_u a.query.local_port ++ str "," ++ fmt_u a.query.remote_port ++
          str ":ERROR:" ++ a.error_result ++ str "\r\n")) ∧
    (s.head? = some 63 →
      main cfg env = Outcome.response
        (fmt_u a.query.local_port ++ str "," ++ fmt_u a.query.remote_port ++
          str ":ERROR:HIDDEN-USER\r\n")) ∧
    (s.head? = some 33 → main cfg env = Outcome.no_response) ∧
    ((∀ c, s.head? = some c → c ≠ 42 ∧ c ≠ 63 ∧ c ≠ 33) → s ≠ [] →
      main cfg env = Outcome.response
        (fmt_u a.query.local_port ++ str "," ++ fmt_u a.query.remote_port ++
          str ":USERID:UNIX:" ++ s ++ str "\r\n")) ∧
    (a.error_result = str "NO-USER" ∨ a.error_result = str "INVALID-PORT") ∧
    (∀ input, env.stdin = stdin_event.read input →
      (parse_query cfg env input).ok = true → a.error_result = str "NO-USER") ∧
    (∀ input, env.stdin = stdin_event.read input →
      (parse_query cfg env input).ok = false → a.error_result = str "INVALID-PORT") := by
  obtain ⟨_, _, hinfo⟩ := before_response_globals cfg env a hb
  have hi := hinfo hatt
  obtain ⟨e1, e2, e3⟩ := before_response_error cfg env a hb
  have hm := main_of_state cfg env a hb
  rw [hs] at hm
  refine ⟨?_, ?_, ?_, ?_, e1, e2, e3⟩
  · intro h
    rw [hm]
    rcases h with h | h
    · simp [apply_fixed, hfound, hatt, h, write_response, hw, hi, response_line,
        response_body, response_header, str]
    · simp [apply_fixed, hfound, hatt, h, write_response, hw, hi, response_line,
        response_body, response_header, str]
  · intro h
    rw [hm]
    simp [apply_fixed, hfound, hatt, h, write_response, hw, hi, response_line,
      response_body, response_header, str]
  · intro h
    rw [hm]
    simp [apply_fixed, hfound, hatt, h]
  · intro h hne
    rw [hm]
    cases s with
    | nil => exact absurd rfl hne
    | cons c t =>
      obtain ⟨c1, c2, c3⟩ := h c rfl
      simp [apply_fixed, hfound, hatt, c1, c2, c3, write_response, hw, hi, response_line,
        response_body, response_header, str]

/-- C12, witness: input `80,1234`, forwarding off, fixed local result `*`
gives `80,1234:ERROR:NO-USER`. -/
theorem fixed_result_cases_witness :
    main { default_config with fixed_local_result := some (str "*"),
                               forwarding_enabled := false }
        (plain_env (str "80,1234\r\n"))
      = Outcome.response (str "80,1234:ERROR:NO-USER\r\n") :=
  (fixed_result_cases
    { default_config with fixed_local_result := some (str "*"), forwarding_enabled := false }
    (plain_env (str "80,1234\r\n"))
    { query := ⟨80, 1234, none, none, AF_INET, false⟩,
      found_result := none, error_result := str "NO-USER", globals := Globals.init }
    (str "*") (by decide) rfl rfl rfl rfl).1 (Or.inr (by decide))

/-- C13, the code at the failing input: scenario 3, where the downstream host
sends `51000,443:USERID:UNIX:` and then stalls, so that `recv` blocks until the
alarm goes off.  `handle_alarm` calls `siglongjmp` on `timeout_jump`, which
`sigsetjmp` filled inside the function `timeout`; that function returned to
`main` before the lookups started, so the jump has no frame to land in and the
behaviour is undefined: `main` does not reach the branch that cleans up the
forwarding state and sets `UNKNOWN-ERROR`, and `34567,443:ERROR:UNKNOWN-ERROR`
is not what the run is bound to write.  The same holds when the kernel does
not answer the netlink request, and when the tool prints nothing and does not
end. -/
theorem expiry_after_info_field :
    (lookup default_config (nat_env (str "51000,443:USERID:UNIX:"))
        ⟨34567, 443, none, none, AF_INET, false⟩).2 = Step.expired ∧
    before_response default_config (nat_env (str "51000,443:USERID:UNIX:")) = Step.expired ∧
    main default_config (nat_env (str "51000,443:USERID:UNIX:")) = Outcome.undefined ∧
    main default_config (nat_env (str "51000,443:USERID:UNIX:"))
      ≠ Outcome.response (str "34567,443:ERROR:UNKNOWN-ERROR\r\n") ∧
    main default_config
        { plain_env (str "80,1234\r\n") with
          nl := { socket := some 3, sendmsg_ok := true, recvs := [] } }
      = Outcome.undefined ∧
    main default_config
        { plain_env (str "80,1234\r\n") with
          pipe := { popen_ok := true, lines := [], eof := false } }
      = Outcome.undefined := by
  decide

/-- C19, the code at the failing input: the query line does not arrive before
the alarm goes off, or the response cannot be written before it does.
`handle_alarm` jumps with `siglongjmp` into the frame of `timeout`, which has
returned: the behaviour is undefined, and neither the clean-up of the
forwarding state nor the response `UNKNOWN-ERROR` is reached.  A run in which
no alarm goes off (the last one) writes its response. -/
theorem alarm_in_any_stage :
    before_response default_config
        { plain_env (str "80,1234\r\n") with stdin := stdin_event.blocked } = Step.expired ∧
    main default_config { plain_env (str "80,1234\r\n") with stdin := stdin_event.blocked }
      = Outcome.undefined ∧
    main default_config { plain_env (str "80,1234\r\n") with write_blocked := true }
      = Outcome.undefined ∧
    main default_config (plain_env (str "80,1234\r\n"))
      = Outcome.response (str "80,1234:ERROR:NO-USER\r\n") := by
  decide

/-- C14, witness: with the extension flag off the line `80,1234 : 10.0.0.1` is
accepted and no address is reported. -/
theorem read_query_frame_witness :
    (read_query no_libc (some (str "80,1234 : 10.0.0.1\r\n"))
        ⟨0, 0, none, none, AF_INET, false⟩).got_address = false ∧
      (read_query no_libc (some (str "80,1234 : 10.0.0.1\r\n"))
        ⟨0, 0, none, none, AF_INET, false⟩).ok = true :=
  ⟨(read_query_frame no_libc (str "80,1234 : 10.0.0.1\r\n")
      ⟨0, 0, none, none, AF_INET, false⟩).2.2.1 rfl, by decide⟩

/-! ## Claims on the reply of the downstream server -/

/-- C22, the code at the failing input: scenario 3, where the downstream host
answers `51000,443:USERID:UNIX:` followed by CR LF.  At the end-of-line the
loop is in the user id field with nothing accumulated; `response = buf` makes
the empty string the response, the test for a premature end-of-line does not
fire, and `forward_query` returns the empty user id: `main` answers
`34567,443:USERID:UNIX:` with an empty user id, not with an error.  When the
stream ends there with a NUL instead, the test `p != buf` rejects the empty
user id and the response is an error. -/
theorem empty_userid_returned :
    (forward_query
        (some [candidate.connected (downstream (str "51000,443:USERID:UNIX:\r\n"))])
        Globals.init ⟨51000, 443, none, none, 0, false⟩).result = Step.done (some []) ∧
    main default_config (nat_env (str "51000,443:USERID:UNIX:\r\n"))
      = Outcome.response (str "34567,443:USERID:UNIX:\r\n") ∧
    (forward_query
        (some [candidate.connected (downstream (str "51000,443:USERID:UNIX:" ++ [0]))])
        Globals.init ⟨51000, 443, none, none, 0, false⟩).result = Step.done none ∧
    main default_config (nat_env (str "51000,443:USERID:UNIX:" ++ [0]))
      = Outcome.response (str "34567,443:ERROR:UNIX\r\n") := by
  decide

theorem skipped_false_bytes (c : Nat) (h : skipped c = false) :
    c ≠ 32 ∧ c ≠ 9 ∧ 32 ≤ c ∧ c < 127 := by
  unfold skipped at h
  simp only [Bool.or_eq_false_iff, beq_eq_false_iff_ne, ne_eq, decide_eq_false_iff_not,
    not_lt, ge_iff_le, not_le] at h
  obtain ⟨⟨⟨h1, h2⟩, h3⟩, h4⟩ := h
  exact ⟨h1, h2, h3, h4⟩

theorem reply_inv_start : reply_inv reply_start := by
  unfold reply_inv reply_start
  simp [FIELD_PORTS, FIELD_USERID]

/-- One pass of the reply loop keeps the invariant, and the state it leaves
the loop in satisfies the exit condition. -/
theorem reply_loop_clean (events : List recv_event) : ∀ st : reply_state, reply_inv st →
    reply_post (reply_loop st events).1 (reply_loop st events).2 := by
  induction events with
  | nil =>
    intro st ⟨h1, h2, h3, h4, h5, h6, h7⟩
    simp only [reply_loop]
    exact ⟨Nat.le_of_lt h3, h4, fun u hu => by rw [h1] at hu; exact absurd hu (by simp),
      h6, fun h => by simp at h, fun _ => ⟨h1, h2, h3, h4, h5, h6, h7⟩⟩
  | cons e events ih =>
    intro st hinv
    obtain ⟨h1, h2, h3, h4, h5, h6, h7⟩ := hinv
    have hpost : ∀ ex, ex ≠ reply_exit.jumped → reply_post st ex := fun ex hex =>
      ⟨Nat.le_of_lt h3, h4, fun u hu => by rw [h1] at hu; exact absurd hu (by simp), h6,
        fun h => absurd h hex, fun _ => ⟨h1, h2, h3, h4, h5, h6, h7⟩⟩
    cases e with
    | failed => simp only [reply_loop]; exact hpost _ (by simp)
    | again => simp only [reply_loop]; exact ih st ⟨h1, h2, h3, h4, h5, h6, h7⟩
    | byte c =>
      rw [reply_loop]
      by_cases c0 : c = 0
      · simp only [c0, if_true]; exact hpost _ (by simp)
      · simp only [c0, if_false]
        by_cases hterm : (st.field ≠ FIELD_USERID ∧ c = 58) ∨ c = 13 ∨ c = 10
        · simp only [hterm, if_true]
          rcases st with ⟨f, p, e, r, i⟩
          simp only at h1 h2 h3 h4 h5 h6 h7 hterm ih ⊢
          subst h1
          have hf : f = 0 ∨ f = 1 ∨ f = 2 ∨ f = 3 := by
            unfold FIELD_USERID at h2; omega
          by_cases heol : c = 13 ∨ c = 10
          · rcases hf with hf | hf | hf | hf
            · subst hf
              simp [FIELD_PORTS, FIELD_REPLY_TYPE, FIELD_INFO, FIELD_USERID, heol, reply_post]
              exact h6
            · subst hf
              simp [FIELD_PORTS, FIELD_REPLY_TYPE, FIELD_INFO, FIELD_USERID, heol, reply_post]
              exact h6
            · subst hf
              have hp2 : clean_info p ∨ p = [] := by
                by_cases hp : p = []
                · exact Or.inr hp
                · refine Or.inl ⟨hp, by omega, fun x hx => ?_⟩
                  obtain ⟨x58, xs⟩ := h5 (by decide) x hx
                  exact ⟨x58, skipped_false_bytes x xs⟩
              by_cases hp : p = [] <;> cases e <;>
                simp [FIELD_PORTS, FIELD_REPLY_TYPE, FIELD_INFO, FIELD_USERID, heol, reply_post,
                  hp]
              · exact h6
              · exact h6
              · exact hp2.resolve_right hp
              · exact ⟨by omega, h4, hp2.resolve_right hp⟩
            · subst hf
              simp [FIELD_PORTS, FIELD_REPLY_TYPE, FIELD_INFO, FIELD_USERID, heol, reply_post]
              exact ⟨⟨by omega, h4⟩, h6⟩
          · have c13 : c ≠ 13 := fun h => heol (Or.inl h)
            have c10 : c ≠ 10 := fun h => heol (Or.inr h)
            have hc : c = 58 := by
              rcases hterm with ⟨_, h⟩ | h | h
              · exact h
              · exact absurd h c13
              · exact absurd h c10
            have hf3 : f ≠ FIELD_USERID := by
              rcases hterm with ⟨h, _⟩ | h | h
              · exact h
              · exact absurd h c13
              · exact absurd h c10
            subst hc
            rcases hf with hf | hf | hf | hf
            · subst hf
              simp only [FIELD_PORTS, FIELD_REPLY_TYPE, FIELD_INFO, FIELD_USERID]
              simp
              apply ih
              simp [reply_inv, FIELD_USERID]
              exact h6
            · subst hf
              simp only [FIELD_PORTS, FIELD_REPLY_TYPE, FIELD_INFO, FIELD_USERID]
              simp
              apply ih
              simp [reply_inv, FIELD_USERID]
              exact h6
            · subst hf
              have hp2 : clean_info p ∨ p = [] := by
                by_cases hp : p = []
                · exact Or.inr hp
                · refine Or.inl ⟨hp, by omega, fun x hx => ?_⟩
                  obtain ⟨x58, xs⟩ := h5 (by decide) x hx
                  exact ⟨x58, skipped_false_bytes x xs⟩
              by_cases hp : p = [] <;> cases e <;>
                simp [FIELD_PORTS, FIELD_REPLY_TYPE, FIELD_INFO, FIELD_USERID, reply_post,
                  hp]
              · have := ih ⟨3, [], false, none, i⟩
                  (by simp [reply_inv, FIELD_USERID]; exact h6)
                simpa [reply_post] using this
              · exact h6
              · have := ih ⟨3, [], false, none, some p⟩
                  (by simp [reply_inv, FIELD_USERID]; exact hp2.resolve_right hp)
                simpa [reply_post] using this
              · exact ⟨by omega, h4, hp2.resolve_right hp⟩
            · exact absurd hf hf3
        · simp only [hterm, if_false]
          have c13 : c ≠ 13 := fun h => hterm (Or.inr (Or.inl h))
          have c10 : c ≠ 10 := fun h => hterm (Or.inr (Or.inr h))
          by_cases hst : st.field = FIELD_USERID ∨ (!skipped c) = true
          · simp only [hst, if_true]
            have hp : ∀ x ∈ st.p ++ [c], x ≠ 13 ∧ x ≠ 10 ∧ x ≠ 0 := by
              intro x hx
              rcases List.mem_append.mp hx with hx | hx
              · exact h4 x hx
              · rw [List.mem_singleton.mp hx]; exact ⟨c13, c10, c0⟩
            by_cases hl : (st.p ++ [c]).length = 511
            · simp only [hl, if_true]
              exact ⟨Nat.le_of_eq hl, hp,
                fun u hu => by rw [h1] at hu; exact absurd hu (by simp), h6,
                fun h => by simp at h, fun h => by simp at h⟩
            · simp only [hl, if_false]
              apply ih
              refine ⟨h1, h2, ?_, hp, ?_, h6, h7⟩
              · simp only [List.length_append, List.length_cons, List.length_nil] at hl ⊢
                omega
              · intro hf x hx
                rcases List.mem_append.mp hx with hx | hx
                · exact h5 hf x hx
                · rw [List.mem_singleton.mp hx]
                  rcases hst with hst | hst
                  · exact absurd hst hf
                  · refine ⟨fun h => hterm (Or.inl ⟨hf, h⟩), ?_⟩
                    simpa using hst
          · simp only [hst, if_false]
            exact ih st ⟨h1, h2, h3, h4, h5, h6, h7⟩

/-- When the reply loop, having read `pre`, waits for the next byte in the
state `st1`, it goes on from `st1` with what arrives next. -/
theorem reply_loop_blocked_append (pre : List recv_event) :
    ∀ (st st1 : reply_state) (rest : List recv_event),
    reply_loop st pre = (st1, reply_exit.blocked) →
    reply_loop st (pre ++ rest) = reply_loop st1 rest := by
  induction pre with
  | nil =>
    intro st st1 rest h
    simp only [reply_loop, Prod.mk.injEq, and_true] at h
    subst h
    rfl
  | cons e pre ih =>
    intro st st1 rest h
    cases e with
    | failed => simp [reply_loop] at h
    | again =>
      simp only [reply_loop, List.cons_append] at h ⊢
      exact ih _ _ _ h
    | byte c =>
      simp only [List.cons_append]
      rw [reply_loop] at h ⊢
      by_cases c0 : c = 0
      · simp [c0] at h
      · simp only [c0, if_false] at h ⊢
        by_cases hterm : (st.field ≠ FIELD_USERID ∧ c = 58) ∨ c = 13 ∨ c = 10
        · simp only [hterm, if_true] at h ⊢
          generalize (if st.field = FIELD_REPLY_TYPE then
              ({ st with is_error := st.p != str "USERID" } : reply_state)
            else if st.field = FIELD_INFO then
              (if st.p.isEmpty then st else { st with info := some st.p })
            else if st.field = FIELD_USERID then { st with response := some st.p }
            else st) = sv at h ⊢
          split at h
          · simp at h
          · rename_i hc1
            rw [if_neg hc1]
            split at h
            · simp at h
            · rename_i hc2
              rw [if_neg hc2]
              split at h
              · simp at h
              · rename_i hc3
                rw [if_neg hc3]
                exact ih _ _ _ h
        · simp only [hterm, if_false] at h ⊢
          split at h
          · rename_i hc1
            rw [if_pos hc1]
            split at h
            · simp at h
            · rename_i hc2
              rw [if_neg hc2]
              exact ih _ _ _ h
          · rename_i hc1
            rw [if_neg hc1]
            exact ih _ _ _ h

/-- What `forward_query` returns and leaves in `additional_info`: either it
returns no user id and leaves `additional_info` alone, or both come out of the
reply loop run on the bytes of a connection. -/
theorem forward_query_outcome (addrs : Option (List candidate)) (g : Globals)
    (q : ident_query) :
    ((forward_query addrs g q).globals.additional_info = g.additional_info ∧
      ∀ u, (forward_query addrs g q).result ≠ Step.done (some u)) ∨
    ∃ events : List recv_event,
      (forward_query addrs g q).globals.additional_info =
        (match (reply_loop reply_start events).1.info with
         | some i => some i
         | none => g.additional_info) ∧
      (((reply_loop reply_start events).2 = reply_exit.blocked ∧
          (forward_query addrs g q).result = Step.expired) ∨
        ((reply_loop reply_start events).2 = reply_exit.jumped ∧
          (forward_query addrs g q).result =
            Step.done (reply_loop reply_start events).1.response) ∨
        ((reply_loop reply_start events).2 = reply_exit.finished ∧
          (forward_query addrs g q).result =
            Step.done (accept_truncated (reply_loop reply_start events).1).response)) := by
  have hc : ∀ x : Globals, (close_query_fd x).additional_info = x.additional_info := by
    intro x; rw [close_query_fd_eq]
  cases addrs with
  | none => exact Or.inl ⟨rfl, by simp [forward_query]⟩
  | some cands =>
    unfold forward_query
    simp only
    generalize connect_loop
      ((close_query_fd { g with forward_address := true }).query_fd, none) cands = cl
    obtain ⟨fd, oc⟩ := cl
    cases oc with
    | none => exact Or.inl ⟨by simp [hc], by simp⟩
    | some conn =>
      cases conn with
      | none => exact Or.inl ⟨by simp [hc, clean_up_forwarding], by simp⟩
      | some c =>
        simp only
        split
        · exact Or.inl ⟨by simp [hc, clean_up_forwarding], by simp⟩
        · split
          · exact Or.inl ⟨by simp [hc, clean_up_forwarding], by simp⟩
          · split
            · exact Or.inl ⟨by simp [hc, clean_up_forwarding], by simp⟩
            · split
              · exact Or.inl ⟨by simp [hc, clean_up_forwarding], by simp⟩
              · refine Or.inr ⟨c.reply, ?_⟩
                unfold reply_start
                split
                · rename_i st heq
                  rw [heq]
                  refine ⟨?_, Or.inl ⟨rfl, rfl⟩⟩
                  cases hi : st.info <;> simp [hi, hc, clean_up_forwarding]
                · rename_i st heq
                  rw [heq]
                  refine ⟨?_, Or.inr (Or.inl ⟨rfl, rfl⟩)⟩
                  cases hi : st.info <;> simp [hi, hc, clean_up_forwarding]
                · rename_i st heq
                  rw [heq]
                  refine ⟨?_, Or.inr (Or.inr ⟨rfl, rfl⟩)⟩
                  cases hi : st.info <;> simp [hi, hc, clean_up_forwarding]

/-- What `forward_query` returns is a clean user id, and what it leaves in
`additional_info` is a clean info field. -/
theorem forward_query_clean (addrs : Option (List candidate)) (g : Globals)
    (q : ident_query) (hg : ∀ i, g.additional_info = some i → clean_info i) :
    (∀ u, (forward_query addrs g q).result = Step.done (some u) → clean_userid u) ∧
    (∀ i, (forward_query addrs g q).globals.additional_info = some i → clean_info i) := by
  rcases forward_query_outcome addrs g q with ⟨h1, h2⟩ | ⟨events, hinfo, hres⟩
  · exact ⟨fun u hu => absurd hu (h2 u), fun i hi => hg i (by rw [← h1]; exact hi)⟩
  · obtain ⟨p1, p2, p3, p4, p5, _⟩ := reply_loop_clean events reply_start reply_inv_start
    refine ⟨?_, ?_⟩
    · intro u hu
      rcases hres with ⟨_, hr⟩ | ⟨hj, hr⟩ | ⟨_, hr⟩
      · rw [hr] at hu; exact absurd hu (by simp)
      · rw [hr, p5 hj] at hu; exact absurd hu (by simp)
      · rw [hr] at hu
        simp only [Step.done.injEq] at hu
        unfold accept_truncated at hu
        split at hu
        · simp only [Option.some.injEq] at hu
          subst hu
          exact ⟨p1, p2⟩
        · obtain ⟨q1, q2, _⟩ := p3 u hu
          exact ⟨by omega, q2⟩
    · intro i hi
      rw [hinfo] at hi
      cases hs : (reply_loop reply_start events).1.info with
      | none => rw [hs] at hi; exact hg i hi
      | some j =>
        rw [hs] at hi
        simp only [Option.some.injEq] at hi
        subst hi
        exact p4 j hs

theorem conntrack_clean (path : Option (List Nat)) (pipe : pipe_env)
    (addrs : List Nat → Option (List candidate)) (g : Globals) (q : ident_query)
    (hg : g.additional_info = none) :
    (∀ u, (conntrack path pipe addrs g q).2 = Step.done (some u) → clean_userid u) ∧
    (∀ i, (conntrack path pipe addrs g q).1.additional_info = some i → clean_info i) := by
  unfold conntrack
  simp only
  cases conntrack_command path q with
  | none => simp [hg]
  | some cmd =>
    simp only
    cases pipe.popen_ok with
    | false => simp [hg]
    | true =>
      simp only [Bool.not_true, Bool.false_eq_true, if_false]
      cases conntrack_forward q pipe.lines with
      | none =>
        simp only
        cases pipe.eof <;> simp [hg]
      | some call =>
        simp only
        exact forward_query_clean (addrs call.destination) _ call.query
          (fun i hi => by simp [hg] at hi)

theorem lookup_clean (cfg : Config) (env : Env) (q : ident_query) :
    (∀ i, (lookup cfg env q).1.additional_info = some i → clean_info i) ∧
    ((lookup cfg env q).1.forwarding_attempted = true →
      ∀ u, (lookup cfg env q).2 = Step.done (some u) → clean_userid u) := by
  obtain ⟨⟨fd, h1⟩, h2, _⟩ := local_lookup_globals cfg env q
  unfold lookup
  cases hl : local_lookup cfg env Globals.init q with
  | mk g1 st =>
    rw [hl] at h1 h2
    simp only at h1 h2
    have hinfo : g1.additional_info = none := by rw [h1]; rfl
    have hfa : g1.forwarding_attempted = false := by rw [h1]; rfl
    cases st with
    | fatal => simp [hinfo, hfa]
    | expired => simp [hinfo, hfa]
    | done found =>
      simp only
      split
      · obtain ⟨c1, c2⟩ := conntrack_clean cfg.conntrack_path env.pipe env.addresses g1 q hinfo
        exact ⟨c2, fun _ => c1⟩
      · simp [hinfo, hfa]

theorem before_response_clean (cfg : Config) (env : Env) (a : answer)
    (h : before_response cfg env = Step.done a) :
    (∀ i, a.globals.additional_info = some i → clean_info i) ∧
    (a.globals.forwarding_attempted = true →
      ∀ u, a.found_result = some u → clean_userid u) := by
  unfold before_response at h
  cases hs : env.stdin with
  | blocked => rw [hs] at h; exact absurd h (by simp)
  | read input =>
    rw [hs] at h
    simp only at h
    cases hok : (parse_query cfg env input).ok with
    | false =>
      rw [hok] at h
      simp only [Bool.not_false, if_true, Option.some.injEq, Step.done.injEq] at h
      subst h
      simp [Globals.init]
    | true =>
      rw [hok] at h
      simp only [Bool.not_true, Bool.false_eq_true, if_false] at h
      unfold resolve at h
      simp only at h
      obtain ⟨l1, l2⟩ := lookup_clean cfg env { (parse_query cfg env input).query with
        ip_in_query_extension := cfg.forward_original_ip }
      cases hlk : lookup cfg env { (parse_query cfg env input).query with
          ip_in_query_extension := cfg.forward_original_ip } with
      | mk g st =>
        rw [hlk] at h l1 l2
        simp only at l1 l2
        cases st with
        | fatal => exact absurd h (by simp)
        | expired => exact absurd h (by simp)
        | done found =>
          simp only [Option.some.injEq, Step.done.injEq] at h
          subst h
          refine ⟨fun i hi => l1 i hi, fun hfa u hu => l2 hfa u ?_⟩
          simp only at hu
          rw [hu]

theorem response_header_bytes (q : ident_query) :
    ∀ c ∈ response_header q, c ≠ 13 ∧ c ≠ 10 := by
  intro c hc
  unfold response_header at hc
  simp only [List.mem_append] at hc
  have hd : ∀ n, c ∈ fmt_u n → c ≠ 13 ∧ c ≠ 10 := by
    intro n hn
    have := (fmt_u_spec n).2.1 c hn
    constructor <;> (intro h; subst h; revert this; decide)
  rcases hc with ((hc | hc) | hc) | hc
  · exact hd _ hc
  · exact (by decide : ∀ x ∈ str ",", x ≠ 13 ∧ x ≠ 10) c hc
  · exact hd _ hc
  · exact (by decide : ∀ x ∈ str ":", x ≠ 13 ∧ x ≠ 10) c hc

theorem response_body_bytes (found info : Option (List Nat)) (err : List Nat)
    (hfound : ∀ u, found = some u → clean_userid u)
    (hinfo : ∀ i, info = some i → clean_info i)
    (herr : err = str "NO-USER" ∨ err = str "INVALID-PORT") :
    ∃ body, response_body found info err = body ++ [13, 10] ∧
      ∀ c ∈ body, c ≠ 13 ∧ c ≠ 10 := by
  have hi : ∀ d, (∀ c ∈ d, c ≠ 13 ∧ c ≠ 10) → ∀ c ∈ info.getD d, c ≠ 13 ∧ c ≠ 10 := by
    intro d hd c hc
    cases h : info with
    | none => rw [h] at hc; exact hd c hc
    | some i =>
      rw [h] at hc
      obtain ⟨_, _, h3⟩ := hinfo i h
      obtain ⟨_, _, _, h32, _⟩ := h3 c hc
      constructor <;> omega
  have herr2 : ∀ c ∈ err, c ≠ 13 ∧ c ≠ 10 := by
    rcases herr with h | h <;> subst h <;> decide
  unfold response_body
  cases hf : found with
  | none =>
    refine ⟨str "ERROR:" ++ info.getD err, by simp [str], ?_⟩
    intro c hc
    rcases List.mem_append.mp hc with hc | hc
    · exact (by decide : ∀ x ∈ str "ERROR:", x ≠ 13 ∧ x ≠ 10) c hc
    · exact hi err herr2 c hc
  | some u =>
    refine ⟨str "USERID:" ++ info.getD (str "UNIX") ++ str ":" ++ u, by simp [str], ?_⟩
    intro c hc
    simp only [List.mem_append] at hc
    rcases hc with ((hc | hc) | hc) | hc
    · exact (by decide : ∀ x ∈ str "USERID:", x ≠ 13 ∧ x ≠ 10) c hc
    · exact hi _ (by decide) c hc
    · exact (by decide : ∀ x ∈ str ":", x ≠ 13 ∧ x ≠ 10) c hc
    · obtain ⟨h1, h2, _⟩ := (hfound u hf).2 c hc
      exact ⟨h1, h2⟩

/-- C25: whatever `forward_query` returns is a user id of at most 511 bytes
with no CR, LF or NUL in it, and whatever it records in `additional_info` is
not empty, at most 510 bytes long and free of colons, spaces, tabs, control
bytes and bytes from 0x7F on; so in every run in which a forward was attempted
the user id and the info field `main` holds are that clean, and the response
line it writes has one CR LF, at its end, and no other CR or LF. -/
theorem forwarded_results_clean (cfg : Config) (env : Env) :
    (∀ addrs (g : Globals) q, g.additional_info = none →
      (∀ u, (forward_query addrs g q).result = Step.done (some u) → clean_userid u) ∧
      (∀ i, (forward_query addrs g q).globals.additional_info = some i → clean_info i)) ∧
    (∀ a line, before_response cfg env = Step.done a →
      a.globals.forwarding_attempted = true →
      main cfg env = Outcome.response line →
      (∀ u, a.found_result = some u → clean_userid u) ∧
      (∀ i, a.globals.additional_info = some i → clean_info i) ∧
      ∃ body, line = body ++ [13, 10] ∧ 13 ∉ body ∧ 10 ∉ body) := by
  refine ⟨?_, ?_⟩
  · intro addrs g q hg
    exact forward_query_clean addrs g q (fun i hi => by rw [hg] at hi; exact absurd hi (by simp))
  · intro a line hb hfa hmain
    obtain ⟨hinfo, huser⟩ := before_response_clean cfg env a hb
    obtain ⟨herr, _⟩ := before_response_error cfg env a hb
    refine ⟨huser hfa, hinfo, ?_⟩
    rw [main_of_state cfg env a hb, apply_fixed_skipped _ _ (Or.inr hfa)] at hmain
    simp only at hmain
    unfold write_response at hmain
    split at hmain
    · exact absurd hmain (by simp [handle_alarm])
    · split at hmain
      · exact absurd hmain (by simp)
      · simp only [Outcome.response.injEq] at hmain
        obtain ⟨body, hbody, hclean⟩ := response_body_bytes a.found_result
          a.globals.additional_info a.error_result (huser hfa) hinfo herr
        have hhead := response_header_bytes a.query
        refine ⟨response_header a.query ++ body, ?_, ?_, ?_⟩
        · rw [← hmain, response_line, hbody, List.append_assoc]
        · intro h
          rcases List.mem_append.mp h with h | h
          · exact (hhead 13 h).1 rfl
          · exact (hclean 13 h).1 rfl
        · intro h
          rcases List.mem_append.mp h with h | h
          · exact (hhead 10 h).2 rfl
          · exact (hclean 10 h).2 rfl

/-- C25, witness: scenario 3; the forwarded answer `bob` gives a response line
with one CR LF, at its end. -/
theorem forwarded_results_clean_witness :
    ∃ body, str "34567,443:USERID:UNIX:bob\r\n" = body ++ [13, 10] ∧ 13 ∉ body ∧ 10 ∉ body :=
  ((forwarded_results_clean default_config (nat_env (str "51000,443:USERID:UNIX:bob\r\n"))).2
    { query := ⟨34567, 443, none, none, AF_INET, false⟩, found_result := some (str "bob"),
      error_result := str "NO-USER",
      globals := { Globals.init with forwarding_attempted := true,
                                     additional_info := some (str "UNIX") } }
    (str "34567,443:USERID:UNIX:bob\r\n") (by decide) rfl (by decide)).2.2

/-- The 511th byte of the user id ends the reply loop: the buffer is full. -/
theorem reply_fill_exact (u : List Nat) (e : Bool) (i : Option (List Nat))
    (rest : List recv_event) (hb : userid_bytes u) (hlen : u.length = 511) :
    reply_loop ⟨FIELD_USERID, [], e, none, i⟩ (u.map recv_event.byte ++ rest) =
      (⟨FIELD_USERID, u, e, none, i⟩, reply_exit.finished) := by
  rcases List.eq_nil_or_concat u with h | ⟨v, c, h⟩
  · rw [h] at hlen; exact absurd hlen (by decide)
  · rw [List.concat_eq_append] at h
    subst h
    have hv : userid_bytes v := fun x hx => hb x (by simp [hx])
    obtain ⟨c13, c10, c0⟩ := hb c (by simp)
    have hvl : v.length = 510 := by
      simp only [List.length_append, List.length_cons, List.length_nil] at hlen
      omega
    have e1 : (v ++ [c]).map recv_event.byte ++ rest =
        v.map recv_event.byte ++ recv_event.byte c :: rest := by
      simp [List.append_assoc]
    rw [e1, reply_fill_userid v [] e i _ hv (by simp [hvl]), List.nil_append, reply_loop]
    have hterm : ¬ (((⟨FIELD_USERID, v, e, none, i⟩ : reply_state).field ≠ FIELD_USERID ∧
        c = 58) ∨ c = 13 ∨ c = 10) := by
      rintro (⟨h, _⟩ | h | h)
      · exact h rfl
      · exact c13 h
      · exact c10 h
    simp only [c0, if_false, hterm, true_or, if_true, List.length_append, hvl,
      List.length_cons, List.length_nil]

/-- C23: when the reply has a `USERID` reply type and the user id field
receives 511 bytes, none of them CR, LF or NUL, with no end-of-line between
them, `forward_query` stops reading and returns exactly these 511 bytes,
whatever follows them; and when the reply loop ends with the buffer full
(511 bytes stored) in a field other than the user id, `forward_query` returns
no user id. -/
theorem userid_fills_buffer (g : Globals) (query : ident_query)
    (cands : List candidate) (c : connection)
    (hconn : connects g cands c) (hfit : (request_text query).length < 513)
    (hsend : sends_all query c) (hg : g.additional_info = none) :
    (∀ ports type info u rest,
      field_bytes ports → field_bytes type → field_bytes info → userid_bytes u →
      (kept ports).length < 511 → (kept info).length < 511 →
      kept type = str "USERID" → u.length = 511 →
      c.reply =
        (ports ++ [58] ++ type ++ [58] ++ info ++ [58] ++ u).map recv_event.byte ++ rest →
      (forward_query (some cands) g query).result = Step.done (some u)) ∧
    (∀ st, reply_loop reply_start c.reply = (st, reply_exit.finished) →
      st.p.length = 511 → st.field ≠ FIELD_USERID →
      (forward_query (some cands) g query).result = Step.done none) := by
  refine ⟨?_, ?_⟩
  · intro ports type info u rest hports htype hinfo huser hkp hki hkt hlen hreply
    have hktl : (kept type).length < 511 := by rw [hkt]; decide
    have e : (ports ++ [58] ++ type ++ [58] ++ info ++ [58] ++ u).map recv_event.byte ++ rest =
        (ports ++ [58] ++ type ++ [58] ++ info).map recv_event.byte ++
          recv_event.byte 58 :: (u.map recv_event.byte ++ rest) := by
      simp [List.append_assoc]
    have hloop : reply_loop ⟨FIELD_PORTS, [], false, none, none⟩ c.reply =
        (⟨FIELD_USERID, u, false, none, if kept info = [] then none else some (kept info)⟩,
          reply_exit.finished) := by
      rw [hreply, e, reply_loop_header ports type info 58 _ hports htype hinfo hkp hktl hki
        (Or.inl rfl), if_neg (by simp [hkt]), if_pos rfl,
        reply_fill_exact u _ _ _ huser hlen]
    obtain ⟨h1, _⟩ := forward_query_reply g query cands c _ hconn hfit hsend hg (Or.inl hloop)
    rw [h1]
    have hne : u ≠ [] := by
      intro h; rw [h] at hlen; exact absurd hlen (by decide)
    simp [accept_truncated, hne]
  · intro st hloop hfull hfield
    obtain ⟨_, _, p3, _⟩ := reply_loop_clean c.reply reply_start reply_inv_start
    rw [hloop] at p3
    simp only at p3
    have hnone : st.response = none := by
      cases hr : st.response with
      | none => rfl
      | some r =>
        have := (p3 r hr).2.2
        rw [this] at hfull
        exact absurd hfull (by decide)
    obtain ⟨h1, _⟩ := forward_query_reply g query cands c st hconn hfit hsend hg (Or.inl hloop)
    rw [h1]
    simp [accept_truncated, hfield, hnone]

set_option maxRecDepth 100000 in
/-- C23, witness: after `51000,443:USERID:UNIX:` the host sends 511 times `a`
and then `zzz` and CR LF; the user id returned is the 511 `a`. -/
theorem userid_fills_buffer_witness :
    (forward_query
        (some [candidate.connected
          (downstream (str "51000,443:USERID:UNIX:" ++ List.replicate 511 97 ++ str "zzz\r\n"))])
        Globals.init ⟨51000, 443, none, none, 0, false⟩).result
      = Step.done (some (List.replicate 511 97)) :=
  (userid_fills_buffer Globals.init ⟨51000, 443, none, none, 0, false⟩
    [candidate.connected
      (downstream (str "51000,443:USERID:UNIX:" ++ List.replicate 511 97 ++ str "zzz\r\n"))]
    (downstream (str "51000,443:USERID:UNIX:" ++ List.replicate 511 97 ++ str "zzz\r\n"))
    (by decide) (by decide) (by decide) rfl).1
    (str "51000,443") (str "USERID") (str "UNIX") (List.replicate 511 97)
    ((str "zzz\r\n").map recv_event.byte)
    (by decide) (by decide) (by decide) (by decide) (by decide) (by decide) (by decide)
    (by decide) (by decide)

/-- C26: the reply loop has read `pre` and waits for the next byte in the
state `st`, and what arrives is a NUL byte or a failure of `recv` other than
`EAGAIN` or `EINTR`.  The loop is in one of the four fields; in the user id
field the reply type was `USERID`, and `forward_query` returns the bytes
accumulated there when there is at least one and no user id when there is
none; in an earlier field it returns no user id. -/
theorem reply_stops_short (g : Globals) (query : ident_query)
    (cands : List candidate) (c : connection) (pre : List recv_event) (stop : recv_event)
    (rest : List recv_event) (st : reply_state)
    (hconn : connects g cands c) (hfit : (request_text query).length < 513)
    (hsend : sends_all query c) (hg : g.additional_info = none)
    (hpre : reply_loop reply_start pre = (st, reply_exit.blocked))
    (hstop : stop = recv_event.byte 0 ∨ stop = recv_event.failed)
    (hreply : c.reply = pre ++ stop :: rest) :
    st.field ≤ FIELD_USERID ∧
    (st.field = FIELD_USERID → st.is_error = false) ∧
    (st.field = FIELD_USERID → st.p ≠ [] →
      (forward_query (some cands) g query).result = Step.done (some st.p)) ∧
    (st.field = FIELD_USERID → st.p = [] →
      (forward_query (some cands) g query).result = Step.done none) ∧
    (st.field < FIELD_USERID →
      (forward_query (some cands) g query).result = Step.done none) := by
  have hpost := reply_loop_clean pre reply_start reply_inv_start
  rw [hpre] at hpost
  obtain ⟨i1, i2, _, _, _, _, i7⟩ := hpost.2.2.2.2.2 rfl
  simp only at i1 i2 i7
  have hloop : reply_loop reply_start c.reply = (st, reply_exit.finished) := by
    rw [hreply, reply_loop_blocked_append pre _ _ _ hpre]
    rcases hstop with h | h <;> subst h <;> simp [reply_loop]
  obtain ⟨h1, _⟩ := forward_query_reply g query cands c st hconn hfit hsend hg (Or.inl hloop)
  rw [h1]
  refine ⟨i2, i7, ?_, ?_, ?_⟩
  · intro hf hp
    simp [accept_truncated, i1, i7 hf, hf, hp]
  · intro _ hp
    simp [accept_truncated, i1, hp]
  · intro hf
    have : st.field ≠ FIELD_USERID := Nat.ne_of_lt hf
    simp [accept_truncated, i1, this]

/-- C26, witness: the host sends `51000,443:USERID:UNIX:bo` and then a NUL
byte; the user id returned is `bo`. -/
theorem reply_stops_short_witness :
    (forward_query
        (some [candidate.connected (downstream (str "51000,443:USERID:UNIX:bo" ++ [0]))])
        Globals.init ⟨51000, 443, none, none, 0, false⟩).result
      = Step.done (some (str "bo")) :=
  (reply_stops_short Globals.init ⟨51000, 443, none, none, 0, false⟩
    [candidate.connected (downstream (str "51000,443:USERID:UNIX:bo" ++ [0]))]
    (downstream (str "51000,443:USERID:UNIX:bo" ++ [0]))
    ((str "51000,443:USERID:UNIX:bo").map recv_event.byte) (recv_event.byte 0) []
    ⟨FIELD_USERID, str "bo", false, none, some (str "UNIX")⟩
    (by decide) (by decide) (by decide) rfl (by decide) (Or.inl rfl) (by decide)).2.2.1
    rfl (by decide)

/-! ## Claims on the forwarded query -/

theorem flag_rises_of_false (l : List Globals) (final : Globals)
    (h : ∀ a ∈ l, a.forwarding_attempted = false) : flag_rises l final := by
  refine ⟨?_, fun a ha hf => ?_⟩
  · induction l with
    | nil => exact List.Pairwise.nil
    | cons a l ih =>
      refine List.pairwise_cons.mpr ⟨fun b _ hf => ?_, ih (fun x hx => h x (by simp [hx]))⟩
      rw [h a (by simp)] at hf
      exact absurd hf (by simp)
  · rw [h a ha] at hf
    exact absurd hf (by simp)

theorem flag_rises_of_true (l : List Globals) (final : Globals)
    (h : ∀ a ∈ l, a.forwarding_attempted = true) (hf : final.forwarding_attempted = true) :
    flag_rises l final := by
  refine ⟨?_, fun _ _ _ => hf⟩
  induction l with
  | nil => exact List.Pairwise.nil
  | cons a l ih =>
    exact List.pairwise_cons.mpr
      ⟨fun b hb _ => h b (by simp [hb]), ih (fun x hx => h x (by simp [hx]))⟩

theorem flag_rises_append (l1 l2 : List Globals) (final : Globals)
    (h1 : ∀ a ∈ l1, a.forwarding_attempted = false) (h2 : flag_rises l2 final) :
    flag_rises (l1 ++ l2) final := by
  obtain ⟨p1, q1⟩ := flag_rises_of_false l1 final h1
  refine ⟨List.pairwise_append.mpr ⟨p1, h2.1, fun a ha b _ hf => ?_⟩, fun a ha => ?_⟩
  · rw [h1 a ha] at hf
    exact absurd hf (by simp)
  · rcases List.mem_append.mp ha with ha | ha
    · exact q1 a ha
    · exact h2.2 a ha

theorem reply_steps_flag (conn : Option connection) (g : Globals) (q : ident_query) :
    ∀ a ∈ reply_steps conn g q, a.forwarding_attempted = g.forwarding_attempted := by
  have hc : ∀ x : Globals,
      (close_query_fd x).forwarding_attempted = x.forwarding_attempted := by
    intro x; rw [close_query_fd_eq]
  intro a ha
  unfold reply_steps at ha
  cases conn with
  | none => simp at ha
  | some c =>
    simp only at ha
    split at ha
    · simp at ha
    · split at ha
      · simp at ha
      · split at ha
        · simp at ha
        · split at ha
          · simp only [List.mem_singleton] at ha
            rw [ha, hc]
          · have hs : ∀ st : reply_state,
                (match st.info with
                  | some i =>
                    ({ g with additional_info := some i, additional_info_freed := false } :
                      Globals)
                  | none => g).forwarding_attempted = g.forwarding_attempted := by
              intro st
              cases st.info <;> rfl
            split at ha
            · simp only [List.mem_singleton] at ha
              rw [ha, hs]
            · simp only [List.mem_cons, List.mem_singleton, List.not_mem_nil, or_false] at ha
              rcases ha with ha | ha
              · rw [ha, hs]
              · rw [ha, hc, hs]
            · simp only [List.mem_cons, List.mem_singleton, List.not_mem_nil, or_false] at ha
              rcases ha with ha | ha
              · rw [ha, hs]
              · rw [ha, hc, hs]

theorem forward_query_flag_set (cands : List candidate) (g : Globals) (q : ident_query)
    (fd : Int) (conn : Option connection)
    (h : connect_loop ((close_query_fd { g with forward_address := true }).query_fd, none)
      cands = (fd, some conn)) :
    (forward_query (some cands) g q).globals.forwarding_attempted = true := by
  have hc : ∀ x : Globals,
      (close_query_fd x).forwarding_attempted = x.forwarding_attempted := by
    intro x; rw [close_query_fd_eq]
  unfold forward_query
  simp only
  rw [h]
  simp only
  cases conn with
  | none => rfl
  | some c =>
    simp only
    split
    · rfl
    · split
      · rfl
      · split
        · rfl
        · split
          · simp only [hc]
          · split <;> rename_i st _ <;> cases hi : st.info <;> simp [hi, hc]

theorem forward_query_steps_rises (addrs : Option (List candidate)) (g : Globals)
    (q : ident_query) (hg : g.forwarding_attempted = false) :
    flag_rises (forward_query_steps addrs g q) (forward_query addrs g q).globals := by
  have hc : ∀ x : Globals,
      (close_query_fd x).forwarding_attempted = x.forwarding_attempted := by
    intro x; rw [close_query_fd_eq]
  cases addrs with
  | none => exact flag_rises_of_false _ _ (by simp [forward_query_steps])
  | some cands =>
    cases hcl : connect_loop
      ((close_query_fd { g with forward_address := true }).query_fd, none) cands with
    | mk fd oc =>
      cases oc with
      | none =>
        apply flag_rises_of_false
        unfold forward_query_steps
        simp only [hcl]
        intro a ha
        simp only [List.mem_cons, List.mem_singleton, List.not_mem_nil, or_false] at ha
        rcases ha with ha | ha | ha <;> rw [ha] <;> simp [hc, hg]
      | some conn =>
        have hfinal := forward_query_flag_set cands g q fd conn hcl
        unfold forward_query_steps
        simp only [hcl]
        apply flag_rises_append
        · intro a ha
          simp only [List.mem_cons, List.mem_singleton, List.not_mem_nil, or_false] at ha
          rcases ha with ha | ha | ha | ha <;> rw [ha] <;>
            simp [hc, hg, clean_up_forwarding]
        · apply flag_rises_of_true _ _ _ hfinal
          intro a ha
          rcases List.mem_cons.mp ha with ha | ha
          · rw [ha]
          · rw [reply_steps_flag _ _ _ a ha]

theorem conntrack_steps_rises (path : Option (List Nat)) (pipe : pipe_env)
    (addrs : List Nat → Option (List candidate)) (g : Globals) (q : ident_query) :
    flag_rises (conntrack_steps path pipe addrs g q) (conntrack path pipe addrs g q).1 := by
  unfold conntrack_steps conntrack
  simp only
  cases conntrack_command path q with
  | none => exact flag_rises_of_false _ _ (by simp)
  | some cmd =>
    simp only
    cases pipe.popen_ok with
    | false => exact flag_rises_of_false _ _ (by simp)
    | true =>
      simp only [Bool.not_true, Bool.false_eq_true, if_false]
      cases conntrack_forward q pipe.lines with
      | none =>
        simp only
        cases pipe.eof <;> exact flag_rises_of_false _ _ (by simp)
      | some call =>
        simp only
        exact flag_rises_append [_, _, _] _ _ (by simp)
          (forward_query_steps_rises (addrs call.destination) _ call.query rfl)

theorem netlink_steps_flag (libc : Libc) (nl : netlink_env) (g : Globals) (q : ident_query) :
    ∀ a ∈ netlink_steps libc nl g q, a.forwarding_attempted = g.forwarding_attempted := by
  intro a ha
  unfold netlink_steps at ha
  cases hs : nl.socket with
  | none =>
    simp only [hs, List.mem_singleton] at ha
    rw [ha]
  | some fd =>
    simp only [hs] at ha
    split at ha <;>
      simp only [List.mem_cons, List.mem_singleton, List.not_mem_nil, or_false] at ha
    · rcases ha with ha | ha <;> rw [ha]
    · rw [ha]
    · rw [ha]

theorem lookup_steps_rises (cfg : Config) (env : Env) (q : ident_query) :
    flag_rises (lookup_steps cfg env q) (lookup cfg env q).1 := by
  have hn : ∀ a ∈ (if cfg.fixed_local_result.isNone then
      netlink_steps env.libc env.nl Globals.init q else []),
      a.forwarding_attempted = false := by
    intro a ha
    split at ha
    · exact netlink_steps_flag _ _ _ _ a ha
    · simp at ha
  unfold lookup_steps lookup
  apply flag_rises_append _ _ _ hn
  cases local_lookup cfg env Globals.init q with
  | mk g1 st =>
    cases st with
    | fatal => exact flag_rises_of_false _ _ (by simp)
    | expired => exact flag_rises_of_false _ _ (by simp)
    | done found =>
      simp only
      split
      · exact conntrack_steps_rises _ _ _ _ _
      · exact flag_rises_of_false _ _ (by simp)

theorem main_steps_pairwise (cfg : Config) (env : Env) :
    (main_steps cfg env).Pairwise keeps_flag := by
  unfold main_steps
  refine List.pairwise_cons.mpr ⟨fun b _ hf => absurd hf (by simp [Globals.init]), ?_⟩
  cases env.stdin with
  | blocked => exact List.Pairwise.nil
  | read input =>
    simp only
    split
    · exact List.Pairwise.nil
    · obtain ⟨r1, r2⟩ := lookup_steps_rises cfg env
        { (parse_query cfg env input).query with
          ip_in_query_extension := cfg.forward_original_ip }
      cases hlk : lookup cfg env { (parse_query cfg env input).query with
          ip_in_query_extension := cfg.forward_original_ip } with
      | mk g st =>
        rw [hlk] at r2
        simp only at r2
        cases st with
        | fatal => simpa using r1
        | expired => simpa using r1
        | done found =>
          refine List.pairwise_append.mpr ⟨r1, by simp, ?_⟩
          intro a ha b hb hf
          have := r2 a ha hf
          simp only [List.mem_singleton] at hb
          rw [hb]
          exact this

theorem main_steps_last (cfg : Config) (env : Env) (a : answer)
    (h : before_response cfg env = Step.done a) :
    (main_steps cfg env).getLast? = some a.globals := by
  unfold before_response at h
  unfold main_steps
  cases hs : env.stdin with
  | blocked => rw [hs] at h; exact absurd h (by simp)
  | read input =>
    rw [hs] at h
    simp only at h ⊢
    cases hok : (parse_query cfg env input).ok with
    | false =>
      rw [hok] at h
      simp only [Bool.not_false, if_true, Option.some.injEq, Step.done.injEq] at h
      subst h
      simp
    | true =>
      rw [hok] at h
      simp only [Bool.not_true, Bool.false_eq_true, if_false] at h ⊢
      unfold resolve at h
      simp only at h
      cases hlk : lookup cfg env { (parse_query cfg env input).query with
          ip_in_query_extension := cfg.forward_original_ip } with
      | mk g st =>
        rw [hlk] at h
        cases st with
        | fatal => exact absurd h (by simp)
        | expired => exact absurd h (by simp)
        | done found =>
          simp only [Option.some.injEq, Step.done.injEq] at h
          subst h
          rw [← List.cons_append, List.getLast?_append]
          rfl

/-- C21: along the states the process-wide variables go through in one run
of `main`, from the start of the process to the label `send_response`, a state
in which `forwarding_attempted` is true is followed only by states in which it
is true; and the last of these states is the one in which the fixed local
result is decided on. -/
theorem forwarding_attempted_monotone (cfg : Config) (env : Env) :
    (∀ (i j : Nat) (gi gj : Globals), i ≤ j → (main_steps cfg env)[i]? = some gi →
      (main_steps cfg env)[j]? = some gj →
      gi.forwarding_attempted = true → gj.forwarding_attempted = true) ∧
    (∀ a, before_response cfg env = Step.done a →
      (main_steps cfg env).getLast? = some a.globals) := by
  refine ⟨?_, main_steps_last cfg env⟩
  intro i j gi gj hij hi hj hf
  rcases Nat.lt_or_eq_of_le hij with hlt | heq
  · obtain ⟨bi, ei⟩ := List.getElem?_eq_some.mp hi
    obtain ⟨bj, ej⟩ := List.getElem?_eq_some.mp hj
    have := List.pairwise_iff_getElem.mp (main_steps_pairwise cfg env) i j bi bj hlt
    rw [ei, ej] at this
    exact this hf
  · subst heq
    rw [hi] at hj
    simp only [Option.some.injEq] at hj
    rw [← hj]
    exact hf

/-- C21, witness: scenario 3; the run ends in the state in which
`forwarding_attempted` is true, and that is the state the fixed local result
is decided on. -/
theorem forwarding_attempted_monotone_witness :
    (main_steps default_config (nat_env (str "51000,443:USERID:UNIX:bob\r\n"))).getLast? =
      some { Globals.init with forwarding_attempted := true,
                               additional_info := some (str "UNIX") } :=
  (forwarding_attempted_monotone default_config
    (nat_env (str "51000,443:USERID:UNIX:bob\r\n"))).2
    { query := ⟨34567, 443, none, none, AF_INET, false⟩, found_result := some (str "bob"),
      error_result := str "NO-USER",
      globals := { Globals.init with forwarding_attempted := true,
                                     additional_info := some (str "UNIX") } }
    (by decide)

end Aidentd
